import Mathlib

/-!
# hildon-home: shortcut registry of the applet and task managers

Shallow embedding of `src/hd-applet-manager.c`, `src/hd-task-manager.c`,
`src/hd-change-background-dialog.c` and `src/hd-bookmark-manager.c`.

C strings are Lean strings; where the C code counts or cuts bytes, the bytes
are those of the UTF-8 encoding (`string_bytes`). GLib hash tables are
association lists whose order stands for the (unspecified) iteration order of
the table, a `GKeyFile` is the list of its groups in file order, and a
`GtkTreeIter` is the index of a row. A function whose C original can
dereference a `NULL` pointer or fail to leave a loop returns an `Option`;
`none` is that outcome. A read of a buffer that has been freed yields a string
the program does not determine; the environment of the function supplies it.
-/

namespace HildonHome

/-! ## GLib helpers -/

/-- The separator tested by `G_IS_DIR_SEPARATOR` on Unix. -/
def G_DIR_SEPARATOR : Char := '/'

/-- GLib `g_path_get_basename`: `"."` for the empty string, `"/"` for a string
made of separators only, otherwise the last component with trailing separators
dropped. -/
def g_path_get_basename (file_name : String) : String :=
  if file_name.data = [] then "."
  else
    let r := file_name.data.reverse.dropWhile (fun c => c == G_DIR_SEPARATOR)
    if r = [] then "/"
    else String.mk (r.takeWhile (fun c => c != G_DIR_SEPARATOR)).reverse

/-- The bytes of a C string that holds the text `s`: its UTF-8 encoding.
Lengths and cuts of the C code count these bytes. -/
def string_bytes (s : String) : List UInt8 :=
  s.data.flatMap String.utf8EncodeChar

/-- Number of values of a `guint`; `i++` on a `guint` is addition modulo this.
The node count of a `GHashTable` is a 32-bit integer too, so a table has fewer
keys than this. -/
def G_UINT_RANGE : Nat := 2 ^ 32

/-- The string `g_strdup_printf ("%s-%u", basename, i)` produces. -/
def format_id (basename : String) (i : Nat) : String :=
  basename ++ "-" ++ Nat.repr i

/-- Value of a decimal digit character. -/
def digit_value (c : Char) : Nat := c.toNat - 48

/-- Value of a string of decimal digits, most significant first. -/
def digits_value (l : List Char) : Nat :=
  l.foldl (fun a c => a * 10 + digit_value c) 0

/-- A `GHashTable` with string keys whose values are all `GUINT_TO_POINTER (1)`:
the list of its keys. -/
abbrev GHashSet := List String

/-- `g_hash_table_insert` on a string set: an equal key already present is kept. -/
def g_hash_table_insert (t : GHashSet) (key : String) : GHashSet :=
  if key ∈ t then t else t ++ [key]

/-- `g_hash_table_lookup` on a string set, as the pointer value returned:
`1` for a key that is present and `0` (`NULL`) otherwise. -/
def g_hash_table_lookup (t : GHashSet) (key : String) : Nat :=
  if key ∈ t then 1 else 0

/-- A `GHashTable` from strings to records. -/
abbrev GHashMap (V : Type) := List (String × V)

/-- `g_hash_table_lookup` on a map: `none` is `NULL`. -/
def g_hash_map_lookup {V : Type} (t : GHashMap V) (key : String) : Option V :=
  match t with
  | [] => none
  | (k, v) :: rest => if k = key then some v else g_hash_map_lookup rest key

/-- `g_hash_table_insert` on a map: the value of an equal key is replaced,
a new key is added. -/
def g_hash_map_insert {V : Type} (t : GHashMap V) (key : String) (value : V) : GHashMap V :=
  match t with
  | [] => [(key, value)]
  | (k, v) :: rest =>
    if k = key then (k, value) :: rest else (k, v) :: g_hash_map_insert rest key value

/-! ## Key files -/

/-- A `GKeyFile`: its groups in file order, each with its key/value pairs.
Group names are unique in a key file GLib has loaded or built. -/
abbrev GKeyFile := List (String × List (String × String))

/-- `g_key_file_get_groups`. -/
def g_key_file_get_groups (key_file : GKeyFile) : List String :=
  key_file.map Prod.fst

/-- Value of `key` among the pairs of one group. -/
def key_value_lookup (pairs : List (String × String)) (key : String) : Option String :=
  match pairs with
  | [] => none
  | (k, v) :: rest => if k = key then some v else key_value_lookup rest key

/-- `g_key_file_get_string` with a `NULL` error argument: `none` when the group
or the key is missing. -/
def g_key_file_get_string (key_file : GKeyFile) (group_name key : String) : Option String :=
  match key_file with
  | [] => none
  | (g, pairs) :: rest =>
    if g = group_name then key_value_lookup pairs key
    else g_key_file_get_string rest group_name key

/-- Set `key` to `value` among the pairs of one group. -/
def key_value_set (pairs : List (String × String)) (key value : String) :
    List (String × String) :=
  match pairs with
  | [] => [(key, value)]
  | (k, v) :: rest =>
    if k = key then (k, value) :: rest else (k, v) :: key_value_set rest key value

/-- GLib `g_ascii_iscntrl`: the codes below 32 and the code 127. -/
def g_ascii_iscntrl (c : Char) : Bool :=
  decide (c.toNat < 32) || c.toNat == 127

/-- The test `g_key_file_is_group_name` makes on each character: it is not
`[`, not `]` and not a control character. -/
def group_name_char (c : Char) : Bool :=
  c != '[' && c != ']' && !g_ascii_iscntrl c

/-- GLib `g_key_file_is_group_name`: a group name is not empty and all its
characters pass the test. -/
def g_key_file_is_group_name (name : String) : Bool :=
  name.data != [] && name.data.all group_name_char

/-- What `g_key_file_set_string` records once it has accepted the group name:
the group and the key are created when missing. -/
def key_file_set_value (key_file : GKeyFile) (group_name key value : String) : GKeyFile :=
  match key_file with
  | [] => [(group_name, [(key, value)])]
  | (g, pairs) :: rest =>
    if g = group_name then (g, key_value_set pairs key value) :: rest
    else (g, pairs) :: key_file_set_value rest group_name key value

/-- `g_key_file_set_string`: it returns at once, with nothing recorded, when
`g_key_file_is_group_name` refuses the group name (`g_return_if_fail` in
`g_key_file_set_value`). The key is one GLib accepts, as `X-Desktop-File`, the
only key this program sets, is. -/
def g_key_file_set_string (key_file : GKeyFile) (group_name key value : String) : GKeyFile :=
  if g_key_file_is_group_name group_name then key_file_set_value key_file group_name key value
  else key_file

/-- `g_key_file_remove_group`: the key file without the group, and whether the
group was there. -/
def g_key_file_remove_group (key_file : GKeyFile) (group_name : String) : GKeyFile × Bool :=
  if group_name ∈ g_key_file_get_groups key_file then
    (key_file.filter (fun g => g.1 != group_name), true)
  else (key_file, false)

/-- GLib `g_ascii_isspace` on a byte: space, tab, line feed, form feed and
carriage return. -/
def g_ascii_isspace (c : UInt8) : Bool :=
  c == 32 || c == 9 || c == 10 || c == 12 || c == 13

/-- `strncmp (a, b, n) == 0` on the bytes of two strings. -/
def strncmp_eq (a b : List UInt8) (n : Nat) : Bool :=
  a.take n == b.take n

/-- GLib `g_key_file_parse_value_as_boolean`: `length` is the number of bytes
of the value up to its last byte that is not white space; the value is
compared with `true` and `1`, then with `false` and `0`, over
`MAX (length, strlen (word))` bytes. `none` when it sets an error. -/
def g_key_file_parse_value_as_boolean (value : String) : Option Bool :=
  let length := ((string_bytes value).reverse.dropWhile g_ascii_isspace).length
  if strncmp_eq (string_bytes value) (string_bytes "true") (max length 4) ||
      strncmp_eq (string_bytes value) (string_bytes "1") (max length 1) then some true
  else if strncmp_eq (string_bytes value) (string_bytes "false") (max length 5) ||
      strncmp_eq (string_bytes value) (string_bytes "0") (max length 1) then some false
  else none

/-- `g_key_file_get_boolean` with a `NULL` error argument: `TRUE` for a value
that is `true` or `1`, white space after it set aside, `FALSE` for every other
value and for a missing key. -/
def g_key_file_get_boolean (key_file : GKeyFile) (group_name key : String) : Bool :=
  match g_key_file_get_string key_file group_name key with
  | some v => g_key_file_parse_value_as_boolean v == some true
  | none => false

def G_KEY_FILE_DESKTOP_GROUP : String := "Desktop Entry"
def G_KEY_FILE_DESKTOP_KEY_NAME : String := "Name"
def ITEMS_KEY_DESKTOP_FILE : String := "X-Desktop-File"
def DESKTOP_KEY_TEXT_DOMAIN : String := "X-Text-Domain"
def DESKTOP_KEY_MULTIPLE : String := "X-Multiple"

/-! ## hd-applet-manager.c -/

/-- The record `HDPluginInfo`. -/
structure HDPluginInfo where
  name : String
  multiple : Bool
deriving DecidableEq

/-- What the applet manager reads from outside: the descriptor files
(`g_key_file_load_from_file`, `none` when it sets an error) and the message
catalogues (`dgettext`; `gettext` is the call with no domain). -/
structure DesktopEnv where
  load_from_file : String → Option GKeyFile
  dgettext : Option String → String → String

/-- The fields of `HDAppletManagerPrivate` the registry uses, with the items
file the plugin configuration keeps on disk: `items_store` is its content and
`store_writes` counts the calls of
`hd_plugin_configuration_store_items_key_file`. `applets_key_file` is set by
the first refresh; no row exists before it. -/
structure HDAppletManager where
  model : List (String × String)
  displayed_applets : GHashSet
  used_ids : GHashSet
  installed : GHashMap HDPluginInfo
  applets_key_file : GKeyFile
  items_store : GKeyFile
  store_writes : Nat
deriving DecidableEq

/-- First loop of `items_configuration_loaded_cb` (lines 90-110): every group
name goes into `used_ids`, every `X-Desktop-File` value into
`displayed_applets`. -/
def load_groups (key_file : GKeyFile) :
    List String → GHashSet → GHashSet → GHashSet × GHashSet
  | [], used_ids, displayed => (used_ids, displayed)
  | g :: groups, used_ids, displayed =>
    load_groups key_file groups (g_hash_table_insert used_ids g)
      (match g_key_file_get_string key_file g ITEMS_KEY_DESKTOP_FILE with
       | some desktop_file => g_hash_table_insert displayed desktop_file
       | none => displayed)

/-- Second loop of `items_configuration_loaded_cb` (lines 113-178). A path
already in `installed` is not read again; a file that fails to load is
skipped; a file that loads but has no `Name` reaches `error->message` with
`error` still `NULL`, the outcome `none`. -/
def load_plugins (env : DesktopEnv) :
    List String → GHashMap HDPluginInfo → Option (GHashMap HDPluginInfo)
  | [], installed => some installed
  | p :: plugins, installed =>
    match g_hash_map_lookup installed p with
    | some _ => load_plugins env plugins installed
    | none =>
      match env.load_from_file p with
      | none => load_plugins env plugins installed
      | some key_file =>
        match g_key_file_get_string key_file G_KEY_FILE_DESKTOP_GROUP
            G_KEY_FILE_DESKTOP_KEY_NAME with
        | none => none
        | some name =>
          let text_domain :=
            g_key_file_get_string key_file G_KEY_FILE_DESKTOP_GROUP DESKTOP_KEY_TEXT_DOMAIN
          let info : HDPluginInfo :=
            { name := env.dgettext text_domain name
              multiple :=
                g_key_file_get_boolean key_file G_KEY_FILE_DESKTOP_GROUP DESKTOP_KEY_MULTIPLE }
          load_plugins env plugins (g_hash_map_insert installed p info)

/-- Third loop of `items_configuration_loaded_cb` (lines 180-197): one row
(name, descriptor path) for each catalogue entry that is multiple or not
displayed. -/
def fill_model (displayed : GHashSet) (installed : GHashMap HDPluginInfo) :
    List (String × String) :=
  (installed.filter
    (fun e => e.2.multiple || g_hash_table_lookup displayed e.1 == 0)).map
    (fun e => (e.2.name, e.1))

/-- The callback `items_configuration_loaded_cb`; `plugins` is the result of
`hd_plugin_configuration_get_all_plugin_paths`. -/
def items_configuration_loaded_cb (env : DesktopEnv) (plugins : List String)
    (key_file : GKeyFile) (manager : HDAppletManager) : Option HDAppletManager :=
  let tables := load_groups key_file (g_key_file_get_groups key_file) [] []
  match load_plugins env plugins manager.installed with
  | none => none
  | some installed =>
    some { manager with
      applets_key_file := key_file
      used_ids := tables.1
      displayed_applets := tables.2
      installed := installed
      model := fill_model tables.2 installed }

/-- The loop "Find unique id" of `hd_applet_manager_install_applet`
(lines 326-328), run for at most `fuel` candidates from counter `i`: the
sequence number and the identifier it leaves with. -/
def find_unique_id_loop (used_ids : GHashSet) (basename : String) :
    Nat → Nat → Option (Nat × String)
  | 0, _ => none
  | fuel + 1, i =>
    let id := format_id basename i
    if g_hash_table_lookup used_ids id != 0 then
      find_unique_id_loop used_ids basename fuel ((i + 1) % G_UINT_RANGE)
    else some (i, id)

/-- The loop started at `i = 0`, with one candidate more than `used_ids` has
keys. -/
def find_unique_id (used_ids : GHashSet) (basename : String) : Option (Nat × String) :=
  find_unique_id_loop used_ids basename (used_ids.length + 1) 0

/-- The identifier `hd_applet_manager_install_applet` computes for the row at
`iter`. -/
def install_applet_id (manager : HDAppletManager) (iter : Nat) : Option String :=
  match manager.model.get? iter with
  | none => none
  | some row => (find_unique_id manager.used_ids (g_path_get_basename row.2)).map Prod.snd

/-- The function `hd_applet_manager_install_applet`; `none` for an iter that
points at no row or a loop that does not end. -/
def hd_applet_manager_install_applet (manager : HDAppletManager) (iter : Nat) :
    Option HDAppletManager :=
  match manager.model.get? iter with
  | none => none
  | some row =>
    let desktop_file := row.2
    let basename := g_path_get_basename desktop_file
    match find_unique_id manager.used_ids basename with
    | none => none
    | some (_, id) =>
      let key_file :=
        g_key_file_set_string manager.applets_key_file id ITEMS_KEY_DESKTOP_FILE desktop_file
      some { manager with
        applets_key_file := key_file
        items_store := key_file
        store_writes := manager.store_writes + 1 }

/-- The function `hd_applet_manager_remove_applet`. -/
def hd_applet_manager_remove_applet (manager : HDAppletManager) (plugin_id : String) :
    HDAppletManager :=
  let r := g_key_file_remove_group manager.applets_key_file plugin_id
  if r.2 then
    { manager with
      applets_key_file := r.1
      items_store := r.1
      store_writes := manager.store_writes + 1 }
  else manager

/-- The sequence number `n` is the smallest whose identifier is not in `used_ids`. -/
def least_unused (used_ids : GHashSet) (basename : String) (n : Nat) : Prop :=
  format_id basename n ∉ used_ids ∧ ∀ k, k < n → format_id basename k ∈ used_ids

/-- The reload the plugin configuration performs once the items file has been
written: the callback runs on the stored content. -/
def reload_items (env : DesktopEnv) (plugins : List String) (manager : HDAppletManager) :
    Option HDAppletManager :=
  items_configuration_loaded_cb env plugins manager.items_store manager

/-- One step of the applet registry. -/
inductive AppletOp where
  | install (iter : Nat)
  | remove (plugin_id : String)
  | reload (env : DesktopEnv) (plugins : List String)

/-- Effect of one step. -/
def apply_op (manager : HDAppletManager) : AppletOp → Option HDAppletManager
  | AppletOp.install iter => hd_applet_manager_install_applet manager iter
  | AppletOp.remove plugin_id => some (hd_applet_manager_remove_applet manager plugin_id)
  | AppletOp.reload env plugins => reload_items env plugins manager

/-- Effect of a sequence of steps. -/
def run_ops : HDAppletManager → List AppletOp → Option HDAppletManager
  | manager, [] => some manager
  | manager, op :: ops =>
    match apply_op manager op with
    | none => none
    | some next => run_ops next ops

/-- Installs of the rows `iters`, each followed by a reload: the identifiers
chosen, in order, and the final state. -/
def install_sequence (env : DesktopEnv) (plugins : List String) :
    HDAppletManager → List Nat → Option (List String × HDAppletManager)
  | manager, [] => some ([], manager)
  | manager, iter :: iters =>
    match install_applet_id manager iter, hd_applet_manager_install_applet manager iter with
    | some id, some written =>
      match reload_items env plugins written with
      | none => none
      | some reloaded =>
        match install_sequence env plugins reloaded iters with
        | none => none
        | some (ids, final) => some (id :: ids, final)
    | _, _ => none

/-- The state keeps the applet of `path` installed under `id` and out of the
model: `id` is a used identifier whose group names `path`, the stored items
file is the key file in memory, the catalogue has the record `info` for `path`,
and no row of the model is for `path`. -/
def hidden_under (path id : String) (info : HDPluginInfo) (s : HDAppletManager) : Prop :=
  id ∈ s.used_ids ∧
  g_key_file_get_string s.applets_key_file id ITEMS_KEY_DESKTOP_FILE = some path ∧
  s.items_store = s.applets_key_file ∧
  g_hash_map_lookup s.installed path = some info ∧
  (s.installed.map Prod.fst).Nodup ∧
  ∀ row, row ∈ s.model → row.2 ≠ path

/-- The cached identifiers are the group names of the key file, which is also
the stored items file: the state right after a reload. -/
def in_sync (s : HDAppletManager) : Prop :=
  (∀ x, x ∈ s.used_ids ↔ x ∈ g_key_file_get_groups s.applets_key_file) ∧
  s.items_store = s.applets_key_file

/-- At most one group of the key file has `X-Desktop-File` equal to `path`. -/
def at_most_one_group (key_file : GKeyFile) (path : String) : Prop :=
  ∀ g1 g2, g_key_file_get_string key_file g1 ITEMS_KEY_DESKTOP_FILE = some path →
    g_key_file_get_string key_file g2 ITEMS_KEY_DESKTOP_FILE = some path → g1 = g2

/-- What every state of the applet manager keeps from its last refresh on,
stated for the applet of `path`: the stored items file is the key file in
memory; `path` is catalogued as single-instance only; a group that is not a
cached identifier was written by an install since the refresh, under the
identifier an install of its descriptor chooses; and while `path` has a row in
the model, no group that is a cached identifier names `path`. -/
def applet_coherent (path : String) (s : HDAppletManager) : Prop :=
  s.items_store = s.applets_key_file ∧
  (∀ e, e ∈ s.installed → e.1 = path → e.2.multiple = false) ∧
  (∀ g p, g ∉ s.used_ids →
    g_key_file_get_string s.applets_key_file g ITEMS_KEY_DESKTOP_FILE = some p →
    (find_unique_id s.used_ids (g_path_get_basename p)).map Prod.snd = some g) ∧
  ((∃ row, row ∈ s.model ∧ row.2 = path) →
    ∀ g, g ∈ s.used_ids →
      g_key_file_get_string s.applets_key_file g ITEMS_KEY_DESKTOP_FILE ≠ some path)

/-- The descriptor of `path` has `X-Multiple` false in the files a reload step
reads. -/
def reload_reads_single (path : String) : AppletOp → Prop
  | AppletOp.reload env _ =>
    ∀ key_file, env.load_from_file path = some key_file →
      g_key_file_get_boolean key_file G_KEY_FILE_DESKTOP_GROUP DESKTOP_KEY_MULTIPLE = false
  | _ => True

/-- The paths `items_configuration_loaded_cb` hands to
`g_key_file_load_from_file` in its second loop (lines 113-178), in order: a
path found in `installed` is not read, every other path is read at each of its
places in the list, and nothing is read after a descriptor without `Name`. -/
def load_plugins_reads (env : DesktopEnv) :
    List String → GHashMap HDPluginInfo → List String
  | [], _ => []
  | p :: plugins, installed =>
    match g_hash_map_lookup installed p with
    | some _ => load_plugins_reads env plugins installed
    | none =>
      p :: (match env.load_from_file p with
        | none => load_plugins_reads env plugins installed
        | some key_file =>
          match g_key_file_get_string key_file G_KEY_FILE_DESKTOP_GROUP
              G_KEY_FILE_DESKTOP_KEY_NAME with
          | none => []
          | some name =>
            let text_domain :=
              g_key_file_get_string key_file G_KEY_FILE_DESKTOP_GROUP DESKTOP_KEY_TEXT_DOMAIN
            let info : HDPluginInfo :=
              { name := env.dgettext text_domain name
                multiple :=
                  g_key_file_get_boolean key_file G_KEY_FILE_DESKTOP_GROUP DESKTOP_KEY_MULTIPLE }
            load_plugins_reads env plugins (g_hash_map_insert installed p info))

/-! ## hd-task-manager.c -/

/-- The record `HDTaskInfo`. -/
structure HDTaskInfo where
  label : String
  icon : Option String
  exec : Option String
  service : Option String
deriving DecidableEq

/-- A row of the task list store: columns 0 (label), 1 (icon) and 2 (desktop
id); the pixbuf of column 3 is left out. -/
structure TaskRow where
  label : String
  icon : Option String
  desktop_id : String
deriving DecidableEq

/-- The GConf client as the task manager sees it: the string list stored under
`TASK_SHORTCUTS_GCONF_KEY` and whether a read or a write of it sets an error. -/
structure GConfClient where
  task_shortcuts : List String
  read_fails : Bool
  write_fails : Bool
deriving DecidableEq

/-- `gconf_client_set_list` on the shortcuts key: the client afterwards and
whether the error was set. -/
def gconf_client_set_list (client : GConfClient) (list : List String) : GConfClient × Bool :=
  if client.write_fails then (client, true)
  else ({ client with task_shortcuts := list }, false)

/-- The fields of `HDTaskManagerPrivate` the registry uses. `filtered_model`
holds the rows the tree model filter shows, as of its last evaluation of the
visible function. -/
structure HDTaskManagerPrivate where
  model : List TaskRow
  filtered_model : List TaskRow
  available_tasks : GHashMap HDTaskInfo
  installed_shortcuts : GHashSet
  gconf_client : GConfClient
deriving DecidableEq

/-- The function `filtered_model_visible_func`. -/
def filtered_model_visible_func (priv : HDTaskManagerPrivate) (row : TaskRow) : Bool :=
  g_hash_table_lookup priv.installed_shortcuts row.desktop_id == 0

/-- The function `hd_task_manager_install_task`: the state afterwards and
whether the warning about a failed write was logged; `none` for an iter that
points at no row. -/
def hd_task_manager_install_task (priv : HDTaskManagerPrivate) (tree_iter : Nat) :
    Option (HDTaskManagerPrivate × Bool) :=
  match priv.filtered_model.get? tree_iter with
  | none => none
  | some row =>
    let installed_shortcuts := g_hash_table_insert priv.installed_shortcuts row.desktop_id
    let list := installed_shortcuts
    let r := gconf_client_set_list priv.gconf_client list
    some ({ priv with installed_shortcuts := installed_shortcuts, gconf_client := r.1 }, r.2)

/-- `gconf_client_get_list` on the shortcuts key: `none` when the error is set. -/
def gconf_client_get_list (client : GConfClient) : Option (List String) :=
  if client.read_fails then none else some client.task_shortcuts

/-- The loop of `update_installed_shortcuts` (lines 332-338): the table is
emptied and every string of the list inserted. -/
def insert_all : List String → GHashSet → GHashSet
  | [], t => t
  | x :: rest, t => insert_all rest (g_hash_table_insert t x)

/-- `gtk_tree_model_filter_refilter`: the rows of the model the visible
function accepts now. -/
def gtk_tree_model_filter_refilter (priv : HDTaskManagerPrivate) : HDTaskManagerPrivate :=
  { priv with filtered_model := priv.model.filter (filtered_model_visible_func priv) }

/-- The function `update_installed_shortcuts`. -/
def update_installed_shortcuts (priv : HDTaskManagerPrivate) : HDTaskManagerPrivate :=
  match gconf_client_get_list priv.gconf_client with
  | none => priv
  | some list =>
    gtk_tree_model_filter_refilter { priv with installed_shortcuts := insert_all list [] }

/-- GLib `g_path_get_dirname`: `"."` when there is no separator, otherwise the
text before the last separator, the separators that end it dropped but the
first character always kept. -/
def g_path_get_dirname (file_name : String) : String :=
  if G_DIR_SEPARATOR ∈ file_name.data then
    match (file_name.data.reverse.dropWhile (fun c => c != G_DIR_SEPARATOR)).reverse with
    | [] => "."
    | c :: rest => String.mk (c :: (rest.reverse.dropWhile (fun d => d == G_DIR_SEPARATOR)).reverse)
  else "."

/-- The truncation `w50id_dot = strrchr (w50id, '.'); if (w50id_dot) *w50id_dot = 0`
(lines 129-131): the text before the last dot, the whole string without a dot. -/
def strip_extension (name : String) : String :=
  if '.' ∈ name.data then
    String.mk ((name.data.reverse.dropWhile (fun c => c != '.')).drop 1).reverse
  else name

def G_KEY_FILE_DESKTOP_KEY_TYPE : String := "Type"
def G_KEY_FILE_DESKTOP_TYPE_APPLICATION : String := "Application"
def G_KEY_FILE_DESKTOP_KEY_ICON : String := "Icon"
def G_KEY_FILE_DESKTOP_KEY_EXEC : String := "Exec"
def HD_KEY_FILE_DESKTOP_KEY_SERVICE : String := "X-Osso-Service"
def HD_KEY_FILE_DESKTOP_KEY_TRANSLATION_DOMAIN : String := "X-Text-Domain"

/-- What the task scan reads from outside: whether a path exists
(`g_file_test` with `G_FILE_TEST_EXISTS`), the descriptor files
(`g_key_file_load_from_file`, `none` when it fails), the message catalogues and
the build constant `GETTEXT_PACKAGE`. The last two fields are what a read of
the `desktop_id` buffer yields after `g_hash_table_insert` has freed it, for
the list store and for the signal, in the call that finds `rows` rows in the
list store: the program does not determine these strings. -/
structure TaskEnv where
  file_exists : String → Bool
  load_from_file : String → Option GKeyFile
  dgettext : String → String → String
  gettext_package : String
  freed_desktop_id : Nat → String
  freed_detail : Nat → String

/-- The task manager: its private fields and the details of the
`desktop-file-changed` signals emitted so far, oldest first. -/
structure HDTaskManager where
  priv : HDTaskManagerPrivate
  desktop_file_changed : List String
deriving DecidableEq

/-- The stem `w50id` of a file name after the truncation (lines 128-131). -/
def w50id (filename : String) : String :=
  strip_extension (g_path_get_basename filename)

/-- The name `w50_filename` (line 132). -/
def w50_filename (filename : String) : String :=
  g_path_get_dirname filename ++ "/" ++ w50id filename ++ ".w50-desktop"

/-- The catalogue key `desktop_id` (line 133). -/
def desktop_id (filename : String) : String :=
  w50id filename ++ ".desktop"

/-- Lines 186-219 of `hd_task_manager_load_desktop_file`: the record built from
a descriptor whose `Name` is `name`. -/
def task_info (env : TaskEnv) (desktop_file : GKeyFile) (name : String) : HDTaskInfo :=
  { label :=
      match g_key_file_get_string desktop_file G_KEY_FILE_DESKTOP_GROUP
          HD_KEY_FILE_DESKTOP_KEY_TRANSLATION_DOMAIN with
      | none => env.dgettext env.gettext_package name
      | some translation_domain => env.dgettext translation_domain name
    icon := g_key_file_get_string desktop_file G_KEY_FILE_DESKTOP_GROUP
      G_KEY_FILE_DESKTOP_KEY_ICON
    exec := g_key_file_get_string desktop_file G_KEY_FILE_DESKTOP_GROUP
      G_KEY_FILE_DESKTOP_KEY_EXEC
    service := g_key_file_get_string desktop_file G_KEY_FILE_DESKTOP_GROUP
      HD_KEY_FILE_DESKTOP_KEY_SERVICE }

/-- Lines 225-256 of `hd_task_manager_load_desktop_file`: the record goes into
`available_tasks` under `id`, a row is appended to the list store, which the
filter shows when the visible function accepts it, and the signal is emitted.
The table was made with `g_free` as key destroy function (lines 387-388): for
an `id` that is not yet a key the table keeps the buffer `desktop_id`, and the
row and the signal detail are `id`; for an `id` that is a key already,
`g_hash_table_insert` keeps the old key, replaces the record and frees
`desktop_id`, and the row and the signal read the freed buffer. -/
def add_task (env : TaskEnv) (manager : HDTaskManager) (id : String) (info : HDTaskInfo) :
    HDTaskManager :=
  let stored := g_hash_map_lookup manager.priv.available_tasks id
  let rows := manager.priv.model.length
  let row : TaskRow :=
    { label := info.label
      icon := info.icon
      desktop_id := if stored = none then id else env.freed_desktop_id rows }
  { priv := { manager.priv with
      available_tasks := g_hash_map_insert manager.priv.available_tasks id info
      model := manager.priv.model ++ [row]
      filtered_model :=
        if filtered_model_visible_func manager.priv row then
          manager.priv.filtered_model ++ [row]
        else manager.priv.filtered_model }
    desktop_file_changed := manager.desktop_file_changed ++
      [if stored = none then id else env.freed_detail rows] }

/-- The function `hd_task_manager_load_desktop_file`. -/
def hd_task_manager_load_desktop_file (env : TaskEnv) (manager : HDTaskManager)
    (filename : String) : HDTaskManager :=
  if filename != w50_filename filename && env.file_exists (w50_filename filename) then manager
  else
    match env.load_from_file filename with
    | none => manager
    | some desktop_file =>
      match g_key_file_get_string desktop_file G_KEY_FILE_DESKTOP_GROUP
          G_KEY_FILE_DESKTOP_KEY_TYPE with
      | none => manager
      | some type =>
        if type != G_KEY_FILE_DESKTOP_TYPE_APPLICATION then manager
        else
          match g_key_file_get_string desktop_file G_KEY_FILE_DESKTOP_GROUP
              G_KEY_FILE_DESKTOP_KEY_NAME with
          | none => manager
          | some name =>
            add_task env manager (desktop_id filename) (task_info env desktop_file name)

/-- The type flags `nftw` hands to its callback. -/
inductive FtwFlag where
  | FTW_F
  | FTW_D
  | FTW_DNR
  | FTW_NS
  | FTW_SL
  | FTW_DP
  | FTW_SLN
deriving DecidableEq

/-- The function `visit_func`: the manager afterwards and the value returned. -/
def visit_func (env : TaskEnv) (manager : HDTaskManager) (f_path : String)
    (type_flag : FtwFlag) : HDTaskManager × Int :=
  match type_flag with
  | FtwFlag.FTW_D => (manager, 0)
  | FtwFlag.FTW_F => (hd_task_manager_load_desktop_file env manager f_path, 0)
  | _ => (manager, 0)

/-- The walk of `nftw` over the entries of a tree, in the order it meets them:
the callback runs on each entry and the walk stops at the first value other
than 0, which it returns. -/
def nftw (env : TaskEnv) : List (String × FtwFlag) → HDTaskManager → HDTaskManager × Int
  | [], manager => (manager, 0)
  | (f_path, type_flag) :: rest, manager =>
    let r := visit_func env manager f_path type_flag
    if r.2 != 0 then r else nftw env rest r.1

/-- The function `hd_task_manager_scan_for_desktop_files` on a directory whose
tree has the entries `entries`. -/
def hd_task_manager_scan_for_desktop_files (env : TaskEnv) (entries : List (String × FtwFlag))
    (manager : HDTaskManager) : HDTaskManager :=
  (nftw env entries manager).1

/-- The record a regular file contributes to the catalogue, if any: the file
is not set aside for a `.w50-desktop` sibling, loads, has `Type` `Application`
and has a `Name`. -/
def accepted_info (env : TaskEnv) (filename : String) : Option HDTaskInfo :=
  if filename != w50_filename filename && env.file_exists (w50_filename filename) then none
  else
    match env.load_from_file filename with
    | none => none
    | some desktop_file =>
      if g_key_file_get_string desktop_file G_KEY_FILE_DESKTOP_GROUP
          G_KEY_FILE_DESKTOP_KEY_TYPE == some G_KEY_FILE_DESKTOP_TYPE_APPLICATION then
        (g_key_file_get_string desktop_file G_KEY_FILE_DESKTOP_GROUP
          G_KEY_FILE_DESKTOP_KEY_NAME).map (task_info env desktop_file)
      else none

/-- The task manager with nothing scanned and nothing installed. -/
def empty_task_manager : HDTaskManager :=
  { priv :=
      { model := [], filtered_model := [], available_tasks := [], installed_shortcuts := []
        gconf_client := { task_shortcuts := [], read_fails := false, write_fails := false } }
    desktop_file_changed := [] }

/-- The record a scan of `entries` leaves under the key `id`, if it writes one:
that of the last regular file of the sequence that is accepted and has `id` as
its catalogue key. -/
def scanned_info (env : TaskEnv) : List (String × FtwFlag) → String → Option HDTaskInfo
  | [], _ => none
  | (f_path, type_flag) :: rest, id =>
    match scanned_info env rest id with
    | some info => some info
    | none =>
      if type_flag = FtwFlag.FTW_F ∧ desktop_id f_path = id then accepted_info env f_path
      else none

def SERVICE_NAME_LEN : Nat := 255
def PATH_NAME_LEN : Nat := 255
def INTERFACE_NAME_LEN : Nat := 255
def TMP_NAME_LEN : Nat := 255
def OSSO_BUS_ROOT : String := "com.nokia"
def OSSO_BUS_ROOT_PATH : String := "/com/nokia"
def OSSO_BUS_TOP : String := "top_application"

/-- `g_snprintf (buf, n, ...)` on the bytes of the formatted text: at most
`n - 1` of them reach the buffer. -/
def g_snprintf (n : Nat) (text : List UInt8) : List UInt8 :=
  text.take (n - 1)

/-- `g_strdelimit`: every byte that occurs in `delimiters` becomes
`new_delimiter`. -/
def g_strdelimit (text delimiters : List UInt8) (new_delimiter : UInt8) : List UInt8 :=
  text.map (fun c => if c ∈ delimiters then new_delimiter else c)

/-- The buffers `service`, `path` and `interface` of
`hd_task_manager_activate_service` (lines 599-612), in this order, for the
bytes `app` of the service string. The byte 46 is `.` and 47 is `/`;
`g_strrstr (app, ".")` finds the byte when it occurs. -/
def activate_service_address (app : List UInt8) : List UInt8 × List UInt8 × List UInt8 :=
  if (46 : UInt8) ∈ app then
    let service := g_snprintf SERVICE_NAME_LEN app
    let interface := g_snprintf INTERFACE_NAME_LEN service
    let tmp := g_snprintf TMP_NAME_LEN app
    let path := g_snprintf PATH_NAME_LEN (string_bytes "/" ++ g_strdelimit tmp (string_bytes ".") 47)
    (service, path, interface)
  else
    let service :=
      g_snprintf SERVICE_NAME_LEN (string_bytes OSSO_BUS_ROOT ++ string_bytes "." ++ app)
    let path :=
      g_snprintf PATH_NAME_LEN (string_bytes OSSO_BUS_ROOT_PATH ++ string_bytes "/" ++ app)
    let interface := g_snprintf INTERFACE_NAME_LEN service
    (service, path, interface)

/-- What a launch does to the outside: a method call that
`dbus_connection_send` has queued on the session bus, or a process that
`g_spawn_async` has started. -/
inductive LaunchEffect where
  | method_call (service path interface : List UInt8) (member : String)
  | spawn (argv : List String)
deriving DecidableEq

/-- What a launch asks of the outside: whether `dbus_bus_get` reaches the
session bus, whether `dbus_message_new_method_call` returns a message for an
address and a member, whether `dbus_connection_send` queues it,
`g_find_program_in_path` (`none` is `NULL`), `g_shell_parse_argv` (`none` when
it sets an error) and whether `g_spawn_async` starts the process. -/
structure LaunchEnv where
  dbus_bus_get : Bool
  dbus_message_new_method_call : List UInt8 → List UInt8 → List UInt8 → String → Bool
  dbus_connection_send : List UInt8 → List UInt8 → List UInt8 → String → Bool
  g_find_program_in_path : String → Option String
  g_shell_parse_argv : String → Option (List String)
  g_spawn_async : List String → Bool

/-- The function `hd_task_manager_activate_service`: it returns with nothing
sent when the bus is not reached (lines 616-621) or no message is made (lines
623-628), and a send that fails is only logged. -/
def hd_task_manager_activate_service (env : LaunchEnv) (app : String) : List LaunchEffect :=
  let address := activate_service_address (string_bytes app)
  if !env.dbus_bus_get then []
  else if !env.dbus_message_new_method_call address.1 address.2.1 address.2.2 OSSO_BUS_TOP then []
  else if !env.dbus_connection_send address.1 address.2.1 address.2.2 OSSO_BUS_TOP then []
  else [LaunchEffect.method_call address.1 address.2.1 address.2.2 OSSO_BUS_TOP]

/-- The program named by an exec command: the text before its first space,
all of it when it has none. -/
def exec_program (exec : String) : String :=
  String.mk (exec.data.takeWhile (fun c => c != ' '))

/-- The rest of an exec command, from its first space on. -/
def exec_arguments (exec : String) : String :=
  String.mk (exec.data.dropWhile (fun c => c != ' '))

/-- The command line `exec` of `hd_task_manager_launch_task` (lines 696-706):
the program, up to the first space when there is one, is looked up in the path
and the rest is kept; `none` is a `NULL` string. -/
def launch_command_line (env : LaunchEnv) (exec : String) : Option String :=
  if ' ' ∈ exec.data then
    match env.g_find_program_in_path (exec_program exec) with
    | none => none
    | some exc => some (exc ++ exec_arguments exec)
  else env.g_find_program_in_path exec

/-- The function `hd_task_manager_launch_task`: what it does to the outside.
A `NULL` command line makes `g_shell_parse_argv` fail without an error, and
the warning then reads `error->message` from `NULL`: the outcome `none`. A
command line that does not parse and a spawn that fails are logged (lines
708-726). -/
def hd_task_manager_launch_task (env : LaunchEnv) (priv : HDTaskManagerPrivate)
    (id : String) : Option (List LaunchEffect) :=
  match g_hash_map_lookup priv.available_tasks id with
  | none => some []
  | some info =>
    match info.service with
    | some service => some (hd_task_manager_activate_service env service)
    | none =>
      match info.exec with
      | none => some []
      | some exec =>
        match launch_command_line env exec with
        | none => none
        | some command_line =>
          match env.g_shell_parse_argv command_line with
          | none => some []
          | some argv =>
            if env.g_spawn_async argv then some [LaunchEffect.spawn argv] else some []

/-! ## hd-change-background-dialog.c -/

def BOOKMARK_EXTENSION_LEN : Nat := 3

/-- The record `BookmarkItem` of the bookmark parser, as far as the manager
reads it. -/
inductive BookmarkItem where
  | mk (isFolder : Bool) (list : List BookmarkItem) (name : String)
      (favicon_file : Option String) (url : String)

/-- The record `HDBookmarkInfo`; `name` holds the bytes `g_strndup` copied,
which need not end at a character of the text. -/
structure HDBookmarkInfo where
  name : List UInt8
  icon : Option String
  url : String
deriving DecidableEq

/-- The fields of `HDBookmarkManagerPrivate` the registry uses; a row of the
list store has the columns 0 (name), 1 (icon path) and 2 (url). -/
structure HDBookmarkManagerPrivate where
  model : List (List UInt8 × Option String × String)
  available_bookmarks : GHashMap HDBookmarkInfo
deriving DecidableEq

/-- The C function `strlen`: the number of bytes of the string. -/
def strlen (s : String) : Nat :=
  (string_bytes s).length

/-- The argument `strlen (item->name) - BOOKMARK_EXTENSION_LEN` (line 103),
computed in `size_t`, an unsigned type of `size_bits` bits. -/
def bookmark_name_length (size_bits : Nat) (name : String) : Nat :=
  (strlen name + 2 ^ size_bits - BOOKMARK_EXTENSION_LEN) % 2 ^ size_bits

/-- GLib `g_strndup`: the first `n` bytes of the string. Its buffer has `n + 1`
bytes; `malloc` serves no request above `PTRDIFF_MAX`, and `g_malloc` then
ends the program: the outcome `none`. -/
def g_strndup (size_bits : Nat) (str : String) (n : Nat) : Option (List UInt8) :=
  if 2 ^ (size_bits - 1) ≤ n + 1 then none else some ((string_bytes str).take n)

/-- What the home directory and `FAVICONS_PATH` make of a favicon file name
(`g_build_filename`, line 113). -/
structure BookmarkEnv where
  icon_path : String → String

/-- Lines 100-129 of `hd_bookmark_manager_add_bookmark_item`: the record and
the row of one bookmark. -/
def add_bookmark (size_bits : Nat) (env : BookmarkEnv) (priv : HDBookmarkManagerPrivate)
    (name : String) (favicon_file : Option String) (url : String) :
    Option HDBookmarkManagerPrivate :=
  match g_strndup size_bits name (bookmark_name_length size_bits name) with
  | none => none
  | some display_name =>
    let info : HDBookmarkInfo := { name := display_name, icon := favicon_file, url := url }
    some
      { available_bookmarks := g_hash_map_insert priv.available_bookmarks url info
        model := priv.model ++ [(display_name, favicon_file.map env.icon_path, url)] }

mutual
/-- The function `hd_bookmark_manager_add_bookmark_item`. -/
def hd_bookmark_manager_add_bookmark_item (size_bits : Nat) (env : BookmarkEnv) :
    BookmarkItem → HDBookmarkManagerPrivate → Option HDBookmarkManagerPrivate
  | BookmarkItem.mk isFolder list name favicon_file url, priv =>
    if isFolder then add_bookmark_items size_bits env list priv
    else add_bookmark size_bits env priv name favicon_file url
/-- The loop over the children of a folder (lines 91-95). -/
def add_bookmark_items (size_bits : Nat) (env : BookmarkEnv) :
    List BookmarkItem → HDBookmarkManagerPrivate → Option HDBookmarkManagerPrivate
  | [], priv => some priv
  | c :: rest, priv =>
    match hd_bookmark_manager_add_bookmark_item size_bits env c priv with
    | none => none
    | some next => add_bookmark_items size_bits env rest next
end

/-! ## Sample states -/

def clock_path : String := "/usr/share/hildon-home/clock.desktop"
def notes_path : String := "/usr/share/hildon-home/notes.desktop"

/-- Two descriptors: a single-instance clock and a multiple-instance note. -/
def sample_env : DesktopEnv where
  load_from_file := fun p =>
    if p = clock_path then
      some [("Desktop Entry", [("Name", "Clock"), ("X-Multiple", "false")])]
    else if p = notes_path then
      some [("Desktop Entry", [("Name", "Notes"), ("X-Multiple", "true")])]
    else none
  dgettext := fun _ msgid => msgid

def sample_plugins : List String := [clock_path, notes_path]

/-- The manager before the first refresh. -/
def initial_manager : HDAppletManager :=
  { model := [], displayed_applets := [], used_ids := [], installed := [],
    applets_key_file := [], items_store := [], store_writes := 0 }

/-- The manager after the first refresh, run on an empty items file. -/
def sample_manager : HDAppletManager :=
  { model := [("Clock", clock_path), ("Notes", notes_path)]
    displayed_applets := []
    used_ids := []
    installed := [(clock_path, { name := "Clock", multiple := false }),
      (notes_path, { name := "Notes", multiple := true })]
    applets_key_file := []
    items_store := []
    store_writes := 0 }

/-- The state reached from `sample_manager` by the steps `ops`. -/
def sample_state (ops : List AppletOp) : HDAppletManager :=
  (run_ops sample_manager ops).getD initial_manager

/-- The reload step on the sample descriptors. -/
def sample_reload : AppletOp := AppletOp.reload sample_env sample_plugins

/-- A task manager with one visible row, nothing installed and a store that
refuses writes. -/
def sample_task_priv : HDTaskManagerPrivate :=
  { model := [{ label := "Clock", icon := none, desktop_id := "clock.desktop" }]
    filtered_model := [{ label := "Clock", icon := none, desktop_id := "clock.desktop" }]
    available_tasks :=
      [("clock.desktop", { label := "Clock", icon := none, exec := none, service := none })]
    installed_shortcuts := []
    gconf_client := { task_shortcuts := [], read_fails := false, write_fails := true } }

/-- A scan directory: `Clock.desktop` with its `.w50-desktop` variant, a
`notes.txt` that holds a valid descriptor, a descriptor of another type, one
without a name, and `Mail.desktop` next to a `mail.w50-desktop`. -/
def sample_task_env : TaskEnv where
  file_exists := fun p =>
    p == "/apps/Clock.desktop" || p == "/apps/Clock.w50-desktop" || p == "/apps/notes.txt" ||
    p == "/apps/link.desktop" || p == "/apps/noname.desktop" || p == "/apps/Mail.desktop" ||
    p == "/apps/mail.w50-desktop"
  load_from_file := fun p =>
    if p = "/apps/Clock.desktop" then
      some [("Desktop Entry", [("Type", "Application"), ("Name", "Old clock")])]
    else if p = "/apps/Clock.w50-desktop" then
      some [("Desktop Entry", [("Type", "Application"), ("Name", "Clock"),
        ("Icon", "clock_icon"), ("Exec", "/usr/bin/clock"), ("X-Osso-Service", "clock")])]
    else if p = "/apps/notes.txt" then
      some [("Desktop Entry", [("Type", "Application"), ("Name", "Notes")])]
    else if p = "/apps/link.desktop" then
      some [("Desktop Entry", [("Type", "Link"), ("Name", "Link")])]
    else if p = "/apps/noname.desktop" then
      some [("Desktop Entry", [("Type", "Application")])]
    else if p = "/apps/Mail.desktop" then
      some [("Desktop Entry", [("Type", "Application"), ("Name", "Mail")])]
    else none
  dgettext := fun _ msgid => msgid
  gettext_package := "hildon-home"
  freed_desktop_id := fun _ => ""
  freed_detail := fun _ => ""

def noname_path : String := "/usr/share/hildon-home/noname.desktop"

/-- The sample descriptors with one more that loads and has no `Name`. -/
def noname_env : DesktopEnv where
  load_from_file := fun p =>
    if p = noname_path then some [("Desktop Entry", [("X-Multiple", "true")])]
    else sample_env.load_from_file p
  dgettext := fun _ msgid => msgid

def broken_path : String := "/usr/share/hildon-home/broken.desktop"

/-- Two directories with descriptors of the same stem: `foo.desktop` and
`foo.txt` in `/apps`, and a `foo.desktop` in `/other`. -/
def stem_env : TaskEnv where
  file_exists := fun p =>
    p == "/apps/foo.desktop" || p == "/apps/foo.txt" || p == "/other/foo.desktop"
  load_from_file := fun p =>
    if p = "/apps/foo.desktop" then
      some [("Desktop Entry", [("Type", "Application"), ("Name", "Foo")])]
    else if p = "/apps/foo.txt" then
      some [("Desktop Entry", [("Type", "Application"), ("Name", "Foo text")])]
    else if p = "/other/foo.desktop" then
      some [("Desktop Entry", [("Type", "Application"), ("Name", "Other foo")])]
    else none
  dgettext := fun _ msgid => msgid
  gettext_package := "hildon-home"
  freed_desktop_id := fun _ => ""
  freed_detail := fun _ => ""

/-- A scan directory where `note.desktop` is a valid descriptor and its
`note.w50-desktop` variant exists and cannot be read. -/
def shadow_env : TaskEnv where
  file_exists := fun p => p == "/apps/note.desktop" || p == "/apps/note.w50-desktop"
  load_from_file := fun p =>
    if p = "/apps/note.desktop" then
      some [("Desktop Entry", [("Type", "Application"), ("Name", "Note")])]
    else none
  dgettext := fun _ msgid => msgid
  gettext_package := "hildon-home"
  freed_desktop_id := fun _ => ""
  freed_detail := fun _ => ""

/-- The words of a command line without quoting, split at spaces. -/
def split_words : List Char → List Char → List String
  | [], word => if word = [] then [] else [String.mk word.reverse]
  | c :: rest, word =>
    if c = ' ' then
      if word = [] then split_words rest [] else String.mk word.reverse :: split_words rest []
    else split_words rest (c :: word)

/-- A session where the bus is reached, every message is made and sent, every
program is found in `/usr/bin`, a command line parses unless it has a quote
character or no word, and every spawn succeeds. -/
def sample_launch_env : LaunchEnv where
  dbus_bus_get := true
  dbus_message_new_method_call := fun _ _ _ _ => true
  dbus_connection_send := fun _ _ _ _ => true
  g_spawn_async := fun _ => true
  g_find_program_in_path := fun program => some ("/usr/bin/" ++ program)
  g_shell_parse_argv := fun command_line =>
    if Char.ofNat 39 ∈ command_line.data then none
    else
      match split_words command_line.data [] with
      | [] => none
      | argv => some argv

/-- The sample session without a session bus. -/
def offline_launch_env : LaunchEnv :=
  { sample_launch_env with dbus_bus_get := false }

/-- The sample session where `dbus_connection_send` fails. -/
def unsent_launch_env : LaunchEnv :=
  { sample_launch_env with dbus_connection_send := fun _ _ _ _ => false }

/-- The sample session where `g_spawn_async` fails. -/
def unspawned_launch_env : LaunchEnv :=
  { sample_launch_env with g_spawn_async := fun _ => false }

/-- A task manager whose catalogue has a record with a service and a command,
one with a command, one with a command that has an unmatched quote, and one
with neither. -/
def sample_launch_priv : HDTaskManagerPrivate :=
  { model := []
    filtered_model := []
    available_tasks :=
      [("clock.desktop",
          { label := "Clock", icon := none, exec := some "clock", service := some "clock" }),
        ("mail.desktop",
          { label := "Mail", icon := none, exec := some "mail --new", service := none }),
        ("notes.desktop",
          { label := "Notes", icon := none, exec := some "notes 'x", service := none }),
        ("empty.desktop", { label := "Empty", icon := none, exec := none, service := none })]
    installed_shortcuts := []
    gconf_client := { task_shortcuts := [], read_fails := false, write_fails := false } }

def bracket_path : String := "/usr/share/hildon-home/a[1].desktop"

/-- A descriptor directory with one multiple-instance applet whose file name
holds square brackets. -/
def bracket_env : DesktopEnv where
  load_from_file := fun p =>
    if p = bracket_path then
      some [("Desktop Entry", [("Name", "Bracket"), ("X-Multiple", "true")])]
    else none
  dgettext := fun _ msgid => msgid

/-- The manager after the first refresh on `bracket_env`, run on an empty
items file. -/
def bracket_manager : HDAppletManager :=
  { model := [("Bracket", bracket_path)]
    displayed_applets := []
    used_ids := []
    installed := [(bracket_path, { name := "Bracket", multiple := true })]
    applets_key_file := []
    items_store := []
    store_writes := 0 }

/-- The sample state with a group `x` for the clock that `used_ids` and the
model do not reflect. -/
def stale_manager : HDAppletManager :=
  { sample_manager with
    applets_key_file := [("x", [("X-Desktop-File", clock_path)])]
    items_store := [("x", [("X-Desktop-File", clock_path)])] }

/-- The directory of `stem_env` with given outcomes for the reads of a freed
`desktop_id` buffer. -/
def stem_env_freed (freed_desktop_id freed_detail : Nat → String) : TaskEnv :=
  { stem_env with freed_desktop_id := freed_desktop_id, freed_detail := freed_detail }

/-! ## Decimal formatting -/

theorem digit_value_digitChar (d : Nat) (h : d < 10) : digit_value (Nat.digitChar d) = d := by
  interval_cases d <;> rfl

theorem toDigitsCore_append (fuel : Nat) : ∀ (n : Nat) (ds : List Char),
    Nat.toDigitsCore 10 fuel n ds = Nat.toDigitsCore 10 fuel n [] ++ ds := by
  induction fuel with
  | zero => intro n ds; simp [Nat.toDigitsCore]
  | succ fuel ih =>
    intro n ds
    simp only [Nat.toDigitsCore]
    by_cases h : n / 10 = 0
    · simp [h]
    · simp only [h, if_false]
      rw [ih (n / 10) (Nat.digitChar (n % 10) :: ds), ih (n / 10) [Nat.digitChar (n % 10)]]
      simp

theorem digits_value_append_singleton (l : List Char) (c : Char) :
    digits_value (l ++ [c]) = digits_value l * 10 + digit_value c := by
  simp [digits_value, List.foldl_append]

theorem digits_value_toDigitsCore (fuel : Nat) : ∀ n : Nat, n < fuel →
    digits_value (Nat.toDigitsCore 10 fuel n []) = n := by
  induction fuel with
  | zero => intro n h; omega
  | succ fuel ih =>
    intro n hn
    simp only [Nat.toDigitsCore]
    by_cases h : n / 10 = 0
    · simp only [h, if_true]
      have h10 : n < 10 := by omega
      rw [Nat.mod_eq_of_lt h10]
      simp [digits_value, digit_value_digitChar n h10]
    · simp only [h, if_false]
      rw [toDigitsCore_append, digits_value_append_singleton, ih (n / 10) (by omega),
        digit_value_digitChar (n % 10) (Nat.mod_lt _ (by decide))]
      omega

theorem digits_value_repr (n : Nat) : digits_value (Nat.repr n).data = n := by
  simp only [Nat.repr, Nat.toDigits, List.asString]
  exact digits_value_toDigitsCore (n + 1) n (Nat.lt_succ_self n)

theorem repr_injective {i j : Nat} (h : Nat.repr i = Nat.repr j) : i = j := by
  have := congrArg (fun s => digits_value s.data) h
  simpa [digits_value_repr] using this

theorem format_id_injective (basename : String) {i j : Nat}
    (h : format_id basename i = format_id basename j) : i = j := by
  apply repr_injective
  have h2 := congrArg String.data h
  simp only [format_id, String.data_append, List.append_assoc] at h2
  have h3 := List.append_cancel_left (List.append_cancel_left h2)
  exact String.ext h3

theorem format_id_ne_basename (basename : String) (i : Nat) : format_id basename i ≠ basename := by
  intro h
  have h2 := congrArg (fun s => s.data.length) h
  simp [format_id] at h2

/-! ## Group names -/

theorem group_name_char_digitChar (d : Nat) (h : d < 10) :
    group_name_char (Nat.digitChar d) = true := by
  interval_cases d <;> decide

theorem toDigitsCore_group_name (fuel : Nat) : ∀ (n : Nat) (ds : List Char),
    (∀ c, c ∈ ds → group_name_char c = true) →
    ∀ c, c ∈ Nat.toDigitsCore 10 fuel n ds → group_name_char c = true := by
  induction fuel with
  | zero => intro n ds h c hc; simp only [Nat.toDigitsCore] at hc; exact h c hc
  | succ fuel ih =>
    intro n ds h c hc
    simp only [Nat.toDigitsCore] at hc
    have hcons : ∀ x, x ∈ Nat.digitChar (n % 10) :: ds → group_name_char x = true := by
      intro x hx
      rcases List.mem_cons.1 hx with hx | hx
      · rw [hx]; exact group_name_char_digitChar _ (Nat.mod_lt _ (by decide))
      · exact h x hx
    by_cases hz : n / 10 = 0
    · simp only [hz, if_true] at hc
      exact hcons c hc
    · simp only [hz, if_false] at hc
      exact ih _ _ hcons c hc

theorem repr_group_name (n : Nat) : ∀ c, c ∈ (Nat.repr n).data → group_name_char c = true := by
  simp only [Nat.repr, Nat.toDigits, List.asString]
  exact toDigitsCore_group_name (n + 1) n [] (fun c hc => by simp at hc)

theorem is_group_name_format_id (basename : String) (i : Nat) :
    g_key_file_is_group_name (format_id basename i) = basename.data.all group_name_char := by
  have hdata : (format_id basename i).data = basename.data ++ '-' :: (Nat.repr i).data := by
    simp [format_id, String.data_append]
  have hdigits : (Nat.repr i).data.all group_name_char = true :=
    List.all_eq_true.2 (repr_group_name i)
  have hdash : group_name_char '-' = true := by decide
  unfold g_key_file_is_group_name
  rw [hdata]
  simp [List.all_append, hdigits, hdash]

/-! ## The probe loop -/

theorem lookup_ne_zero_iff (t : GHashSet) (key : String) :
    (g_hash_table_lookup t key != 0) = true ↔ key ∈ t := by
  unfold g_hash_table_lookup
  by_cases h : key ∈ t <;> simp [h]

theorem lookup_eq_zero_iff (t : GHashSet) (key : String) :
    (g_hash_table_lookup t key == 0) = true ↔ key ∉ t := by
  unfold g_hash_table_lookup
  by_cases h : key ∈ t <;> simp [h]

theorem find_unique_id_loop_spec (used_ids : GHashSet) (basename : String) (n : Nat)
    (hn : n < G_UINT_RANGE) (hfree : format_id basename n ∉ used_ids) :
    ∀ (fuel i : Nat), i ≤ n → n - i < fuel →
      (∀ m, i ≤ m → m < n → format_id basename m ∈ used_ids) →
      find_unique_id_loop used_ids basename fuel i = some (n, format_id basename n) := by
  intro fuel
  induction fuel with
  | zero => intro i _ h; omega
  | succ fuel ih =>
    intro i hi hfuel hused
    rcases Nat.eq_or_lt_of_le hi with heq | hlt
    · subst heq
      have h0 : (g_hash_table_lookup used_ids (format_id basename i) != 0) = false := by
        rw [Bool.eq_false_iff, Ne, lookup_ne_zero_iff]; exact hfree
      simp [find_unique_id_loop, h0]
    · have h1 : (g_hash_table_lookup used_ids (format_id basename i) != 0) = true :=
        (lookup_ne_zero_iff _ _).2 (hused i (Nat.le_refl i) hlt)
      have hmod : (i + 1) % G_UINT_RANGE = i + 1 := Nat.mod_eq_of_lt (by omega)
      simp only [find_unique_id_loop, h1, if_true, hmod]
      exact ih (i + 1) hlt (by omega) (fun m hm hmn => hused m (by omega) hmn)

theorem exists_free_candidate (used_ids : GHashSet) (basename : String) :
    ∃ n, n ≤ used_ids.length ∧ format_id basename n ∉ used_ids := by
  by_contra hcon
  have hall : ∀ n, n ≤ used_ids.length → format_id basename n ∈ used_ids := by
    intro n hn
    by_contra h
    exact hcon ⟨n, hn, h⟩
  have hnodup : ((List.range (used_ids.length + 1)).map (format_id basename)).Nodup :=
    List.Nodup.map (fun _ _ h => format_id_injective basename h) (List.nodup_range _)
  have hsub : (List.range (used_ids.length + 1)).map (format_id basename) ⊆ used_ids := by
    intro x hx
    rcases List.mem_map.1 hx with ⟨n, hn, rfl⟩
    exact hall n (by have := List.mem_range.1 hn; omega)
  have hlen := (hnodup.subperm hsub).length_le
  simp at hlen

theorem exists_least_free (used_ids : GHashSet) (basename : String) :
    ∃ n, n ≤ used_ids.length ∧ format_id basename n ∉ used_ids ∧
      ∀ m, m < n → format_id basename m ∈ used_ids := by
  classical
  have hex : ∃ n, format_id basename n ∉ used_ids :=
    let ⟨n, _, h⟩ := exists_free_candidate used_ids basename
    ⟨n, h⟩
  refine ⟨Nat.find hex, ?_, Nat.find_spec hex, ?_⟩
  · obtain ⟨n, hn, h⟩ := exists_free_candidate used_ids basename
    exact le_trans (Nat.find_min' hex h) hn
  · intro m hm
    by_contra h
    exact Nat.find_min hex hm h

theorem find_unique_id_fuel_spec (used_ids : GHashSet) (basename : String) (fuel : Nat)
    (hsize : used_ids.length < G_UINT_RANGE) (hfuel : used_ids.length < fuel) :
    ∃ n, find_unique_id_loop used_ids basename fuel 0 = some (n, format_id basename n) ∧
      n ≤ used_ids.length ∧ format_id basename n ∉ used_ids ∧
      ∀ m, m < n → format_id basename m ∈ used_ids := by
  obtain ⟨n, hle, hfree, hmin⟩ := exists_least_free used_ids basename
  exact ⟨n, find_unique_id_loop_spec used_ids basename n (by omega) hfree fuel 0
    (Nat.zero_le n) (by omega) (fun m _ hm => hmin m hm), hle, hfree, hmin⟩

theorem find_unique_id_spec (used_ids : GHashSet) (basename : String)
    (hsize : used_ids.length < G_UINT_RANGE) :
    ∃ n, find_unique_id used_ids basename = some (n, format_id basename n) ∧
      n ≤ used_ids.length ∧ format_id basename n ∉ used_ids ∧
      ∀ m, m < n → format_id basename m ∈ used_ids :=
  find_unique_id_fuel_spec used_ids basename (used_ids.length + 1) hsize (Nat.lt_succ_self _)

/-! ## Key-file lemmas -/

theorem key_value_lookup_set (pairs : List (String × String)) (key value : String) :
    key_value_lookup (key_value_set pairs key value) key = some value := by
  induction pairs with
  | nil => simp [key_value_set, key_value_lookup]
  | cons p rest ih =>
    obtain ⟨k, v⟩ := p
    by_cases h : k = key
    · simp [key_value_set, key_value_lookup, h]
    · simp [key_value_set, key_value_lookup, h, ih]

theorem key_value_set_set (pairs : List (String × String)) (key value : String) :
    key_value_set (key_value_set pairs key value) key value = key_value_set pairs key value := by
  induction pairs with
  | nil => simp [key_value_set]
  | cons p rest ih =>
    obtain ⟨k, v⟩ := p
    by_cases h : k = key
    · simp [key_value_set, h]
    · simp [key_value_set, h, ih]

theorem get_string_set_value (key_file : GKeyFile) (group_name key value : String) :
    g_key_file_get_string (key_file_set_value key_file group_name key value)
      group_name key = some value := by
  induction key_file with
  | nil => simp [key_file_set_value, g_key_file_get_string, key_value_lookup]
  | cons p rest ih =>
    obtain ⟨g, pairs⟩ := p
    by_cases h : g = group_name
    · simp [key_file_set_value, g_key_file_get_string, h, key_value_lookup_set]
    · simp [key_file_set_value, g_key_file_get_string, h, ih]

theorem get_string_set_value_other (key_file : GKeyFile) (group_name key value : String)
    (other key2 : String) (hne : other ≠ group_name) :
    g_key_file_get_string (key_file_set_value key_file group_name key value) other key2 =
      g_key_file_get_string key_file other key2 := by
  induction key_file with
  | nil => simp [key_file_set_value, g_key_file_get_string, Ne.symm hne]
  | cons p rest ih =>
    obtain ⟨g, pairs⟩ := p
    by_cases h : g = group_name
    · subst h
      simp [key_file_set_value, g_key_file_get_string, Ne.symm hne]
    · by_cases h2 : g = other
      · subst h2
        simp [key_file_set_value, g_key_file_get_string, h]
      · simp [key_file_set_value, g_key_file_get_string, h, h2, ih]

theorem set_value_set_value (key_file : GKeyFile) (group_name key value : String) :
    key_file_set_value (key_file_set_value key_file group_name key value)
      group_name key value = key_file_set_value key_file group_name key value := by
  induction key_file with
  | nil => simp [key_file_set_value, key_value_set]
  | cons p rest ih =>
    obtain ⟨g, pairs⟩ := p
    by_cases h : g = group_name
    · simp [key_file_set_value, h, key_value_set_set]
    · simp [key_file_set_value, h, ih]

theorem set_value_new_group (key_file : GKeyFile) (group_name key value : String)
    (hnew : group_name ∉ g_key_file_get_groups key_file) :
    key_file_set_value key_file group_name key value =
      key_file ++ [(group_name, [(key, value)])] := by
  induction key_file with
  | nil => simp [key_file_set_value]
  | cons p rest ih =>
    obtain ⟨g, pairs⟩ := p
    simp only [g_key_file_get_groups, List.map_cons, List.mem_cons, not_or] at hnew
    have h : ¬ g = group_name := fun h => hnew.1 h.symm
    simp only [key_file_set_value, h, if_false, List.cons_append]
    rw [ih hnew.2]

theorem mem_groups_set_value (key_file : GKeyFile) (group_name key value x : String) :
    x ∈ g_key_file_get_groups (key_file_set_value key_file group_name key value) ↔
      x ∈ g_key_file_get_groups key_file ∨ x = group_name := by
  induction key_file with
  | nil => simp [key_file_set_value, g_key_file_get_groups]
  | cons p rest ih =>
    obtain ⟨g, pairs⟩ := p
    by_cases h : g = group_name
    · subst h
      simp only [key_file_set_value, g_key_file_get_groups, if_true, List.map_cons,
        List.mem_cons]
      tauto
    · simp only [g_key_file_get_groups] at ih
      simp [key_file_set_value, g_key_file_get_groups, h, ih, or_assoc]

theorem mem_groups_of_get_string (key_file : GKeyFile) (group_name key value : String)
    (h : g_key_file_get_string key_file group_name key = some value) :
    group_name ∈ g_key_file_get_groups key_file := by
  induction key_file with
  | nil => simp [g_key_file_get_string] at h
  | cons p rest ih =>
    obtain ⟨g, pairs⟩ := p
    by_cases hg : g = group_name
    · simp [g_key_file_get_groups, hg]
    · simp only [g_key_file_get_string, hg, if_false] at h
      have := ih h
      simp only [g_key_file_get_groups] at this
      simp [g_key_file_get_groups, this]

theorem filter_groups_of_not_mem (key_file : GKeyFile) (group_name : String)
    (h : group_name ∉ g_key_file_get_groups key_file) :
    key_file.filter (fun g => g.1 != group_name) = key_file := by
  rw [List.filter_eq_self]
  intro g hg
  have : g.1 ≠ group_name := by
    intro heq
    exact h (heq ▸ List.mem_map_of_mem Prod.fst hg)
  simpa using this

theorem remove_group_absent (key_file : GKeyFile) (group_name : String)
    (h : group_name ∉ g_key_file_get_groups key_file) :
    g_key_file_remove_group key_file group_name = (key_file, false) := by
  simp [g_key_file_remove_group, h]

theorem remove_group_after_new_value (key_file : GKeyFile) (group_name key value : String)
    (hnew : group_name ∉ g_key_file_get_groups key_file) :
    g_key_file_remove_group (key_file_set_value key_file group_name key value) group_name =
      (key_file, true) := by
  have hmem : group_name ∈
      g_key_file_get_groups (key_file_set_value key_file group_name key value) :=
    (mem_groups_set_value key_file group_name key value group_name).2 (Or.inr rfl)
  rw [g_key_file_remove_group, if_pos hmem, set_value_new_group key_file group_name key value hnew]
  simp [List.filter_append, filter_groups_of_not_mem key_file group_name hnew]

theorem set_string_of_group_name (key_file : GKeyFile) (group_name key value : String)
    (hvalid : g_key_file_is_group_name group_name = true) :
    g_key_file_set_string key_file group_name key value =
      key_file_set_value key_file group_name key value := by
  simp [g_key_file_set_string, hvalid]

theorem set_string_refused (key_file : GKeyFile) (group_name key value : String)
    (hvalid : g_key_file_is_group_name group_name = false) :
    g_key_file_set_string key_file group_name key value = key_file := by
  simp [g_key_file_set_string, hvalid]

theorem get_string_set_string (key_file : GKeyFile) (group_name key value : String)
    (hvalid : g_key_file_is_group_name group_name = true) :
    g_key_file_get_string (g_key_file_set_string key_file group_name key value)
      group_name key = some value := by
  rw [set_string_of_group_name _ _ _ _ hvalid]
  exact get_string_set_value _ _ _ _

theorem get_string_set_string_other (key_file : GKeyFile) (group_name key value : String)
    (other key2 : String) (hne : other ≠ group_name) :
    g_key_file_get_string (g_key_file_set_string key_file group_name key value) other key2 =
      g_key_file_get_string key_file other key2 := by
  unfold g_key_file_set_string
  split
  · exact get_string_set_value_other _ _ _ _ _ _ hne
  · rfl

theorem set_string_set_string (key_file : GKeyFile) (group_name key value : String) :
    g_key_file_set_string (g_key_file_set_string key_file group_name key value)
      group_name key value = g_key_file_set_string key_file group_name key value := by
  unfold g_key_file_set_string
  split
  · exact set_value_set_value _ _ _ _
  · rfl

theorem mem_groups_set_string (key_file : GKeyFile) (group_name key value x : String) :
    x ∈ g_key_file_get_groups (g_key_file_set_string key_file group_name key value) ↔
      x ∈ g_key_file_get_groups key_file ∨
        (x = group_name ∧ g_key_file_is_group_name group_name = true) := by
  unfold g_key_file_set_string
  split
  · rename_i h
    rw [mem_groups_set_value]
    simp [h]
  · rename_i h
    simp [h]

theorem remove_group_after_new (key_file : GKeyFile) (group_name key value : String)
    (hnew : group_name ∉ g_key_file_get_groups key_file) :
    g_key_file_remove_group (g_key_file_set_string key_file group_name key value) group_name =
      (key_file, g_key_file_is_group_name group_name) := by
  unfold g_key_file_set_string
  split
  · rename_i h
    rw [remove_group_after_new_value _ _ _ _ hnew, h]
  · rename_i h
    rw [remove_group_absent _ _ hnew]
    simp at h
    rw [h]

theorem get_string_filter_other (key_file : GKeyFile) (removed other key : String)
    (hne : other ≠ removed) :
    g_key_file_get_string (key_file.filter (fun g => g.1 != removed)) other key =
      g_key_file_get_string key_file other key := by
  induction key_file with
  | nil => rfl
  | cons p rest ih =>
    obtain ⟨g, pairs⟩ := p
    by_cases h : g = removed
    · subst h
      simp [g_key_file_get_string, Ne.symm hne, ih]
    · have hb : (g != removed) = true := by simpa using h
      rw [List.filter_cons_of_pos (by simpa using hb)]
      by_cases h2 : g = other
      · simp [g_key_file_get_string, h2]
      · simp [g_key_file_get_string, h2, ih]

theorem get_string_remove_other (key_file : GKeyFile) (removed other key : String)
    (hne : other ≠ removed) :
    g_key_file_get_string (g_key_file_remove_group key_file removed).1 other key =
      g_key_file_get_string key_file other key := by
  unfold g_key_file_remove_group
  split
  · exact get_string_filter_other key_file removed other key hne
  · rfl

/-! ## Hash-table lemmas -/

theorem mem_hash_table_insert (t : GHashSet) (key x : String) :
    x ∈ g_hash_table_insert t key ↔ x ∈ t ∨ x = key := by
  unfold g_hash_table_insert
  by_cases h : key ∈ t
  · simp only [h, if_true]
    constructor
    · exact Or.inl
    · rintro (h1 | h1)
      · exact h1
      · exact h1 ▸ h
  · simp [h]

theorem hash_map_lookup_eq_none (V : Type) (t : GHashMap V) (key : String) :
    g_hash_map_lookup t key = none ↔ key ∉ t.map Prod.fst := by
  induction t with
  | nil => simp [g_hash_map_lookup]
  | cons p rest ih =>
    obtain ⟨k, v⟩ := p
    by_cases h : k = key
    · simp [g_hash_map_lookup, h]
    · simp only [g_hash_map_lookup, h, if_false, ih, List.map_cons, List.mem_cons, not_or]
      exact ⟨fun h2 => ⟨fun h3 => h h3.symm, h2⟩, fun h2 => h2.2⟩

theorem mem_of_hash_map_lookup (V : Type) (t : GHashMap V) (key : String) (v : V)
    (h : g_hash_map_lookup t key = some v) : (key, v) ∈ t := by
  induction t with
  | nil => simp [g_hash_map_lookup] at h
  | cons p rest ih =>
    obtain ⟨k, w⟩ := p
    by_cases hk : k = key
    · simp only [g_hash_map_lookup, hk, if_true, Option.some.injEq] at h
      simp [hk, h]
    · simp only [g_hash_map_lookup, hk, if_false] at h
      exact List.mem_cons_of_mem _ (ih h)

theorem hash_map_lookup_of_mem (V : Type) (t : GHashMap V) (e : String × V)
    (hnodup : (t.map Prod.fst).Nodup) (he : e ∈ t) : g_hash_map_lookup t e.1 = some e.2 := by
  induction t with
  | nil => simp at he
  | cons p rest ih =>
    obtain ⟨k, w⟩ := p
    simp only [List.map_cons, List.nodup_cons] at hnodup
    rcases List.mem_cons.1 he with heq | hmem
    · subst heq
      simp [g_hash_map_lookup]
    · have hk : ¬ k = e.1 := by
        intro hk
        exact hnodup.1 (hk ▸ List.mem_map_of_mem Prod.fst hmem)
      simp only [g_hash_map_lookup, hk, if_false]
      exact ih hnodup.2 hmem

theorem hash_map_lookup_insert_other (V : Type) (t : GHashMap V) (key other : String) (v : V)
    (hne : other ≠ key) :
    g_hash_map_lookup (g_hash_map_insert t key v) other = g_hash_map_lookup t other := by
  induction t with
  | nil => simp [g_hash_map_insert, g_hash_map_lookup, Ne.symm hne]
  | cons p rest ih =>
    obtain ⟨k, w⟩ := p
    by_cases h : k = key
    · subst h
      simp [g_hash_map_insert, g_hash_map_lookup, Ne.symm hne]
    · by_cases h2 : k = other
      · subst h2
        simp [g_hash_map_insert, g_hash_map_lookup, h]
      · simp [g_hash_map_insert, g_hash_map_lookup, h, h2, ih]

theorem hash_map_insert_new (V : Type) (t : GHashMap V) (key : String) (v : V)
    (hnew : g_hash_map_lookup t key = none) : g_hash_map_insert t key v = t ++ [(key, v)] := by
  induction t with
  | nil => simp [g_hash_map_insert]
  | cons p rest ih =>
    obtain ⟨k, w⟩ := p
    by_cases h : k = key
    · simp [g_hash_map_lookup, h] at hnew
    · simp only [g_hash_map_lookup, h, if_false] at hnew
      simp [g_hash_map_insert, h, ih hnew]

/-! ## The refresh -/

theorem mem_load_groups_fst (key_file : GKeyFile) (groups : List String) :
    ∀ (used_ids displayed : GHashSet) (x : String),
      x ∈ (load_groups key_file groups used_ids displayed).1 ↔ x ∈ used_ids ∨ x ∈ groups := by
  induction groups with
  | nil => intro used_ids displayed x; simp [load_groups]
  | cons g rest ih =>
    intro used_ids displayed x
    simp only [load_groups, ih, mem_hash_table_insert, List.mem_cons]
    tauto

theorem mem_load_groups_snd (key_file : GKeyFile) (groups : List String) :
    ∀ (used_ids displayed : GHashSet) (x : String),
      x ∈ (load_groups key_file groups used_ids displayed).2 ↔
        x ∈ displayed ∨
          ∃ g, g ∈ groups ∧ g_key_file_get_string key_file g ITEMS_KEY_DESKTOP_FILE = some x := by
  induction groups with
  | nil => intro used_ids displayed x; simp [load_groups]
  | cons g rest ih =>
    intro used_ids displayed x
    simp only [load_groups, ih, List.mem_cons]
    cases hg : g_key_file_get_string key_file g ITEMS_KEY_DESKTOP_FILE with
    | none =>
      constructor
      · rintro (h | ⟨g2, hg2, h2⟩)
        · exact Or.inl h
        · exact Or.inr ⟨g2, Or.inr hg2, h2⟩
      · rintro (h | ⟨g2, hg2 | hg2, h2⟩)
        · exact Or.inl h
        · subst hg2; rw [hg] at h2; cases h2
        · exact Or.inr ⟨g2, hg2, h2⟩
    | some d =>
      simp only [mem_hash_table_insert]
      constructor
      · rintro ((h | h) | ⟨g2, hg2, h2⟩)
        · exact Or.inl h
        · exact Or.inr ⟨g, Or.inl rfl, by rw [hg, h]⟩
        · exact Or.inr ⟨g2, Or.inr hg2, h2⟩
      · rintro (h | ⟨g2, hg2 | hg2, h2⟩)
        · exact Or.inl (Or.inl h)
        · subst hg2; rw [hg] at h2; cases h2; exact Or.inl (Or.inr rfl)
        · exact Or.inr ⟨g2, hg2, h2⟩

theorem load_plugins_lookup (env : DesktopEnv) (plugins : List String) :
    ∀ (installed installed2 : GHashMap HDPluginInfo) (path : String) (info : HDPluginInfo),
      load_plugins env plugins installed = some installed2 →
      g_hash_map_lookup installed path = some info →
      g_hash_map_lookup installed2 path = some info := by
  induction plugins with
  | nil =>
    intro installed installed2 path info h hl
    simp only [load_plugins, Option.some.injEq] at h
    exact h ▸ hl
  | cons p rest ih =>
    intro installed installed2 path info h hl
    simp only [load_plugins] at h
    split at h
    · exact ih _ _ _ _ h hl
    · rename_i hnone
      split at h
      · exact ih _ _ _ _ h hl
      · split at h
        · cases h
        · refine ih _ _ _ _ h ?_
          have hne : path ≠ p := by
            intro heq
            rw [heq, hnone] at hl
            cases hl
          rw [hash_map_lookup_insert_other _ _ _ _ _ hne]
          exact hl

theorem load_plugins_nodup (env : DesktopEnv) (plugins : List String) :
    ∀ (installed installed2 : GHashMap HDPluginInfo),
      load_plugins env plugins installed = some installed2 →
      (installed.map Prod.fst).Nodup → (installed2.map Prod.fst).Nodup := by
  induction plugins with
  | nil =>
    intro installed installed2 h hn
    simp only [load_plugins, Option.some.injEq] at h
    exact h ▸ hn
  | cons p rest ih =>
    intro installed installed2 h hn
    simp only [load_plugins] at h
    split at h
    · exact ih _ _ h hn
    · rename_i hnone
      split at h
      · exact ih _ _ h hn
      · split at h
        · cases h
        · refine ih _ _ h ?_
          rw [hash_map_insert_new _ _ _ _ hnone, List.map_append, List.nodup_append]
          refine ⟨hn, by simp, ?_⟩
          intro a ha hb
          simp only [List.map_cons, List.map_nil, List.mem_singleton] at hb
          exact (hash_map_lookup_eq_none _ _ _).1 hnone (hb ▸ ha)

theorem mem_fill_model (displayed : GHashSet) (installed : GHashMap HDPluginInfo)
    (row : String × String) :
    row ∈ fill_model displayed installed ↔
      ∃ e, e ∈ installed ∧ (e.2.multiple = true ∨ e.1 ∉ displayed) ∧ row = (e.2.name, e.1) := by
  simp only [fill_model, List.mem_map, List.mem_filter, Bool.or_eq_true, lookup_eq_zero_iff]
  constructor
  · rintro ⟨e, ⟨he, hc⟩, rfl⟩
    exact ⟨e, he, hc, rfl⟩
  · rintro ⟨e, he, hc, rfl⟩
    exact ⟨e, ⟨he, hc⟩, rfl⟩

theorem fill_model_paths_nodup (displayed : GHashSet) (installed : GHashMap HDPluginInfo)
    (hnodup : (installed.map Prod.fst).Nodup) :
    ((fill_model displayed installed).map Prod.snd).Nodup := by
  have h : (fill_model displayed installed).map Prod.snd =
      (installed.filter
        (fun e => e.2.multiple || g_hash_table_lookup displayed e.1 == 0)).map Prod.fst := by
    simp [fill_model, List.map_map, Function.comp_def]
  rw [h]
  exact List.Nodup.sublist (List.Sublist.map _ (List.filter_sublist _)) hnodup

theorem refresh_some (env : DesktopEnv) (plugins : List String) (key_file : GKeyFile)
    (m m2 : HDAppletManager) (h : items_configuration_loaded_cb env plugins key_file m = some m2) :
    ∃ installed, load_plugins env plugins m.installed = some installed ∧
      m2 = { m with
        applets_key_file := key_file
        used_ids := (load_groups key_file (g_key_file_get_groups key_file) [] []).1
        displayed_applets := (load_groups key_file (g_key_file_get_groups key_file) [] []).2
        installed := installed
        model := fill_model (load_groups key_file (g_key_file_get_groups key_file) [] []).2
          installed } := by
  unfold items_configuration_loaded_cb at h
  cases hl : load_plugins env plugins m.installed with
  | none => simp [hl] at h
  | some installed =>
    simp only [hl, Option.some.injEq] at h
    exact ⟨installed, rfl, h.symm⟩

/-! ## Install, remove and reload -/

theorem least_unused_unique (used_ids : GHashSet) (basename : String) (n k : Nat)
    (hn : least_unused used_ids basename n) (hk : least_unused used_ids basename k) : n = k := by
  rcases Nat.lt_trichotomy n k with h | h | h
  · exact absurd (hk.2 n h) hn.1
  · exact h
  · exact absurd (hn.2 k h) hk.1

theorem find_unique_id_of_least (used_ids : GHashSet) (basename : String) (n : Nat)
    (hsize : used_ids.length < G_UINT_RANGE) (hn : least_unused used_ids basename n) :
    find_unique_id used_ids basename = some (n, format_id basename n) := by
  obtain ⟨k, hk, _, hfree, hmin⟩ := find_unique_id_spec used_ids basename hsize
  have := least_unused_unique used_ids basename n k hn ⟨hfree, hmin⟩
  rw [this]; exact hk

theorem install_of_least (m : HDAppletManager) (iter : Nat) (name path : String) (n : Nat)
    (hrow : m.model.get? iter = some (name, path))
    (hsize : m.used_ids.length < G_UINT_RANGE)
    (hn : least_unused m.used_ids (g_path_get_basename path) n) :
    install_applet_id m iter = some (format_id (g_path_get_basename path) n) ∧
    hd_applet_manager_install_applet m iter = some { m with
      applets_key_file := g_key_file_set_string m.applets_key_file
        (format_id (g_path_get_basename path) n) ITEMS_KEY_DESKTOP_FILE path
      items_store := g_key_file_set_string m.applets_key_file
        (format_id (g_path_get_basename path) n) ITEMS_KEY_DESKTOP_FILE path
      store_writes := m.store_writes + 1 } := by
  have h := find_unique_id_of_least m.used_ids (g_path_get_basename path) n hsize hn
  constructor
  · simp only [install_applet_id, hrow, h, Option.map_some']
  · simp only [hd_applet_manager_install_applet, hrow, h]

theorem install_exists_least (m : HDAppletManager) (iter : Nat) (name path : String)
    (hrow : m.model.get? iter = some (name, path))
    (hsize : m.used_ids.length < G_UINT_RANGE) :
    ∃ n, n ≤ m.used_ids.length ∧ least_unused m.used_ids (g_path_get_basename path) n ∧
      install_applet_id m iter = some (format_id (g_path_get_basename path) n) ∧
      hd_applet_manager_install_applet m iter = some { m with
        applets_key_file := g_key_file_set_string m.applets_key_file
          (format_id (g_path_get_basename path) n) ITEMS_KEY_DESKTOP_FILE path
        items_store := g_key_file_set_string m.applets_key_file
          (format_id (g_path_get_basename path) n) ITEMS_KEY_DESKTOP_FILE path
        store_writes := m.store_writes + 1 } := by
  obtain ⟨n, hle, hfree, hmin⟩ := exists_least_free m.used_ids (g_path_get_basename path)
  have h := install_of_least m iter name path n hrow hsize ⟨hfree, hmin⟩
  exact ⟨n, hle, ⟨hfree, hmin⟩, h.1, h.2⟩

theorem length_hash_table_insert (t : GHashSet) (key : String) :
    (g_hash_table_insert t key).length ≤ t.length + 1 := by
  unfold g_hash_table_insert
  split <;> simp

theorem length_load_groups_fst (key_file : GKeyFile) (groups : List String) :
    ∀ (used_ids displayed : GHashSet),
      (load_groups key_file groups used_ids displayed).1.length ≤
        used_ids.length + groups.length := by
  induction groups with
  | nil => intro used_ids displayed; simp [load_groups]
  | cons g rest ih =>
    intro used_ids displayed
    simp only [load_groups, List.length_cons]
    have h1 := ih (g_hash_table_insert used_ids g)
      (match g_key_file_get_string key_file g ITEMS_KEY_DESKTOP_FILE with
       | some desktop_file => g_hash_table_insert displayed desktop_file
       | none => displayed)
    have h2 := length_hash_table_insert used_ids g
    omega

theorem reload_used_ids (env : DesktopEnv) (plugins : List String) (key_file : GKeyFile)
    (m m2 : HDAppletManager) (h : items_configuration_loaded_cb env plugins key_file m = some m2) :
    (∀ x, x ∈ m2.used_ids ↔ x ∈ g_key_file_get_groups key_file) ∧
      m2.used_ids.length ≤ key_file.length ∧
      m2.applets_key_file = key_file ∧ m2.items_store = m.items_store ∧
      m2.store_writes = m.store_writes := by
  obtain ⟨installed, _, hm2⟩ := refresh_some env plugins key_file m m2 h
  subst hm2
  refine ⟨fun x => ?_, ?_, rfl, rfl, rfl⟩
  · simp [mem_load_groups_fst]
  · have := length_load_groups_fst key_file (g_key_file_get_groups key_file) [] []
    simpa [g_key_file_get_groups] using this

/-! ## Steps of the applet registry -/

theorem find_unique_id_loop_sound (used_ids : GHashSet) (basename : String) :
    ∀ (fuel i n : Nat) (id : String),
      find_unique_id_loop used_ids basename fuel i = some (n, id) →
      id = format_id basename n ∧ id ∉ used_ids := by
  intro fuel
  induction fuel with
  | zero => intro i n id h; simp [find_unique_id_loop] at h
  | succ fuel ih =>
    intro i n id h
    simp only [find_unique_id_loop] at h
    split at h
    · exact ih _ _ _ h
    · rename_i hfree
      simp only [Option.some.injEq, Prod.mk.injEq] at h
      obtain ⟨h1, h2⟩ := h
      subst h1
      subst h2
      exact ⟨rfl, fun hmem => hfree ((lookup_ne_zero_iff _ _).2 hmem)⟩

theorem install_some (m m1 : HDAppletManager) (iter : Nat)
    (h : hd_applet_manager_install_applet m iter = some m1) :
    ∃ name path id, m.model.get? iter = some (name, path) ∧
      install_applet_id m iter = some id ∧ id ∉ m.used_ids ∧
      m1 = { m with
        applets_key_file :=
          g_key_file_set_string m.applets_key_file id ITEMS_KEY_DESKTOP_FILE path
        items_store :=
          g_key_file_set_string m.applets_key_file id ITEMS_KEY_DESKTOP_FILE path
        store_writes := m.store_writes + 1 } := by
  unfold hd_applet_manager_install_applet at h
  cases hrow : m.model.get? iter with
  | none => simp only [hrow] at h; cases h
  | some row =>
    obtain ⟨name, path⟩ := row
    simp only [hrow] at h
    cases hf : find_unique_id m.used_ids (g_path_get_basename path) with
    | none => simp only [hf] at h; cases h
    | some r =>
      obtain ⟨n, id⟩ := r
      simp only [hf, Option.some.injEq] at h
      have hs := find_unique_id_loop_sound m.used_ids (g_path_get_basename path) _ _ _ _ hf
      refine ⟨name, path, id, rfl, ?_, hs.2, h.symm⟩
      simp only [install_applet_id, hrow, hf, Option.map_some']

theorem refresh_hides_single (env : DesktopEnv) (plugins : List String) (key_file : GKeyFile)
    (s s2 : HDAppletManager) (path : String) (info : HDPluginInfo)
    (h : items_configuration_loaded_cb env plugins key_file s = some s2)
    (hinfo : g_hash_map_lookup s.installed path = some info)
    (hsingle : info.multiple = false)
    (hnodup : (s.installed.map Prod.fst).Nodup)
    (hshown : ∃ g, g ∈ g_key_file_get_groups key_file ∧
      g_key_file_get_string key_file g ITEMS_KEY_DESKTOP_FILE = some path) :
    ∀ row, row ∈ s2.model → row.2 ≠ path := by
  obtain ⟨installed, hload, hs2⟩ := refresh_some env plugins key_file s s2 h
  subst hs2
  intro row hmem hpath
  obtain ⟨e, he, hc, hrow⟩ := (mem_fill_model _ _ _).1 hmem
  have he1 : e.1 = path := by rw [hrow] at hpath; exact hpath
  have hl := hash_map_lookup_of_mem _ installed e
    (load_plugins_nodup env plugins _ _ hload hnodup) he
  rw [he1, load_plugins_lookup env plugins _ _ path info hload hinfo] at hl
  have he2 : e.2 = info := (Option.some.inj hl).symm
  rcases hc with hc | hc
  · rw [he2, hsingle] at hc; cases hc
  · apply hc
    rw [he1]
    exact (mem_load_groups_snd _ _ _ _ _).2 (Or.inr hshown)

theorem refresh_keeps_multiple (env : DesktopEnv) (plugins : List String) (key_file : GKeyFile)
    (s s2 : HDAppletManager) (path : String) (info : HDPluginInfo)
    (h : items_configuration_loaded_cb env plugins key_file s = some s2)
    (hinfo : g_hash_map_lookup s.installed path = some info)
    (hmulti : info.multiple = true) :
    (info.name, path) ∈ s2.model := by
  obtain ⟨installed, hload, hs2⟩ := refresh_some env plugins key_file s s2 h
  subst hs2
  refine (mem_fill_model _ _ _).2 ⟨(path, info), ?_, Or.inl hmulti, rfl⟩
  exact mem_of_hash_map_lookup _ _ _ _ (load_plugins_lookup env plugins _ _ path info hload hinfo)

theorem hidden_under_step (path id : String) (info : HDPluginInfo)
    (hsingle : info.multiple = false) (s s2 : HDAppletManager) (op : AppletOp)
    (hs : hidden_under path id info s) (hop : op ≠ AppletOp.remove id)
    (hstep : apply_op s op = some s2) : hidden_under path id info s2 := by
  obtain ⟨hused, hget, hstore, hinfo, hnodup, hrows⟩ := hs
  cases op with
  | install iter =>
    obtain ⟨name2, path2, id2, _, _, hfree, hs2⟩ := install_some s s2 iter hstep
    subst hs2
    have hne : id ≠ id2 := fun h => hfree (h ▸ hused)
    exact ⟨hused, by simpa [get_string_set_string_other _ _ _ _ _ _ hne] using hget, rfl,
      hinfo, hnodup, hrows⟩
  | remove plugin_id =>
    have hne : id ≠ plugin_id := fun h => hop (h ▸ rfl)
    simp only [apply_op, Option.some.injEq] at hstep
    subst hstep
    simp only [hd_applet_manager_remove_applet]
    by_cases hr : (g_key_file_remove_group s.applets_key_file plugin_id).2 = true
    · rw [if_pos hr]
      exact ⟨hused, by simpa [get_string_remove_other _ _ _ _ hne] using hget, rfl,
        hinfo, hnodup, hrows⟩
    · rw [if_neg hr]
      exact ⟨hused, hget, hstore, hinfo, hnodup, hrows⟩
  | reload env plugins =>
    have hstep2 : items_configuration_loaded_cb env plugins s.items_store s = some s2 := hstep
    rw [hstore] at hstep2
    have hgroup := mem_groups_of_get_string _ _ _ _ hget
    have hrows2 := refresh_hides_single env plugins _ s s2 path info hstep2 hinfo hsingle hnodup
      ⟨id, hgroup, hget⟩
    obtain ⟨hu, _, hk, hst, _⟩ := reload_used_ids env plugins _ s s2 hstep2
    obtain ⟨installed, hload, hs2⟩ := refresh_some env plugins _ s s2 hstep2
    refine ⟨(hu id).2 hgroup, by rw [hk]; exact hget, by rw [hst, hk, hstore], ?_, ?_, hrows2⟩
    · rw [hs2]; exact load_plugins_lookup env plugins _ _ path info hload hinfo
    · rw [hs2]; exact load_plugins_nodup env plugins _ _ hload hnodup

theorem hidden_under_run (path id : String) (info : HDPluginInfo)
    (hsingle : info.multiple = false) (ops : List AppletOp) :
    ∀ (s s3 : HDAppletManager), hidden_under path id info s →
      (∀ op, op ∈ ops → op ≠ AppletOp.remove id) →
      run_ops s ops = some s3 → hidden_under path id info s3 := by
  induction ops with
  | nil =>
    intro s s3 hs _ hrun
    simp only [run_ops, Option.some.injEq] at hrun
    exact hrun ▸ hs
  | cons op rest ih =>
    intro s s3 hs hops hrun
    simp only [run_ops] at hrun
    cases hstep : apply_op s op with
    | none => simp only [hstep] at hrun; cases hrun
    | some s2 =>
      simp only [hstep] at hrun
      exact ih s2 s3
        (hidden_under_step path id info hsingle s s2 op hs (hops op (List.mem_cons_self _ _)) hstep)
        (fun op2 h2 => hops op2 (List.mem_cons_of_mem _ h2)) hrun

theorem in_sync_reload (env : DesktopEnv) (plugins : List String) (s s2 : HDAppletManager)
    (hstore : s.items_store = s.applets_key_file)
    (h : reload_items env plugins s = some s2) :
    in_sync s2 ∧ s2.applets_key_file = s.applets_key_file := by
  have h2 : items_configuration_loaded_cb env plugins s.items_store s = some s2 := h
  obtain ⟨hu, _, hk, hst, _⟩ := reload_used_ids env plugins _ s s2 h2
  refine ⟨⟨fun x => ?_, by rw [hst, hk]⟩, by rw [hk, hstore]⟩
  rw [hk]; exact hu x

theorem install_sequence_in_sync (env : DesktopEnv) (plugins : List String)
    (iters : List Nat) :
    ∀ (s final : HDAppletManager) (ids : List String), in_sync s →
      install_sequence env plugins s iters = some (ids, final) →
      (∀ id, id ∈ ids → g_key_file_is_group_name id = true) →
      ids.Nodup ∧ ∀ id, id ∈ ids → id ∉ g_key_file_get_groups s.applets_key_file := by
  induction iters with
  | nil =>
    intro s final ids _ h _
    simp only [install_sequence, Option.some.injEq, Prod.mk.injEq] at h
    rw [← h.1]
    exact ⟨List.nodup_nil, fun id hid => by simp at hid⟩
  | cons iter rest ih =>
    intro s final ids hsync h hvalid
    simp only [install_sequence] at h
    cases hid : install_applet_id s iter with
    | none => simp [hid] at h
    | some id0 =>
      cases hin : hd_applet_manager_install_applet s iter with
      | none => simp [hid, hin] at h
      | some s1 =>
        simp only [hid, hin] at h
        cases hre : reload_items env plugins s1 with
        | none => simp [hre] at h
        | some s2 =>
          simp only [hre] at h
          cases hrest : install_sequence env plugins s2 rest with
          | none => simp [hrest] at h
          | some r =>
            obtain ⟨ids2, final2⟩ := r
            simp only [hrest, Option.some.injEq, Prod.mk.injEq] at h
            obtain ⟨name, path, id1, _, hid1, hfree, hs1⟩ := install_some s s1 iter hin
            have hideq : id1 = id0 := Option.some.inj (hid1.symm.trans hid)
            subst hideq
            have hstore1 : s1.items_store = s1.applets_key_file := by rw [hs1]
            obtain ⟨hsync2, hk2⟩ := in_sync_reload env plugins s1 s2 hstore1 hre
            rw [← h.1] at hvalid
            obtain ⟨hnd, hout⟩ := ih s2 final2 ids2 hsync2 hrest
              (fun id hid => hvalid id (List.mem_cons_of_mem _ hid))
            have hk1 : s1.applets_key_file =
                g_key_file_set_string s.applets_key_file id1 ITEMS_KEY_DESKTOP_FILE path := by
              rw [hs1]
            rw [← h.1]
            refine ⟨List.nodup_cons.2 ⟨fun hmem => ?_, hnd⟩, fun id hmem => ?_⟩
            · apply hout id1 hmem
              rw [hk2, hk1]
              exact (mem_groups_set_string _ _ _ _ _).2
                (Or.inr ⟨rfl, hvalid id1 (List.mem_cons_self _ _)⟩)
            · rcases List.mem_cons.1 hmem with heq | hmem2
              · rw [heq]; exact fun hg => hfree ((hsync.1 _).2 hg)
              · intro hg
                apply hout id hmem2
                rw [hk2, hk1]
                exact (mem_groups_set_string _ _ _ _ _).2 (Or.inl hg)

theorem install_sequence_nodup (env : DesktopEnv) (plugins : List String)
    (iters : List Nat) (s final : HDAppletManager) (ids : List String)
    (h : install_sequence env plugins s iters = some (ids, final))
    (hvalid : ∀ id, id ∈ ids → g_key_file_is_group_name id = true) : ids.Nodup := by
  cases iters with
  | nil =>
    simp only [install_sequence, Option.some.injEq, Prod.mk.injEq] at h
    rw [← h.1]; exact List.nodup_nil
  | cons iter rest =>
    simp only [install_sequence] at h
    cases hid : install_applet_id s iter with
    | none => simp [hid] at h
    | some id0 =>
      cases hin : hd_applet_manager_install_applet s iter with
      | none => simp [hid, hin] at h
      | some s1 =>
        simp only [hid, hin] at h
        cases hre : reload_items env plugins s1 with
        | none => simp [hre] at h
        | some s2 =>
          simp only [hre] at h
          cases hrest : install_sequence env plugins s2 rest with
          | none => simp [hrest] at h
          | some r =>
            obtain ⟨ids2, final2⟩ := r
            simp only [hrest, Option.some.injEq, Prod.mk.injEq] at h
            obtain ⟨name, path, id1, _, hid1, _, hs1⟩ := install_some s s1 iter hin
            have hideq : id1 = id0 := Option.some.inj (hid1.symm.trans hid)
            subst hideq
            have hstore1 : s1.items_store = s1.applets_key_file := by rw [hs1]
            obtain ⟨hsync2, hk2⟩ := in_sync_reload env plugins s1 s2 hstore1 hre
            rw [← h.1] at hvalid
            obtain ⟨hnd, hout⟩ := install_sequence_in_sync env plugins rest s2 final2 ids2
              hsync2 hrest (fun id hid => hvalid id (List.mem_cons_of_mem _ hid))
            have hk1 : s1.applets_key_file =
                g_key_file_set_string s.applets_key_file id1 ITEMS_KEY_DESKTOP_FILE path := by
              rw [hs1]
            rw [← h.1]
            refine List.nodup_cons.2 ⟨fun hmem => ?_, hnd⟩
            apply hout id1 hmem
            rw [hk2, hk1]
            exact (mem_groups_set_string _ _ _ _ _).2
              (Or.inr ⟨rfl, hvalid id1 (List.mem_cons_self _ _)⟩)

theorem load_plugins_total (env : DesktopEnv) (plugins : List String)
    (hnames : ∀ p, p ∈ plugins → ∀ kf, env.load_from_file p = some kf →
      g_key_file_get_string kf G_KEY_FILE_DESKTOP_GROUP G_KEY_FILE_DESKTOP_KEY_NAME ≠ none) :
    ∀ installed : GHashMap HDPluginInfo,
      ∃ installed2, load_plugins env plugins installed = some installed2 := by
  induction plugins with
  | nil => intro installed; exact ⟨installed, rfl⟩
  | cons p rest ih =>
    intro installed
    have ih2 := ih (fun q hq => hnames q (List.mem_cons_of_mem _ hq))
    simp only [load_plugins]
    split
    · exact ih2 _
    · split
      · exact ih2 _
      · rename_i kf hkf
        split
        · rename_i hname
          exact absurd hname (hnames p (List.mem_cons_self _ _) kf hkf)
        · exact ih2 _

theorem second_install_same (m : HDAppletManager) (iter : Nat) (name path : String) (n : Nat)
    (hrow : m.model.get? iter = some (name, path))
    (hsize : m.used_ids.length < G_UINT_RANGE)
    (hn : least_unused m.used_ids (g_path_get_basename path) n) (m1 : HDAppletManager)
    (h1 : hd_applet_manager_install_applet m iter = some m1) :
    m1.model.get? iter = some (name, path) ∧
    install_applet_id m1 iter = install_applet_id m iter ∧
    hd_applet_manager_install_applet m1 iter = some { m1 with
      store_writes := m1.store_writes + 1 } := by
  have h := install_of_least m iter name path n hrow hsize hn
  rw [h.2] at h1
  have e1 := Option.some.inj h1
  subst e1
  have h2 := install_of_least _ iter name path n
    (show ({ m with
      applets_key_file := g_key_file_set_string m.applets_key_file
        (format_id (g_path_get_basename path) n) ITEMS_KEY_DESKTOP_FILE path
      items_store := g_key_file_set_string m.applets_key_file
        (format_id (g_path_get_basename path) n) ITEMS_KEY_DESKTOP_FILE path
      store_writes := m.store_writes + 1 } : HDAppletManager).model.get? iter =
        some (name, path) from hrow) hsize hn
  refine ⟨hrow, by rw [h2.1, h.1], ?_⟩
  rw [h2.2]
  simp only [set_string_set_string]

/-! ## The task manager -/

theorem mem_insert_all (l : List String) : ∀ (t : GHashSet) (x : String),
    x ∈ insert_all l t ↔ x ∈ t ∨ x ∈ l := by
  induction l with
  | nil => intro t x; simp [insert_all]
  | cons a rest ih =>
    intro t x
    simp only [insert_all, ih, mem_hash_table_insert, List.mem_cons]
    tauto

theorem insert_all_append (l : List String) : ∀ t : GHashSet,
    (t ++ l).Nodup → insert_all l t = t ++ l := by
  induction l with
  | nil => intro t _; simp [insert_all]
  | cons a rest ih =>
    intro t h
    have ha : a ∉ t := by
      intro hmem
      have := List.nodup_append.1 h
      exact this.2.2 hmem (List.mem_cons_self _ _)
    have h2 : (t ++ [a] ++ rest).Nodup := by simpa using h
    simp only [insert_all, g_hash_table_insert, ha, if_false]
    rw [ih (t ++ [a]) h2]
    simp

theorem nodup_hash_table_insert (t : GHashSet) (key : String) (h : t.Nodup) :
    (g_hash_table_insert t key).Nodup := by
  unfold g_hash_table_insert
  by_cases hk : key ∈ t
  · simp [hk, h]
  · simp only [hk, if_false]
    exact List.nodup_append.2 ⟨h, List.nodup_singleton _, by
      intro a ha hb
      simp only [List.mem_singleton] at hb
      exact hk (hb ▸ ha)⟩

theorem update_installed_shortcuts_idem (priv : HDTaskManagerPrivate) :
    update_installed_shortcuts (update_installed_shortcuts priv) =
      update_installed_shortcuts priv := by
  unfold update_installed_shortcuts
  cases h : gconf_client_get_list priv.gconf_client with
  | none => simp [h]
  | some list =>
    simp only [gtk_tree_model_filter_refilter, h]
    rfl

theorem load_desktop_file_eq (env : TaskEnv) (manager : HDTaskManager) (filename : String) :
    hd_task_manager_load_desktop_file env manager filename =
      match accepted_info env filename with
      | some info => add_task env manager (desktop_id filename) info
      | none => manager := by
  unfold hd_task_manager_load_desktop_file accepted_info
  split
  · rfl
  · cases env.load_from_file filename with
    | none => rfl
    | some desktop_file =>
      cases htype : g_key_file_get_string desktop_file G_KEY_FILE_DESKTOP_GROUP
          G_KEY_FILE_DESKTOP_KEY_TYPE with
      | none => simp [htype]
      | some type =>
        by_cases ht : type = G_KEY_FILE_DESKTOP_TYPE_APPLICATION
        · subst ht
          cases hname : g_key_file_get_string desktop_file G_KEY_FILE_DESKTOP_GROUP
              G_KEY_FILE_DESKTOP_KEY_NAME <;> simp [htype, hname]
        · simp [htype, ht]

theorem visit_func_snd (env : TaskEnv) (manager : HDTaskManager) (f_path : String)
    (type_flag : FtwFlag) : (visit_func env manager f_path type_flag).2 = 0 := by
  cases type_flag <;> rfl

theorem nftw_cons (env : TaskEnv) (e : String × FtwFlag) (rest : List (String × FtwFlag))
    (manager : HDTaskManager) :
    nftw env (e :: rest) manager = nftw env rest (visit_func env manager e.1 e.2).1 := by
  obtain ⟨f_path, type_flag⟩ := e
  simp [nftw, visit_func_snd]

theorem scan_cons (env : TaskEnv) (e : String × FtwFlag) (rest : List (String × FtwFlag))
    (manager : HDTaskManager) :
    hd_task_manager_scan_for_desktop_files env (e :: rest) manager =
      hd_task_manager_scan_for_desktop_files env rest (visit_func env manager e.1 e.2).1 := by
  simp only [hd_task_manager_scan_for_desktop_files, nftw_cons]

theorem load_desktop_file_failing (env : TaskEnv) (manager : HDTaskManager) (filename : String)
    (h : env.load_from_file filename = none ∨
      ∃ desktop_file, env.load_from_file filename = some desktop_file ∧
        (g_key_file_get_string desktop_file G_KEY_FILE_DESKTOP_GROUP
            G_KEY_FILE_DESKTOP_KEY_TYPE ≠ some G_KEY_FILE_DESKTOP_TYPE_APPLICATION ∨
          g_key_file_get_string desktop_file G_KEY_FILE_DESKTOP_GROUP
            G_KEY_FILE_DESKTOP_KEY_NAME = none)) :
    hd_task_manager_load_desktop_file env manager filename = manager := by
  rw [load_desktop_file_eq]
  have hnone : accepted_info env filename = none := by
    unfold accepted_info
    split
    · rfl
    · rcases h with h | ⟨desktop_file, hl, h | h⟩
      · simp [h]
      · simp [hl, h]
      · simp [hl, h]
  rw [hnone]

theorem hash_map_lookup_insert (V : Type) (t : GHashMap V) (key : String) (v : V) :
    g_hash_map_lookup (g_hash_map_insert t key v) key = some v := by
  induction t with
  | nil => simp [g_hash_map_insert, g_hash_map_lookup]
  | cons p rest ih =>
    obtain ⟨k, w⟩ := p
    by_cases h : k = key
    · simp [g_hash_map_insert, g_hash_map_lookup, h]
    · simp [g_hash_map_insert, g_hash_map_lookup, h, ih]

/-! ## File names -/

theorem get_string_filter_self (key_file : GKeyFile) (removed key : String) :
    g_key_file_get_string (key_file.filter (fun g => g.1 != removed)) removed key = none := by
  induction key_file with
  | nil => rfl
  | cons p rest ih =>
    obtain ⟨g, pairs⟩ := p
    by_cases h : g = removed
    · subst h
      simp [ih]
    · have hb : (g != removed) = true := by simpa using h
      rw [List.filter_cons_of_pos (by simpa using hb)]
      simp [g_key_file_get_string, h, ih]

theorem get_string_remove_some (key_file : GKeyFile) (removed g key value : String)
    (h : g_key_file_get_string (g_key_file_remove_group key_file removed).1 g key =
      some value) :
    g_key_file_get_string key_file g key = some value := by
  unfold g_key_file_remove_group at h
  split at h
  · by_cases hg : g = removed
    · subst hg
      rw [get_string_filter_self] at h
      cases h
    · rw [get_string_filter_other _ _ _ _ hg] at h
      exact h
  · exact h

theorem remove_applet_key_file (s : HDAppletManager) (plugin_id : String)
    (hstore : s.items_store = s.applets_key_file) :
    (hd_applet_manager_remove_applet s plugin_id).applets_key_file =
      (g_key_file_remove_group s.applets_key_file plugin_id).1 ∧
    (hd_applet_manager_remove_applet s plugin_id).items_store =
      (hd_applet_manager_remove_applet s plugin_id).applets_key_file ∧
    (hd_applet_manager_remove_applet s plugin_id).used_ids = s.used_ids ∧
    (hd_applet_manager_remove_applet s plugin_id).installed = s.installed ∧
    (hd_applet_manager_remove_applet s plugin_id).model = s.model := by
  simp only [hd_applet_manager_remove_applet]
  by_cases hr : (g_key_file_remove_group s.applets_key_file plugin_id).2 = true
  · rw [if_pos hr]
    exact ⟨rfl, rfl, rfl, rfl, rfl⟩
  · rw [if_neg hr]
    refine ⟨?_, hstore, rfl, rfl, rfl⟩
    unfold g_key_file_remove_group at hr ⊢
    split
    · rename_i hmem
      simp [hmem] at hr
    · rfl

theorem load_plugins_single (env : DesktopEnv) (path : String)
    (henv : ∀ key_file, env.load_from_file path = some key_file →
      g_key_file_get_boolean key_file G_KEY_FILE_DESKTOP_GROUP DESKTOP_KEY_MULTIPLE = false)
    (plugins : List String) :
    ∀ (installed installed2 : GHashMap HDPluginInfo),
      load_plugins env plugins installed = some installed2 →
      (∀ e, e ∈ installed → e.1 = path → e.2.multiple = false) →
      ∀ e, e ∈ installed2 → e.1 = path → e.2.multiple = false := by
  induction plugins with
  | nil =>
    intro installed installed2 h hs
    simp only [load_plugins, Option.some.injEq] at h
    exact h ▸ hs
  | cons p rest ih =>
    intro installed installed2 h hs
    simp only [load_plugins] at h
    split at h
    · exact ih _ _ h hs
    · rename_i hnone
      split at h
      · exact ih _ _ h hs
      · rename_i key_file hkf
        split at h
        · cases h
        · refine ih _ _ h ?_
          rw [hash_map_insert_new _ _ _ _ hnone]
          intro e he hp
          rcases List.mem_append.1 he with he | he
          · exact hs e he hp
          · simp only [List.mem_singleton] at he
            subst he
            simp only at hp
            subst hp
            exact henv key_file hkf

theorem install_applet_id_eq (s : HDAppletManager) (iter : Nat) (name path : String)
    (hrow : s.model.get? iter = some (name, path)) :
    install_applet_id s iter =
      (find_unique_id s.used_ids (g_path_get_basename path)).map Prod.snd := by
  simp only [install_applet_id, hrow]

theorem coherent_step (path : String) (s s2 : HDAppletManager) (op : AppletOp)
    (hco : applet_coherent path s) (hone : at_most_one_group s.applets_key_file path)
    (hop : reload_reads_single path op) (hstep : apply_op s op = some s2) :
    applet_coherent path s2 ∧ at_most_one_group s2.applets_key_file path := by
  obtain ⟨hstore, hsingle, hnew, hold⟩ := hco
  cases op with
  | install iter =>
    obtain ⟨name, R, id, hrow, hid, hfree, hs2⟩ := install_some s s2 iter hstep
    rw [install_applet_id_eq s iter name R hrow] at hid
    subst hs2
    by_cases hvalid : g_key_file_is_group_name id = true
    swap
    · have hsame : g_key_file_set_string s.applets_key_file id ITEMS_KEY_DESKTOP_FILE R =
          s.applets_key_file := set_string_refused _ _ _ _ (by simpa using hvalid)
      refine ⟨⟨rfl, hsingle, ?_, ?_⟩, ?_⟩
      · intro g p hg hp
        simp only [hsame] at hp
        exact hnew g p hg hp
      · intro hrowp g hg hp
        simp only [hsame] at hp
        exact hold hrowp g hg hp
      · simp only [hsame]
        exact hone
    have hget : ∀ g, g_key_file_get_string
        (g_key_file_set_string s.applets_key_file id ITEMS_KEY_DESKTOP_FILE R) g
        ITEMS_KEY_DESKTOP_FILE =
        if g = id then some R else
          g_key_file_get_string s.applets_key_file g ITEMS_KEY_DESKTOP_FILE := by
      intro g
      by_cases hg : g = id
      · rw [if_pos hg, hg]; exact get_string_set_string _ _ _ _ hvalid
      · rw [if_neg hg]; exact get_string_set_string_other _ _ _ _ _ _ hg
    refine ⟨⟨rfl, hsingle, ?_, ?_⟩, ?_⟩
    · intro g p hg hp
      simp only [hget] at hp
      by_cases hgi : g = id
      · rw [if_pos hgi] at hp
        cases hp
        rw [hgi]; exact hid
      · rw [if_neg hgi] at hp
        exact hnew g p hg hp
    · intro hrowp g hg hp
      simp only [hget] at hp
      have hgi : g ≠ id := fun h => hfree (h ▸ hg)
      rw [if_neg hgi] at hp
      exact hold hrowp g hg hp
    · have hkey : ∀ g, g ≠ id →
          g_key_file_get_string s.applets_key_file g ITEMS_KEY_DESKTOP_FILE = some path →
          R = path → False := by
        intro g hgi hp hR
        have hrowp : ∃ row, row ∈ s.model ∧ row.2 = path :=
          ⟨(name, R), List.get?_mem hrow, hR⟩
        have hg : g ∉ s.used_ids := fun hmem => hold hrowp g hmem hp
        have h1 := hnew g path hg hp
        rw [← hR, hid] at h1
        exact hgi (Option.some.inj h1).symm
      intro g1 g2 h1 h2
      simp only [hget] at h1 h2
      by_cases hg1 : g1 = id
      · by_cases hg2 : g2 = id
        · rw [hg1, hg2]
        · rw [if_pos hg1] at h1
          rw [if_neg hg2] at h2
          exact absurd (Option.some.inj h1) (hkey g2 hg2 h2)
      · by_cases hg2 : g2 = id
        · rw [if_neg hg1] at h1
          rw [if_pos hg2] at h2
          exact absurd (Option.some.inj h2) (hkey g1 hg1 h1)
        · rw [if_neg hg1] at h1
          rw [if_neg hg2] at h2
          exact hone g1 g2 h1 h2
  | remove plugin_id =>
    simp only [apply_op, Option.some.injEq] at hstep
    subst hstep
    obtain ⟨hkf, hst, hu, hin, hmo⟩ := remove_applet_key_file s plugin_id hstore
    refine ⟨⟨hst, by rw [hin]; exact hsingle, ?_, ?_⟩, ?_⟩
    · intro g p hg hp
      rw [hu] at hg ⊢
      rw [hkf] at hp
      exact hnew g p hg (get_string_remove_some _ _ _ _ _ hp)
    · intro hrowp g hg hp
      rw [hmo] at hrowp
      rw [hu] at hg
      rw [hkf] at hp
      exact hold hrowp g hg (get_string_remove_some _ _ _ _ _ hp)
    · intro g1 g2 h1 h2
      rw [hkf] at h1 h2
      exact hone g1 g2 (get_string_remove_some _ _ _ _ _ h1)
        (get_string_remove_some _ _ _ _ _ h2)
  | reload env plugins =>
    have hstep2 : items_configuration_loaded_cb env plugins s.items_store s = some s2 := hstep
    rw [hstore] at hstep2
    obtain ⟨hu, _, hk, hst, _⟩ := reload_used_ids env plugins _ s s2 hstep2
    obtain ⟨installed, hload, hs2⟩ := refresh_some env plugins _ s s2 hstep2
    have hsingle2 : ∀ e, e ∈ s2.installed → e.1 = path → e.2.multiple = false := by
      rw [hs2]
      exact load_plugins_single env path hop plugins _ _ hload hsingle
    refine ⟨⟨by rw [hst, hk, hstore], hsingle2, ?_, ?_⟩, by rw [hk]; exact hone⟩
    · intro g p hg hp
      rw [hk] at hp
      exact absurd ((hu g).2 (mem_groups_of_get_string _ _ _ _ hp)) hg
    · rintro ⟨row, hrow, hrp⟩ g _ hp
      rw [hk] at hp
      have hmodel : row ∈ fill_model
          (load_groups s.applets_key_file (g_key_file_get_groups s.applets_key_file) [] []).2
          installed := by
        rw [hs2] at hrow; exact hrow
      obtain ⟨e, he, hc, hrw⟩ := (mem_fill_model _ _ _).1 hmodel
      have he1 : e.1 = path := by rw [hrw] at hrp; exact hrp
      have he2 : e ∈ s2.installed := by rw [hs2]; exact he
      rcases hc with hc | hc
      · rw [hsingle2 e he2 he1] at hc; cases hc
      · apply hc
        rw [he1]
        exact (mem_load_groups_snd _ _ _ _ _).2
          (Or.inr ⟨g, mem_groups_of_get_string _ _ _ _ hp, hp⟩)

theorem coherent_run (path : String) (ops : List AppletOp) :
    ∀ (s s2 : HDAppletManager), applet_coherent path s →
      at_most_one_group s.applets_key_file path →
      (∀ op, op ∈ ops → reload_reads_single path op) →
      run_ops s ops = some s2 →
      applet_coherent path s2 ∧ at_most_one_group s2.applets_key_file path := by
  induction ops with
  | nil =>
    intro s s2 hco hone _ hrun
    simp only [run_ops, Option.some.injEq] at hrun
    exact hrun ▸ ⟨hco, hone⟩
  | cons op rest ih =>
    intro s s2 hco hone hops hrun
    simp only [run_ops] at hrun
    cases hstep : apply_op s op with
    | none => simp only [hstep] at hrun; cases hrun
    | some s1 =>
      simp only [hstep] at hrun
      obtain ⟨hco1, hone1⟩ := coherent_step path s s1 op hco hone
        (hops op (List.mem_cons_self _ _)) hstep
      exact ih s1 s2 hco1 hone1 (fun op2 h2 => hops op2 (List.mem_cons_of_mem _ h2)) hrun

theorem coherent_after_reload (path : String) (env : DesktopEnv) (plugins : List String)
    (s0 s : HDAppletManager) (hstart : reload_items env plugins s0 = some s)
    (hsingle : ∀ e, e ∈ s.installed → e.1 = path → e.2.multiple = false) :
    applet_coherent path s := by
  have hstep : items_configuration_loaded_cb env plugins s0.items_store s0 = some s := hstart
  obtain ⟨hu, _, hk, hst, _⟩ := reload_used_ids env plugins _ s0 s hstep
  obtain ⟨installed, hload, hs⟩ := refresh_some env plugins _ s0 s hstep
  refine ⟨by rw [hst, hk], hsingle, ?_, ?_⟩
  · intro g p hg hp
    rw [hk] at hp
    exact absurd ((hu g).2 (mem_groups_of_get_string _ _ _ _ hp)) hg
  · rintro ⟨row, hrow, hrp⟩ g _ hp
    rw [hk] at hp
    have hmodel : row ∈ fill_model
        (load_groups s0.items_store (g_key_file_get_groups s0.items_store) [] []).2
        installed := by
      rw [hs] at hrow; exact hrow
    obtain ⟨e, he, hc, hrw⟩ := (mem_fill_model _ _ _).1 hmodel
    have he1 : e.1 = path := by rw [hrw] at hrp; exact hrp
    have he2 : e ∈ s.installed := by rw [hs]; exact he
    rcases hc with hc | hc
    · rw [hsingle e he2 he1] at hc; cases hc
    · apply hc
      rw [he1]
      exact (mem_load_groups_snd _ _ _ _ _).2
        (Or.inr ⟨g, mem_groups_of_get_string _ _ _ _ hp, hp⟩)

theorem at_most_one_group_singleton (name : String) (pairs : List (String × String))
    (path : String) : at_most_one_group [(name, pairs)] path := by
  have h : ∀ g, g_key_file_get_string [(name, pairs)] g ITEMS_KEY_DESKTOP_FILE = some path →
      g = name := by
    intro g hg
    by_contra hne
    have hne2 : ¬ name = g := fun h => hne h.symm
    simp [g_key_file_get_string, hne2] at hg
  intro g1 g2 h1 h2
  rw [h g1 h1, h g2 h2]

/-! ## Reads of the refresh -/

theorem load_plugins_reads_not_mem (env : DesktopEnv) (path : String) (plugins : List String) :
    ∀ (installed : GHashMap HDPluginInfo) (info : HDPluginInfo),
      g_hash_map_lookup installed path = some info →
      path ∉ load_plugins_reads env plugins installed := by
  induction plugins with
  | nil => intro installed info _; simp [load_plugins_reads]
  | cons q rest ih =>
    intro installed info h
    simp only [load_plugins_reads]
    split
    · exact ih installed info h
    · rename_i hnone
      have hne : path ≠ q := by
        intro heq
        rw [heq, hnone] at h
        cases h
      rw [List.mem_cons, not_or]
      refine ⟨hne, ?_⟩
      split
      · exact ih installed info h
      · split
        · simp
        · refine ih _ info ?_
          rw [hash_map_lookup_insert_other _ _ _ _ _ hne]
          exact h

theorem load_plugins_reads_once (env : DesktopEnv) (path : String) (key_file : GKeyFile)
    (name : String) (hload : env.load_from_file path = some key_file)
    (hname : g_key_file_get_string key_file G_KEY_FILE_DESKTOP_GROUP
      G_KEY_FILE_DESKTOP_KEY_NAME = some name)
    (plugins : List String) :
    ∀ (installed installed2 : GHashMap HDPluginInfo),
      g_hash_map_lookup installed path = none → path ∈ plugins →
      load_plugins env plugins installed = some installed2 →
      (load_plugins_reads env plugins installed).count path = 1 := by
  induction plugins with
  | nil => intro installed installed2 _ hmem _; simp at hmem
  | cons q rest ih =>
    intro installed installed2 hnone hmem hdone
    simp only [load_plugins] at hdone
    simp only [load_plugins_reads]
    cases hq : g_hash_map_lookup installed q with
    | some infoq =>
      simp only [hq] at hdone ⊢
      have hne : path ≠ q := by
        intro heq
        rw [heq, hq] at hnone
        cases hnone
      have hrest : path ∈ rest := by
        rcases List.mem_cons.1 hmem with h | h
        · exact absurd h hne
        · exact h
      exact ih installed installed2 hnone hrest hdone
    | none =>
      simp only [hq] at hdone ⊢
      by_cases hqp : q = path
      · subst hqp
        simp only [hload, hname] at hdone ⊢
        rw [List.count_cons_self]
        have hnot := load_plugins_reads_not_mem env q rest
          (g_hash_map_insert installed q
            { name := env.dgettext (g_key_file_get_string key_file G_KEY_FILE_DESKTOP_GROUP
                DESKTOP_KEY_TEXT_DOMAIN) name
              multiple := g_key_file_get_boolean key_file G_KEY_FILE_DESKTOP_GROUP
                DESKTOP_KEY_MULTIPLE }) _
          (hash_map_lookup_insert _ _ _ _)
        rw [List.count_eq_zero_of_not_mem hnot]
      · have hrest : path ∈ rest := by
          rcases List.mem_cons.1 hmem with h | h
          · exact absurd h.symm hqp
          · exact h
        rw [List.count_cons_of_ne (fun h => hqp h.symm)]
        cases hlq : env.load_from_file q with
        | none =>
          simp only [hlq] at hdone ⊢
          exact ih installed installed2 hnone hrest hdone
        | some kfq =>
          simp only [hlq] at hdone ⊢
          cases hnq : g_key_file_get_string kfq G_KEY_FILE_DESKTOP_GROUP
              G_KEY_FILE_DESKTOP_KEY_NAME with
          | none => simp only [hnq] at hdone; cases hdone
          | some nameq =>
            simp only [hnq] at hdone ⊢
            refine ih _ installed2 ?_ hrest hdone
            rw [hash_map_lookup_insert_other _ _ _ _ _ (fun h => hqp h.symm)]
            exact hnone

/-! ## Catalogue and rows of the task scan -/

theorem mem_keys_hash_map_insert (V : Type) (t : GHashMap V) (key : String) (v : V)
    (x : String) :
    x ∈ (g_hash_map_insert t key v).map Prod.fst ↔ x ∈ t.map Prod.fst ∨ x = key := by
  induction t with
  | nil => simp [g_hash_map_insert]
  | cons p rest ih =>
    obtain ⟨k, w⟩ := p
    by_cases h : k = key
    · subst h
      simp only [g_hash_map_insert, if_true, List.map_cons, List.mem_cons]
      tauto
    · simp only [g_hash_map_insert, h, if_false, List.map_cons, List.mem_cons, ih]
      tauto

theorem hash_map_insert_keys (V : Type) (t : GHashMap V) (key : String) (v : V)
    (h : g_hash_map_lookup t key ≠ none) :
    (g_hash_map_insert t key v).map Prod.fst = t.map Prod.fst := by
  induction t with
  | nil => simp [g_hash_map_lookup] at h
  | cons p rest ih =>
    obtain ⟨k, w⟩ := p
    by_cases hk : k = key
    · simp [g_hash_map_insert, hk]
    · simp only [g_hash_map_lookup, hk, if_false] at h
      simp [g_hash_map_insert, hk, ih h]

theorem nodup_keys_hash_map_insert (V : Type) (t : GHashMap V) (key : String) (v : V)
    (h : (t.map Prod.fst).Nodup) : ((g_hash_map_insert t key v).map Prod.fst).Nodup := by
  cases hl : g_hash_map_lookup t key with
  | none =>
    rw [hash_map_insert_new _ _ _ _ hl, List.map_append, List.nodup_append]
    refine ⟨h, by simp, ?_⟩
    intro a ha hb
    simp only [List.map_cons, List.map_nil, List.mem_singleton] at hb
    subst hb
    exact (hash_map_lookup_eq_none _ _ _).1 hl ha
  | some w =>
    rw [hash_map_insert_keys _ _ _ _ (by rw [hl]; simp)]
    exact h

theorem lookup_add_task (env : TaskEnv) (manager : HDTaskManager) (id : String)
    (info : HDTaskInfo) (k : String) :
    g_hash_map_lookup (add_task env manager id info).priv.available_tasks k =
      if id = k then some info else g_hash_map_lookup manager.priv.available_tasks k := by
  by_cases h : id = k
  · subst h
    simp only [add_task, if_true]
    exact hash_map_lookup_insert _ _ _ _
  · simp only [add_task, h, if_false]
    exact hash_map_lookup_insert_other _ _ _ _ _ (fun h2 => h h2.symm)

theorem lookup_scan (env : TaskEnv) (entries : List (String × FtwFlag)) :
    ∀ (manager : HDTaskManager) (k : String),
      g_hash_map_lookup
        (hd_task_manager_scan_for_desktop_files env entries manager).priv.available_tasks k =
        match scanned_info env entries k with
        | some info => some info
        | none => g_hash_map_lookup manager.priv.available_tasks k := by
  induction entries with
  | nil => intro manager k; rfl
  | cons e rest ih =>
    intro manager k
    obtain ⟨f_path, type_flag⟩ := e
    rw [scan_cons, ih]
    simp only [scanned_info]
    cases hrest : scanned_info env rest k with
    | some info => rfl
    | none =>
      simp only []
      by_cases hc : type_flag = FtwFlag.FTW_F ∧ desktop_id f_path = k
      · obtain ⟨hf, hid⟩ := hc
        subst hf
        simp only [visit_func, load_desktop_file_eq, hid, and_self, if_true]
        cases hacc : accepted_info env f_path with
        | none => rfl
        | some info =>
          simp only []
          rw [← hid, lookup_add_task, if_pos rfl]
      · rw [if_neg hc]
        simp only []
        by_cases hf : type_flag = FtwFlag.FTW_F
        · subst hf
          have hid : ¬ desktop_id f_path = k := fun h => hc ⟨rfl, h⟩
          simp only [visit_func, load_desktop_file_eq]
          cases hacc : accepted_info env f_path with
          | none => rfl
          | some info =>
            simp only []
            rw [lookup_add_task, if_neg hid]
        · cases type_flag <;> first | exact absurd rfl hf | rfl

theorem add_task_new_key (env : TaskEnv) (manager : HDTaskManager) (id : String)
    (info : HDTaskInfo) (hnew : g_hash_map_lookup manager.priv.available_tasks id = none) :
    (add_task env manager id info).priv.available_tasks =
      manager.priv.available_tasks ++ [(id, info)] ∧
    (add_task env manager id info).priv.model =
      manager.priv.model ++ [{ label := info.label, icon := info.icon, desktop_id := id }] ∧
    (add_task env manager id info).desktop_file_changed =
      manager.desktop_file_changed ++ [id] ∧
    (add_task env manager id info).priv.installed_shortcuts =
      manager.priv.installed_shortcuts := by
  simp [add_task, hnew, hash_map_insert_new _ _ _ _ hnew]

theorem rows_of_loads (env : TaskEnv) (files : List String) :
    ∀ manager : HDTaskManager,
      (manager.priv.available_tasks.map Prod.fst ++
        (files.filter (fun f => (accepted_info env f).isSome)).map desktop_id).Nodup →
      (files.foldl (hd_task_manager_load_desktop_file env) manager).priv.model.map
          TaskRow.desktop_id =
        manager.priv.model.map TaskRow.desktop_id ++
          (files.filter (fun f => (accepted_info env f).isSome)).map desktop_id := by
  induction files with
  | nil => intro manager _; simp
  | cons f rest ih =>
    intro manager hnodup
    rw [List.foldl_cons, load_desktop_file_eq]
    cases hacc : accepted_info env f with
    | none =>
      have hf : (f :: rest).filter (fun f => (accepted_info env f).isSome) =
          rest.filter (fun f => (accepted_info env f).isSome) := by simp [hacc]
      rw [hf] at hnodup ⊢
      exact ih manager hnodup
    | some info =>
      have hf : (f :: rest).filter (fun f => (accepted_info env f).isSome) =
          f :: rest.filter (fun f => (accepted_info env f).isSome) := by simp [hacc]
      rw [hf] at hnodup ⊢
      have hnew : g_hash_map_lookup manager.priv.available_tasks (desktop_id f) = none := by
        rw [hash_map_lookup_eq_none]
        intro hmem
        exact (List.nodup_append.1 hnodup).2.2 hmem (by simp)
      obtain ⟨hk, hm, _, _⟩ := add_task_new_key env manager (desktop_id f) info hnew
      simp only []
      rw [ih _ (by rw [hk]; simpa using hnodup), hm]
      simp

theorem keys_of_loads (env : TaskEnv) (files : List String) :
    ∀ (manager : HDTaskManager) (x : String),
      x ∈ (files.foldl (hd_task_manager_load_desktop_file env)
          manager).priv.available_tasks.map Prod.fst ↔
        x ∈ manager.priv.available_tasks.map Prod.fst ∨
          x ∈ (files.filter (fun f => (accepted_info env f).isSome)).map desktop_id := by
  induction files with
  | nil => intro manager x; simp
  | cons f rest ih =>
    intro manager x
    rw [List.foldl_cons, ih, load_desktop_file_eq]
    cases hacc : accepted_info env f with
    | none => simp [hacc]
    | some info =>
      simp only [add_task, mem_keys_hash_map_insert, hacc, Option.isSome_some,
        List.filter_cons_of_pos, List.map_cons, List.mem_cons]
      tauto

theorem keys_nodup_of_loads (env : TaskEnv) (files : List String) :
    ∀ manager : HDTaskManager, (manager.priv.available_tasks.map Prod.fst).Nodup →
      ((files.foldl (hd_task_manager_load_desktop_file env)
        manager).priv.available_tasks.map Prod.fst).Nodup := by
  induction files with
  | nil => intro manager h; exact h
  | cons f rest ih =>
    intro manager h
    rw [List.foldl_cons]
    refine ih _ ?_
    rw [load_desktop_file_eq]
    cases hacc : accepted_info env f with
    | none => exact h
    | some info => exact nodup_keys_hash_map_insert _ _ _ _ h

theorem exec_without_space (exec : String) (h : ' ' ∉ exec.data) :
    exec_program exec = exec ∧ exec_arguments exec = "" := by
  have hall : ∀ c, c ∈ exec.data → (c != ' ') = true := by
    intro c hc
    have : c ≠ ' ' := fun heq => h (heq ▸ hc)
    simpa using this
  constructor
  · unfold exec_program
    rw [List.takeWhile_eq_self_iff.2 hall]
  · unfold exec_arguments
    rw [List.dropWhile_eq_nil_iff.2 hall]

theorem launch_command_line_eq (env : LaunchEnv) (exec : String) :
    launch_command_line env exec =
      (env.g_find_program_in_path (exec_program exec)).map
        (fun program => program ++ exec_arguments exec) := by
  unfold launch_command_line
  by_cases h : ' ' ∈ exec.data
  · rw [if_pos h]
    cases env.g_find_program_in_path (exec_program exec) <;> rfl
  · rw [if_neg h]
    obtain ⟨hp, ha⟩ := exec_without_space exec h
    rw [hp, ha]
    cases env.g_find_program_in_path exec with
    | none => rfl
    | some program =>
      simp only [Option.map_some']
      exact congrArg some (String.ext (by simp [String.data_append]))

/-! ## Background keys and bookmark names -/

theorem refresh_total (env : DesktopEnv) (plugins : List String) (key_file : GKeyFile)
    (m : HDAppletManager)
    (hnames : ∀ p, p ∈ plugins → ∀ kf, env.load_from_file p = some kf →
      g_key_file_get_string kf G_KEY_FILE_DESKTOP_GROUP G_KEY_FILE_DESKTOP_KEY_NAME ≠ none) :
    ∃ m2, items_configuration_loaded_cb env plugins key_file m = some m2 := by
  obtain ⟨installed, hload⟩ := load_plugins_total env plugins hnames m.installed
  simp only [items_configuration_loaded_cb, hload]
  exact ⟨_, rfl⟩

theorem load_plugins_reads_failing (env : DesktopEnv) (path : String)
    (hload : env.load_from_file path = none) (plugins : List String) :
    ∀ (installed installed2 : GHashMap HDPluginInfo),
      g_hash_map_lookup installed path = none →
      load_plugins env plugins installed = some installed2 →
      (load_plugins_reads env plugins installed).count path = plugins.count path := by
  induction plugins with
  | nil => intro installed installed2 _ _; rfl
  | cons q rest ih =>
    intro installed installed2 hnone hdone
    simp only [load_plugins] at hdone
    simp only [load_plugins_reads]
    cases hq : g_hash_map_lookup installed q with
    | some infoq =>
      simp only [hq] at hdone ⊢
      have hne : path ≠ q := by
        intro heq
        rw [heq, hq] at hnone
        cases hnone
      rw [List.count_cons_of_ne hne]
      exact ih installed installed2 hnone hdone
    | none =>
      simp only [hq] at hdone ⊢
      by_cases hqp : q = path
      · subst hqp
        simp only [hload] at hdone ⊢
        rw [List.count_cons_self, List.count_cons_self, ih installed installed2 hnone hdone]
      · rw [List.count_cons_of_ne (fun h => hqp h.symm),
          List.count_cons_of_ne (fun h => hqp h.symm)]
        cases hlq : env.load_from_file q with
        | none =>
          simp only [hlq] at hdone ⊢
          exact ih installed installed2 hnone hdone
        | some kfq =>
          simp only [hlq] at hdone ⊢
          cases hnq : g_key_file_get_string kfq G_KEY_FILE_DESKTOP_GROUP
              G_KEY_FILE_DESKTOP_KEY_NAME with
          | none => simp only [hnq] at hdone; cases hdone
          | some nameq =>
            simp only [hnq] at hdone ⊢
            refine ih _ installed2 ?_ hdone
            rw [hash_map_lookup_insert_other _ _ _ _ _ (fun h => hqp h.symm)]
            exact hnone

/-! ## The claims -/

/-- C1: on a row with descriptor path `path`, `hd_applet_manager_install_applet`
chooses the identifier `B-n`, where `B` is the basename of `path` and `n` is
the smallest number whose identifier is not in `used_ids`, a table of fewer
than `2 ^ 32` keys, and hands it to `g_key_file_set_string` as group name.
When `B` holds no `[`, no `]` and no control character the key file then has
`X-Desktop-File = path` under `B-n`, and starting with no identifier used and
reloading the stored items file after every step, the first install chooses
`B-0`, the second `B-1`, and after `B-0` was removed the next install chooses
`B-0` again. When `B` holds such a character GLib refuses the group name, the
key file stays as it was, and after the reload the next install chooses `B-0`
once more. -/
theorem install_applet_chooses_least_unused (m : HDAppletManager) (iter : Nat)
    (name path : String)
    (hrow : m.model.get? iter = some (name, path))
    (hsize : m.used_ids.length < G_UINT_RANGE) :
    (∃ n, least_unused m.used_ids (g_path_get_basename path) n ∧
      install_applet_id m iter = some (format_id (g_path_get_basename path) n) ∧
      ∃ m1, hd_applet_manager_install_applet m iter = some m1 ∧
        m1.applets_key_file = g_key_file_set_string m.applets_key_file
          (format_id (g_path_get_basename path) n) ITEMS_KEY_DESKTOP_FILE path ∧
        ((g_path_get_basename path).data.all group_name_char = true →
          g_key_file_get_string m1.applets_key_file
            (format_id (g_path_get_basename path) n) ITEMS_KEY_DESKTOP_FILE = some path) ∧
        ((g_path_get_basename path).data.all group_name_char = false →
          m1.applets_key_file = m.applets_key_file)) ∧
    ((g_path_get_basename path).data.all group_name_char = true →
      ∀ (env : DesktopEnv) (plugins : List String) (s0 s1 s2 s3 s4 s6 : HDAppletManager)
        (i0 i1 i2 : Nat) (n0 n1 n2 : String),
      s0.used_ids = [] → s0.applets_key_file = [] →
      s0.model.get? i0 = some (n0, path) →
      hd_applet_manager_install_applet s0 i0 = some s1 →
      reload_items env plugins s1 = some s2 →
      s2.model.get? i1 = some (n1, path) →
      hd_applet_manager_install_applet s2 i1 = some s3 →
      reload_items env plugins s3 = some s4 →
      reload_items env plugins
        (hd_applet_manager_remove_applet s4 (format_id (g_path_get_basename path) 0)) = some s6 →
      s6.model.get? i2 = some (n2, path) →
      install_applet_id s0 i0 = some (format_id (g_path_get_basename path) 0) ∧
      install_applet_id s2 i1 = some (format_id (g_path_get_basename path) 1) ∧
      install_applet_id s6 i2 = some (format_id (g_path_get_basename path) 0)) ∧
    ((g_path_get_basename path).data.all group_name_char = false →
      ∀ (env : DesktopEnv) (plugins : List String) (s0 s1 s2 : HDAppletManager)
        (i0 i1 : Nat) (n0 n1 : String),
      s0.used_ids = [] → s0.applets_key_file = [] →
      s0.model.get? i0 = some (n0, path) →
      hd_applet_manager_install_applet s0 i0 = some s1 →
      reload_items env plugins s1 = some s2 →
      s2.model.get? i1 = some (n1, path) →
      install_applet_id s0 i0 = some (format_id (g_path_get_basename path) 0) ∧
      s1.applets_key_file = [] ∧
      install_applet_id s2 i1 = some (format_id (g_path_get_basename path) 0)) := by
  refine ⟨?_, ?_, ?_⟩
  · obtain ⟨n, _, hl, hid, hinst⟩ := install_exists_least m iter name path hrow hsize
    refine ⟨n, hl, hid, _, hinst, rfl, fun hv => ?_, fun hv => ?_⟩
    · exact get_string_set_string _ _ _ _ (by rw [is_group_name_format_id]; exact hv)
    · exact set_string_refused _ _ _ _ (by rw [is_group_name_format_id]; exact hv)
  · intro hv env plugins s0 s1 s2 s3 s4 s6 i0 i1 i2 n0 n1 n2 hU hK hr0 hs1 hs2 hr1 hs3 hs4
      hs6 hr2
    have hv0 : g_key_file_is_group_name (format_id (g_path_get_basename path) 0) = true := by
      rw [is_group_name_format_id]; exact hv
    have hv1 : g_key_file_is_group_name (format_id (g_path_get_basename path) 1) = true := by
      rw [is_group_name_format_id]; exact hv
    have hne : format_id (g_path_get_basename path) 1 ≠
        format_id (g_path_get_basename path) 0 := fun h => by
      have := format_id_injective _ h
      omega
    have hl0 : least_unused s0.used_ids (g_path_get_basename path) 0 := by
      rw [hU]; exact ⟨by simp, fun k hk => by omega⟩
    have hsz0 : s0.used_ids.length < G_UINT_RANGE := by rw [hU]; simp [G_UINT_RANGE]
    have h0 := install_of_least s0 i0 n0 path 0 hr0 hsz0 hl0
    rw [h0.2] at hs1
    have es1 := Option.some.inj hs1
    have hst1 : s1.items_store =
        [(format_id (g_path_get_basename path) 0, [(ITEMS_KEY_DESKTOP_FILE, path)])] := by
      rw [← es1]; simp [hK, g_key_file_set_string, hv0, key_file_set_value]
    obtain ⟨hu2, hlen2, hk2, hst2, _⟩ := reload_used_ids env plugins s1.items_store s1 s2 hs2
    have hl1 : least_unused s2.used_ids (g_path_get_basename path) 1 := by
      refine ⟨?_, fun k hk => ?_⟩
      · rw [hu2, hst1]; simp [g_key_file_get_groups, hne]
      · have hk0 : k = 0 := by omega
        subst hk0
        rw [hu2, hst1]; simp [g_key_file_get_groups]
    have hsz2 : s2.used_ids.length < G_UINT_RANGE := by
      rw [hst1] at hlen2
      simp only [List.length_singleton] at hlen2
      have : (1 : Nat) < G_UINT_RANGE := by simp [G_UINT_RANGE]
      omega
    have h1 := install_of_least s2 i1 n1 path 1 hr1 hsz2 hl1
    rw [h1.2] at hs3
    have es3 := Option.some.inj hs3
    have hst3 : s3.items_store =
        [(format_id (g_path_get_basename path) 0, [(ITEMS_KEY_DESKTOP_FILE, path)]),
          (format_id (g_path_get_basename path) 1, [(ITEMS_KEY_DESKTOP_FILE, path)])] := by
      rw [← es3]; simp [hk2, hst1, g_key_file_set_string, hv1, key_file_set_value, hne.symm]
    obtain ⟨_, _, hk4, hst4, _⟩ := reload_used_ids env plugins s3.items_store s3 s4 hs4
    have hst5 : (hd_applet_manager_remove_applet s4
        (format_id (g_path_get_basename path) 0)).items_store =
        [(format_id (g_path_get_basename path) 1, [(ITEMS_KEY_DESKTOP_FILE, path)])] := by
      simp [hd_applet_manager_remove_applet, g_key_file_remove_group, hk4, hst3,
        g_key_file_get_groups, hne]
    obtain ⟨hu6, hlen6, _, _, _⟩ := reload_used_ids env plugins _ _ s6 hs6
    have hl2 : least_unused s6.used_ids (g_path_get_basename path) 0 := by
      refine ⟨?_, fun k hk => by omega⟩
      rw [hu6, hst5]; simp [g_key_file_get_groups, hne.symm]
    have hsz6 : s6.used_ids.length < G_UINT_RANGE := by
      rw [hst5] at hlen6
      simp only [List.length_singleton] at hlen6
      have : (1 : Nat) < G_UINT_RANGE := by simp [G_UINT_RANGE]
      omega
    have h2 := install_of_least s6 i2 n2 path 0 hr2 hsz6 hl2
    exact ⟨h0.1, h1.1, h2.1⟩
  · intro hv env plugins s0 s1 s2 i0 i1 n0 n1 hU hK hr0 hs1 hs2 hr1
    have hv0 : g_key_file_is_group_name (format_id (g_path_get_basename path) 0) = false := by
      rw [is_group_name_format_id]; exact hv
    have hl0 : least_unused s0.used_ids (g_path_get_basename path) 0 := by
      rw [hU]; exact ⟨by simp, fun k hk => by omega⟩
    have hsz0 : s0.used_ids.length < G_UINT_RANGE := by rw [hU]; simp [G_UINT_RANGE]
    have h0 := install_of_least s0 i0 n0 path 0 hr0 hsz0 hl0
    rw [h0.2] at hs1
    have es1 := Option.some.inj hs1
    have hkf1 : s1.applets_key_file = [] := by
      rw [← es1]; simp [hK, g_key_file_set_string, hv0]
    have hst1 : s1.items_store = [] := by
      rw [← es1]; simp [hK, g_key_file_set_string, hv0]
    obtain ⟨hu2, hlen2, _, _, _⟩ := reload_used_ids env plugins s1.items_store s1 s2 hs2
    have hl1 : least_unused s2.used_ids (g_path_get_basename path) 0 := by
      refine ⟨?_, fun k hk => by omega⟩
      rw [hu2, hst1]; simp [g_key_file_get_groups]
    have hsz2 : s2.used_ids.length < G_UINT_RANGE := by
      rw [hst1] at hlen2
      simp only [List.length_nil] at hlen2
      have : (0 : Nat) < G_UINT_RANGE := by simp [G_UINT_RANGE]
      omega
    have h1 := install_of_least s2 i1 n1 path 0 hr1 hsz2 hl1
    exact ⟨h0.1, hkf1, h1.1⟩

/-- Witness of C1: the notes applet of the sample states through install,
install, removal and install, and the applet `a[1].desktop`, whose install
leaves the key file empty and whose next install after the reload chooses
`a[1].desktop-0` again. -/
theorem install_applet_chooses_least_unused_witness :
    sample_manager.model.get? 1 = some ("Notes", notes_path) ∧
    sample_manager.used_ids.length < G_UINT_RANGE ∧
    (install_applet_id sample_manager 1 = some (format_id (g_path_get_basename notes_path) 0) ∧
      install_applet_id (sample_state [AppletOp.install 1, sample_reload]) 1 =
        some (format_id (g_path_get_basename notes_path) 1) ∧
      install_applet_id (sample_state [AppletOp.install 1, sample_reload, AppletOp.install 1,
        sample_reload, AppletOp.remove "notes.desktop-0", sample_reload]) 1 =
        some (format_id (g_path_get_basename notes_path) 0)) ∧
    items_configuration_loaded_cb bracket_env [bracket_path] [] initial_manager =
      some bracket_manager ∧
    (install_applet_id bracket_manager 0 = some (format_id (g_path_get_basename bracket_path) 0) ∧
      ((hd_applet_manager_install_applet bracket_manager 0).getD
        initial_manager).applets_key_file = [] ∧
      install_applet_id
        (((hd_applet_manager_install_applet bracket_manager 0).bind
          (reload_items bracket_env [bracket_path])).getD initial_manager) 0 =
        some (format_id (g_path_get_basename bracket_path) 0)) :=
  ⟨by decide, by decide,
    (install_applet_chooses_least_unused sample_manager 1 "Notes" notes_path
      (by decide) (by decide)).2.1 (by decide) sample_env sample_plugins sample_manager
      (sample_state [AppletOp.install 1])
      (sample_state [AppletOp.install 1, sample_reload])
      (sample_state [AppletOp.install 1, sample_reload, AppletOp.install 1])
      (sample_state [AppletOp.install 1, sample_reload, AppletOp.install 1, sample_reload])
      (sample_state [AppletOp.install 1, sample_reload, AppletOp.install 1, sample_reload,
        AppletOp.remove "notes.desktop-0", sample_reload])
      1 1 1 "Notes" "Notes" "Notes"
      (by decide) (by decide) (by decide) (by decide) (by decide) (by decide) (by decide)
      (by decide) (by decide) (by decide),
    by decide,
    (install_applet_chooses_least_unused bracket_manager 0 "Bracket" bracket_path
      (by decide) (by decide)).2.2 (by decide) bracket_env [bracket_path] bracket_manager
      ((hd_applet_manager_install_applet bracket_manager 0).getD initial_manager)
      (((hd_applet_manager_install_applet bracket_manager 0).bind
        (reload_items bracket_env [bracket_path])).getD initial_manager)
      0 0 "Bracket" "Bracket"
      (by decide) (by decide) (by decide) (by decide) (by decide) (by decide)⟩


/-- C2 as the code has it: `hd_applet_manager_install_applet` does not add the
identifier it chose to `used_ids`; only `items_configuration_loaded_cb` rebuilds
that table. For a multiple-instance applet every install on a row succeeds and
chooses an identifier absent from `used_ids`; once the stored items file has
been reloaded the applet is still offered, and when the identifier is a group
name GLib accepts an install on it chooses a different identifier; and in a
run of installs each followed by a reload the identifiers chosen, when they
are group names GLib accepts, are pairwise distinct. -/
theorem install_multiple_distinct_after_reload (m : HDAppletManager) (iter : Nat)
    (name path : String) (info : HDPluginInfo)
    (hrow : m.model.get? iter = some (name, path))
    (hsize : m.used_ids.length < G_UINT_RANGE)
    (hinfo : g_hash_map_lookup m.installed path = some info)
    (hmulti : info.multiple = true) :
    ∃ id m1, install_applet_id m iter = some id ∧
      hd_applet_manager_install_applet m iter = some m1 ∧
      id ∉ m.used_ids ∧ m1.used_ids = m.used_ids ∧
      (∀ (env : DesktopEnv) (plugins : List String) (m2 : HDAppletManager),
        reload_items env plugins m1 = some m2 →
        (info.name, path) ∈ m2.model ∧
        (g_key_file_is_group_name id = true →
          ∀ (iter2 : Nat) (name2 : String), m2.model.get? iter2 = some (name2, path) →
            m2.used_ids.length < G_UINT_RANGE →
            ∃ id2 m3, install_applet_id m2 iter2 = some id2 ∧
              hd_applet_manager_install_applet m2 iter2 = some m3 ∧ id2 ≠ id)) ∧
      (∀ (env : DesktopEnv) (plugins : List String) (iters : List Nat) (ids : List String)
          (final : HDAppletManager),
        install_sequence env plugins m iters = some (ids, final) →
        (∀ x, x ∈ ids → g_key_file_is_group_name x = true) → ids.Nodup) := by
  obtain ⟨n, _, hl, hid, hinst⟩ := install_exists_least m iter name path hrow hsize
  refine ⟨_, _, hid, hinst, hl.1, rfl, ?_, ?_⟩
  · intro env plugins m2 hre
    have hre2 : items_configuration_loaded_cb env plugins
        (g_key_file_set_string m.applets_key_file (format_id (g_path_get_basename path) n)
          ITEMS_KEY_DESKTOP_FILE path) _ = some m2 := hre
    refine ⟨refresh_keeps_multiple env plugins _ _ m2 path info hre2 hinfo hmulti, ?_⟩
    intro hvalid iter2 name2 hrow2 hsize2
    obtain ⟨n2, _, hl2, hid2, hinst2⟩ := install_exists_least m2 iter2 name2 path hrow2 hsize2
    refine ⟨_, _, hid2, hinst2, fun heq => hl2.1 ?_⟩
    rw [heq]
    exact ((reload_used_ids env plugins _ _ m2 hre2).1 _).2
      ((mem_groups_set_string _ _ _ _ _).2 (Or.inr ⟨rfl, hvalid⟩))
  · intro env plugins iters ids final hrun hvalid
    exact install_sequence_nodup env plugins iters m final ids hrun hvalid

/-- Witness of C2 as amended: the notes applet of the sample state. -/
theorem install_multiple_distinct_after_reload_witness :
    sample_manager.model.get? 1 = some ("Notes", notes_path) ∧
    install_sequence sample_env sample_plugins sample_manager [1, 1, 1] =
      some (["notes.desktop-0", "notes.desktop-1", "notes.desktop-2"],
        sample_state [AppletOp.install 1, sample_reload, AppletOp.install 1, sample_reload,
          AppletOp.install 1, sample_reload]) ∧
    ["notes.desktop-0", "notes.desktop-1", "notes.desktop-2"].Nodup :=
  ⟨by decide, by decide,
    let ⟨_, _, _, _, _, _, _, hseq⟩ :=
      install_multiple_distinct_after_reload sample_manager 1 "Notes" notes_path
        { name := "Notes", multiple := true } (by decide) (by decide) (by decide) rfl
    hseq sample_env sample_plugins [1, 1, 1]
      ["notes.desktop-0", "notes.desktop-1", "notes.desktop-2"]
      (sample_state [AppletOp.install 1, sample_reload, AppletOp.install 1, sample_reload,
        AppletOp.install 1, sample_reload]) (by decide) (by decide)⟩

/-- C2 as stated fails: in the state the first refresh produces, the notes
descriptor has `X-Multiple` true, and two consecutive installs on its row, with
no refresh in between, both choose `notes.desktop-0`, which is a group of the
key file before the second call. -/
theorem consecutive_installs_same_id :
    items_configuration_loaded_cb sample_env sample_plugins [] initial_manager =
      some sample_manager ∧
    g_hash_map_lookup sample_manager.installed notes_path =
      some { name := "Notes", multiple := true } ∧
    hd_applet_manager_install_applet sample_manager 1 =
      some (sample_state [AppletOp.install 1]) ∧
    install_applet_id sample_manager 1 = some "notes.desktop-0" ∧
    install_applet_id (sample_state [AppletOp.install 1]) 1 = some "notes.desktop-0" ∧
    g_key_file_get_groups (sample_state [AppletOp.install 1]).applets_key_file =
      ["notes.desktop-0"] := by
  decide

/-- C3: for a set `used_ids` of `k` identifiers, `k` below `2 ^ 32` as in every
`GHashTable`, the probe loop ends within `k + 1` candidates: started at 0 with `k + 1` candidates allowed (or any larger
number) it returns a sequence number `n ≤ k`, having examined exactly `n + 1`
candidates. The identifier depends on the basename and the members of
`used_ids` only: equal basenames and sets with the same members give the same
identifier, whatever the rest of the state. -/
theorem find_unique_id_terminates (used_ids : GHashSet) (basename : String)
    (hsize : used_ids.length < G_UINT_RANGE) :
    ∃ n, n ≤ used_ids.length ∧
      find_unique_id_loop used_ids basename (used_ids.length + 1) 0 =
        some (n, format_id basename n) ∧
      find_unique_id_loop used_ids basename (n + 1) 0 = some (n, format_id basename n) ∧
      (∀ fuel, used_ids.length < fuel →
        find_unique_id_loop used_ids basename fuel 0 = some (n, format_id basename n)) ∧
      (∀ used2 : GHashSet, (∀ x, x ∈ used2 ↔ x ∈ used_ids) → used2.length < G_UINT_RANGE →
        find_unique_id used2 basename = some (n, format_id basename n)) ∧
      (∀ (m : HDAppletManager) (iter : Nat) (name path : String),
        (∀ x, x ∈ m.used_ids ↔ x ∈ used_ids) → m.used_ids.length < G_UINT_RANGE →
        g_path_get_basename path = basename → m.model.get? iter = some (name, path) →
        install_applet_id m iter = some (format_id basename n)) := by
  obtain ⟨n, hle, hfree, hmin⟩ := exists_least_free used_ids basename
  have hn : n < G_UINT_RANGE := by omega
  have hloop : ∀ fuel, n < fuel →
      find_unique_id_loop used_ids basename fuel 0 = some (n, format_id basename n) :=
    fun fuel hf => find_unique_id_loop_spec used_ids basename n hn hfree fuel 0
      (Nat.zero_le n) (by omega) (fun k _ hk => hmin k hk)
  have hset : ∀ used2 : GHashSet, (∀ x, x ∈ used2 ↔ x ∈ used_ids) →
      least_unused used2 basename n :=
    fun used2 h => ⟨fun hx => hfree ((h _).1 hx), fun k hk => (h _).2 (hmin k hk)⟩
  refine ⟨n, hle, hloop _ (by omega), hloop _ (by omega), fun fuel hf => hloop fuel (by omega),
    ?_, ?_⟩
  · intro used2 hmem hsize2
    exact find_unique_id_of_least used2 basename n hsize2 (hset used2 hmem)
  · intro m iter name path hmem hsize2 hbase hrow
    have h := install_of_least m iter name path n hrow hsize2 (hbase ▸ hset m.used_ids hmem)
    rw [hbase] at h
    exact h.1

/-- Witness of C3: one identifier used, the loop leaves at the second candidate. -/
theorem find_unique_id_terminates_witness :
    ["notes.desktop-0"].length < G_UINT_RANGE ∧
    ∃ n, n ≤ 1 ∧
      find_unique_id_loop ["notes.desktop-0"] "notes.desktop" 2 0 =
        some (n, format_id "notes.desktop" n) :=
  ⟨by decide,
    let ⟨n, hle, h, _⟩ :=
      find_unique_id_terminates ["notes.desktop-0"] "notes.desktop" (by decide)
    ⟨n, hle, h⟩⟩

/-- C4 as the code has it: `hd_applet_manager_install_applet` has no
`AlreadyInstalled` check and no error result. On every row it completes and
writes the store once. A further install on the same row before the next
refresh chooses the same identifier, so the key file and the stored items file
keep the content the first install gave them, and the store is written once
more. A single-instance applet that has an installed identifier is kept from a
further install by the refresh alone: after it no row, hence no iter, of the
model is for that applet. -/
theorem install_applet_never_rejects (m : HDAppletManager) (iter : Nat) (name path : String)
    (hrow : m.model.get? iter = some (name, path))
    (hsize : m.used_ids.length < G_UINT_RANGE) :
    (∃ m1 m2, hd_applet_manager_install_applet m iter = some m1 ∧
      m1.store_writes = m.store_writes + 1 ∧
      m1.items_store = m1.applets_key_file ∧
      m1.model.get? iter = some (name, path) ∧
      install_applet_id m1 iter = install_applet_id m iter ∧
      hd_applet_manager_install_applet m1 iter = some m2 ∧
      m2.applets_key_file = m1.applets_key_file ∧
      m2.items_store = m1.items_store ∧
      m2.store_writes = m1.store_writes + 1) ∧
    (∀ (env : DesktopEnv) (plugins : List String) (key_file : GKeyFile)
        (s s2 : HDAppletManager) (info : HDPluginInfo),
      g_hash_map_lookup s.installed path = some info → info.multiple = false →
      (s.installed.map Prod.fst).Nodup →
      (∃ g, g ∈ g_key_file_get_groups key_file ∧
        g_key_file_get_string key_file g ITEMS_KEY_DESKTOP_FILE = some path) →
      items_configuration_loaded_cb env plugins key_file s = some s2 →
      ∀ (iter2 : Nat) (row : String × String), s2.model.get? iter2 = some row →
        row.2 ≠ path) := by
  refine ⟨?_, ?_⟩
  · obtain ⟨n, _, hl, _, hinst⟩ := install_exists_least m iter name path hrow hsize
    obtain ⟨h1, h2, h3⟩ := second_install_same m iter name path n hrow hsize hl _ hinst
    exact ⟨_, _, hinst, rfl, rfl, h1, h2, h3, rfl, rfl, rfl⟩
  · intro env plugins key_file s s2 info hinfo hsingle hnodup hshown hre iter2 row hrow2
    exact refresh_hides_single env plugins key_file s s2 path info hre hinfo hsingle hnodup
      hshown row (List.get?_mem hrow2)

/-- Witness of C4 as amended: the clock of the sample state. -/
theorem install_applet_never_rejects_witness :
    sample_manager.model.get? 0 = some ("Clock", clock_path) ∧
    sample_manager.used_ids.length < G_UINT_RANGE ∧
    ∃ m1 m2, hd_applet_manager_install_applet sample_manager 0 = some m1 ∧
      m1.store_writes = sample_manager.store_writes + 1 ∧
      m1.items_store = m1.applets_key_file ∧
      m1.model.get? 0 = some ("Clock", clock_path) ∧
      install_applet_id m1 0 = install_applet_id sample_manager 0 ∧
      hd_applet_manager_install_applet m1 0 = some m2 ∧
      m2.applets_key_file = m1.applets_key_file ∧
      m2.items_store = m1.items_store ∧
      m2.store_writes = m1.store_writes + 1 :=
  ⟨by decide, by decide,
    (install_applet_never_rejects sample_manager 0 "Clock" clock_path
      (by decide) (by decide)).1⟩

/-- C4 as stated fails: starting from the state the first refresh produces,
the clock is single-instance and, after one install, has the identifier
`clock.desktop-0` in the key file; a further install on its row is carried
out, not rejected, and writes the store a second time. -/
theorem second_install_not_rejected :
    items_configuration_loaded_cb sample_env sample_plugins [] initial_manager =
      some sample_manager ∧
    g_hash_map_lookup (sample_state [AppletOp.install 0]).installed clock_path =
      some { name := "Clock", multiple := false } ∧
    g_key_file_get_string (sample_state [AppletOp.install 0]).applets_key_file
      "clock.desktop-0" ITEMS_KEY_DESKTOP_FILE = some clock_path ∧
    (sample_state [AppletOp.install 0]).model.get? 0 = some ("Clock", clock_path) ∧
    (sample_state [AppletOp.install 0]).store_writes = 1 ∧
    hd_applet_manager_install_applet (sample_state [AppletOp.install 0]) 0 =
      some (sample_state [AppletOp.install 0, AppletOp.install 0]) ∧
    (sample_state [AppletOp.install 0, AppletOp.install 0]).store_writes = 2 := by
  decide

/-- C5 as the code has it: for a single-instance applet (catalogue record with
`multiple` false) `hd_applet_manager_install_applet` chooses the identifier
`B-n`, the basename followed by the separator and the least unused sequence
number, exactly as for any other applet, and hands it to
`g_key_file_set_string`, which records `X-Desktop-File` under it when `B-n` is
a group name GLib accepts; the identifier is never the bare basename, and it
is `B-0` when `B-0` is unused. -/
theorem install_single_instance_id (m : HDAppletManager) (iter : Nat) (name path : String)
    (info : HDPluginInfo)
    (hrow : m.model.get? iter = some (name, path))
    (hsize : m.used_ids.length < G_UINT_RANGE)
    (_hinfo : g_hash_map_lookup m.installed path = some info)
    (_hsingle : info.multiple = false) :
    ∃ n m1, least_unused m.used_ids (g_path_get_basename path) n ∧
      install_applet_id m iter = some (format_id (g_path_get_basename path) n) ∧
      hd_applet_manager_install_applet m iter = some m1 ∧
      m1.applets_key_file = g_key_file_set_string m.applets_key_file
        (format_id (g_path_get_basename path) n) ITEMS_KEY_DESKTOP_FILE path ∧
      (g_key_file_is_group_name (format_id (g_path_get_basename path) n) = true →
        g_key_file_get_string m1.applets_key_file (format_id (g_path_get_basename path) n)
          ITEMS_KEY_DESKTOP_FILE = some path ∧
        g_key_file_get_string m1.applets_key_file (g_path_get_basename path)
          ITEMS_KEY_DESKTOP_FILE =
          g_key_file_get_string m.applets_key_file (g_path_get_basename path)
            ITEMS_KEY_DESKTOP_FILE) ∧
      format_id (g_path_get_basename path) n ≠ g_path_get_basename path ∧
      (format_id (g_path_get_basename path) 0 ∉ m.used_ids → n = 0) := by
  obtain ⟨n, _, hl, hid, hinst⟩ := install_exists_least m iter name path hrow hsize
  refine ⟨n, _, hl, hid, hinst, rfl,
    fun hv => ⟨get_string_set_string _ _ _ _ hv,
      get_string_set_string_other _ _ _ _ _ _ (format_id_ne_basename _ _).symm⟩,
    format_id_ne_basename _ _, fun h0 => ?_⟩
  by_contra hn
  exact h0 (hl.2 0 (Nat.pos_of_ne_zero hn))

/-- Witness of C5 as amended: the single-instance clock of the sample state. -/
theorem install_single_instance_id_witness :
    sample_manager.model.get? 0 = some ("Clock", clock_path) ∧
    g_hash_map_lookup sample_manager.installed clock_path =
      some { name := "Clock", multiple := false } ∧
    ∃ n m1, least_unused sample_manager.used_ids (g_path_get_basename clock_path) n ∧
      install_applet_id sample_manager 0 = some (format_id (g_path_get_basename clock_path) n) ∧
      hd_applet_manager_install_applet sample_manager 0 = some m1 ∧
      m1.applets_key_file = g_key_file_set_string sample_manager.applets_key_file
        (format_id (g_path_get_basename clock_path) n) ITEMS_KEY_DESKTOP_FILE clock_path ∧
      (g_key_file_is_group_name (format_id (g_path_get_basename clock_path) n) = true →
        g_key_file_get_string m1.applets_key_file (format_id (g_path_get_basename clock_path) n)
          ITEMS_KEY_DESKTOP_FILE = some clock_path ∧
        g_key_file_get_string m1.applets_key_file (g_path_get_basename clock_path)
          ITEMS_KEY_DESKTOP_FILE =
          g_key_file_get_string sample_manager.applets_key_file
            (g_path_get_basename clock_path) ITEMS_KEY_DESKTOP_FILE) ∧
      format_id (g_path_get_basename clock_path) n ≠ g_path_get_basename clock_path ∧
      (format_id (g_path_get_basename clock_path) 0 ∉ sample_manager.used_ids → n = 0) :=
  ⟨by decide, by decide,
    install_single_instance_id sample_manager 0 "Clock" clock_path
      { name := "Clock", multiple := false } (by decide) (by decide) (by decide) rfl⟩

/-- C5 as stated fails: the clock descriptor has `X-Multiple` false, and its
install, in the state the first refresh produces, records the shortcut under
`clock.desktop-0`; no group named by the bare basename `clock.desktop` exists
afterwards. -/
theorem single_instance_id_is_not_basename :
    items_configuration_loaded_cb sample_env sample_plugins [] initial_manager =
      some sample_manager ∧
    g_hash_map_lookup sample_manager.installed clock_path =
      some { name := "Clock", multiple := false } ∧
    sample_manager.model.get? 0 = some ("Clock", clock_path) ∧
    g_path_get_basename clock_path = "clock.desktop" ∧
    (hd_applet_manager_install_applet sample_manager 0).map (fun m => m.applets_key_file) =
      some [("clock.desktop-0", [("X-Desktop-File", clock_path)])] ∧
    (hd_applet_manager_install_applet sample_manager 0).map
      (fun m => g_key_file_get_groups m.applets_key_file) ≠ some ["clock.desktop"] := by
  decide

/-- C6: a refresh by `items_configuration_loaded_cb` that completes leaves in
the applet model exactly the rows (name, descriptor path) of the catalogue
entries that are multiple or whose path is the `X-Desktop-File` of no group of
the key file: each such entry has one row and there is no other row. The keys
of the catalogue are distinct, as the keys of a hash table are. The refresh
completes whenever every listed descriptor that loads has a `Name`. -/
theorem refresh_model_rows (env : DesktopEnv) (plugins : List String) (key_file : GKeyFile)
    (m : HDAppletManager) (hnodup : (m.installed.map Prod.fst).Nodup) :
    ((∀ p, p ∈ plugins → ∀ kf, env.load_from_file p = some kf →
        g_key_file_get_string kf G_KEY_FILE_DESKTOP_GROUP G_KEY_FILE_DESKTOP_KEY_NAME ≠ none) →
      ∃ m2, items_configuration_loaded_cb env plugins key_file m = some m2) ∧
    ∀ m2, items_configuration_loaded_cb env plugins key_file m = some m2 →
      (∀ name path, (name, path) ∈ m2.model ↔
        ∃ info, g_hash_map_lookup m2.installed path = some info ∧ name = info.name ∧
          (info.multiple = true ∨
            ¬ ∃ g, g ∈ g_key_file_get_groups key_file ∧
              g_key_file_get_string key_file g ITEMS_KEY_DESKTOP_FILE = some path)) ∧
      (m2.model.map Prod.snd).Nodup ∧ m2.model.Nodup := by
  refine ⟨fun hnames => ?_, fun m2 h => ?_⟩
  · obtain ⟨installed, hload⟩ := load_plugins_total env plugins hnames m.installed
    simp only [items_configuration_loaded_cb, hload]
    exact ⟨_, rfl⟩
  · obtain ⟨installed, hload, hm2⟩ := refresh_some env plugins key_file m m2 h
    subst hm2
    have hnodup2 := load_plugins_nodup env plugins _ _ hload hnodup
    have hdisp : ∀ path,
        path ∈ (load_groups key_file (g_key_file_get_groups key_file) [] []).2 ↔
          ∃ g, g ∈ g_key_file_get_groups key_file ∧
            g_key_file_get_string key_file g ITEMS_KEY_DESKTOP_FILE = some path := by
      intro path
      simp [mem_load_groups_snd]
    have hpaths := fill_model_paths_nodup
      (load_groups key_file (g_key_file_get_groups key_file) [] []).2 installed hnodup2
    refine ⟨fun name path => ?_, hpaths, List.Nodup.of_map _ hpaths⟩
    show (name, path) ∈ fill_model _ installed ↔ _
    rw [mem_fill_model]
    constructor
    · rintro ⟨e, he, hc, heq⟩
      simp only [Prod.mk.injEq] at heq
      obtain ⟨h1, h2⟩ := heq
      have hl := hash_map_lookup_of_mem _ installed e hnodup2 he
      rw [← h2] at hl
      refine ⟨e.2, hl, h1, ?_⟩
      rw [← hdisp, h2]
      exact hc
    · rintro ⟨info, hl, h1, hc⟩
      refine ⟨(path, info), mem_of_hash_map_lookup _ _ _ _ hl, ?_, by rw [h1]⟩
      rw [← hdisp] at hc
      exact hc

/-- Witness of C6: the reload after the clock was installed leaves the notes
row only. -/
theorem refresh_model_rows_witness :
    ((sample_state [AppletOp.install 0]).installed.map Prod.fst).Nodup ∧
    items_configuration_loaded_cb sample_env sample_plugins
      (sample_state [AppletOp.install 0]).items_store (sample_state [AppletOp.install 0]) =
      some (sample_state [AppletOp.install 0, sample_reload]) ∧
    (sample_state [AppletOp.install 0, sample_reload]).model = [("Notes", notes_path)] ∧
    ((sample_state [AppletOp.install 0, sample_reload]).model.map Prod.snd).Nodup :=
  ⟨by decide, by decide, by decide,
    ((refresh_model_rows sample_env sample_plugins
      (sample_state [AppletOp.install 0]).items_store (sample_state [AppletOp.install 0])
      (by decide)).2 (sample_state [AppletOp.install 0, sample_reload]) (by decide)).2.1⟩

/-- C7: `filtered_model_visible_func` returns true exactly when the desktop id
of the row is not a key of `installed_shortcuts`. -/
theorem filtered_model_visible_func_iff (priv : HDTaskManagerPrivate) (row : TaskRow) :
    filtered_model_visible_func priv row = true ↔ row.desktop_id ∉ priv.installed_shortcuts :=
  lookup_eq_zero_iff priv.installed_shortcuts row.desktop_id

/-- C8 as the code has it: `hd_applet_manager_install_applet` leaves the model
as it is; the row of a single-instance applet goes away at the next
`items_configuration_loaded_cb`. For an applet whose basename holds no `[`, no
`]` and no control character, so that GLib accepts the identifier as a group
name: once the stored items file has been reloaded after the install, the
model holds no row for the applet, and none in any state reached afterwards by
installs, reloads and removals of other identifiers than the one the install
chose. -/
theorem single_instance_hidden_after_reload (m : HDAppletManager) (iter : Nat)
    (name path : String) (info : HDPluginInfo)
    (hrow : m.model.get? iter = some (name, path))
    (hsize : m.used_ids.length < G_UINT_RANGE)
    (hinfo : g_hash_map_lookup m.installed path = some info)
    (hsingle : info.multiple = false)
    (hnodup : (m.installed.map Prod.fst).Nodup)
    (hvalid : (g_path_get_basename path).data.all group_name_char = true) :
    ∃ id m1, install_applet_id m iter = some id ∧
      hd_applet_manager_install_applet m iter = some m1 ∧
      m1.model = m.model ∧
      ∀ (env : DesktopEnv) (plugins : List String) (m2 : HDAppletManager),
        reload_items env plugins m1 = some m2 →
        (∀ row, row ∈ m2.model → row.2 ≠ path) ∧
        ∀ (ops : List AppletOp) (m3 : HDAppletManager),
          (∀ op, op ∈ ops → op ≠ AppletOp.remove id) →
          run_ops m2 ops = some m3 → ∀ row, row ∈ m3.model → row.2 ≠ path := by
  obtain ⟨n, _, hl, hid, hinst⟩ := install_exists_least m iter name path hrow hsize
  refine ⟨_, _, hid, hinst, rfl, ?_⟩
  intro env plugins m2 hre
  have hre2 : items_configuration_loaded_cb env plugins
      (g_key_file_set_string m.applets_key_file (format_id (g_path_get_basename path) n)
        ITEMS_KEY_DESKTOP_FILE path) _ = some m2 := hre
  have hget := get_string_set_string m.applets_key_file
    (format_id (g_path_get_basename path) n) ITEMS_KEY_DESKTOP_FILE path
    (by rw [is_group_name_format_id]; exact hvalid)
  have hgroup := mem_groups_of_get_string _ _ _ _ hget
  have hrows := refresh_hides_single env plugins _ _ m2 path info hre2 hinfo hsingle hnodup
    ⟨_, hgroup, hget⟩
  obtain ⟨hu, _, hk, hst, _⟩ := reload_used_ids env plugins _ _ m2 hre2
  obtain ⟨installed, hload, hm2⟩ := refresh_some env plugins _ _ m2 hre2
  have hhidden : hidden_under path (format_id (g_path_get_basename path) n) info m2 := by
    refine ⟨(hu _).2 hgroup, by rw [hk]; exact hget, by rw [hst, hk], ?_, ?_, hrows⟩
    · rw [hm2]; exact load_plugins_lookup env plugins _ _ path info hload hinfo
    · rw [hm2]; exact load_plugins_nodup env plugins _ _ hload hnodup
  refine ⟨hrows, fun ops m3 hops hrun => ?_⟩
  exact (hidden_under_run path _ info hsingle ops m2 m3 hhidden hops hrun).2.2.2.2.2

/-- Witness of C8 as amended: the clock of the sample state, installed and
reloaded, stays out of the model while notes are installed. -/
theorem single_instance_hidden_after_reload_witness :
    sample_manager.model.get? 0 = some ("Clock", clock_path) ∧
    g_hash_map_lookup sample_manager.installed clock_path =
      some { name := "Clock", multiple := false } ∧
    (sample_manager.installed.map Prod.fst).Nodup ∧
    ∀ row, row ∈ (sample_state [AppletOp.install 0, sample_reload, AppletOp.install 0,
      sample_reload, AppletOp.remove "notes.desktop-0", sample_reload]).model →
      row.2 ≠ clock_path :=
  ⟨by decide, by decide, by decide,
    let ⟨id, m1, hid, hinst, _, hlater⟩ :=
      single_instance_hidden_after_reload sample_manager 0 "Clock" clock_path
        { name := "Clock", multiple := false } (by decide) (by decide) (by decide) rfl
        (by decide) (by decide)
    have e1 : id = "clock.desktop-0" := Option.some.inj (hid.symm.trans (by decide))
    have e2 : m1 = sample_state [AppletOp.install 0] :=
      Option.some.inj (hinst.symm.trans (by decide))
    (hlater sample_env sample_plugins (sample_state [AppletOp.install 0, sample_reload])
      (e2 ▸ (by decide))).2
      [AppletOp.install 0, sample_reload, AppletOp.remove "notes.desktop-0", sample_reload]
      _
      (fun op hop => by
        subst e1
        simp only [List.mem_cons, List.mem_singleton, List.not_mem_nil, or_false] at hop
        rcases hop with h | h | h | h <;> subst h <;> simp [sample_reload])
      (by decide)⟩

/-- C8 as stated fails: the clock is single-instance and its install, in the
state the first refresh produces, succeeds, yet the model afterwards is the
model before and still has the row of the clock. -/
theorem model_unchanged_by_install :
    items_configuration_loaded_cb sample_env sample_plugins [] initial_manager =
      some sample_manager ∧
    g_hash_map_lookup sample_manager.installed clock_path =
      some { name := "Clock", multiple := false } ∧
    (hd_applet_manager_install_applet sample_manager 0).map (fun m => m.model) =
      some [("Clock", clock_path), ("Notes", notes_path)] ∧
    (hd_applet_manager_install_applet sample_manager 0).map
      (fun m => g_key_file_get_string m.applets_key_file "clock.desktop-0"
        ITEMS_KEY_DESKTOP_FILE) = some (some clock_path) := by
  decide

/-- C9 as the code has it: `hd_task_manager_install_task` inserts the desktop
id before the write and has no rollback. Whether the write fails or not, the
installed-shortcuts set afterwards is the set before together with the desktop
id; a failed write is only logged and leaves the stored list as it was. -/
theorem install_task_keeps_id (priv : HDTaskManagerPrivate) (tree_iter : Nat) (row : TaskRow)
    (hrow : priv.filtered_model.get? tree_iter = some row) :
    ∃ priv2 warned, hd_task_manager_install_task priv tree_iter = some (priv2, warned) ∧
      warned = priv.gconf_client.write_fails ∧
      (∀ x, x ∈ priv2.installed_shortcuts ↔ x ∈ priv.installed_shortcuts ∨ x = row.desktop_id) ∧
      (priv.gconf_client.write_fails = true → priv2.gconf_client = priv.gconf_client) ∧
      (priv.gconf_client.write_fails = false →
        priv2.gconf_client.task_shortcuts = priv2.installed_shortcuts) := by
  have h : hd_task_manager_install_task priv tree_iter = some
      ({ priv with
          installed_shortcuts := g_hash_table_insert priv.installed_shortcuts row.desktop_id
          gconf_client := (gconf_client_set_list priv.gconf_client
            (g_hash_table_insert priv.installed_shortcuts row.desktop_id)).1 },
        (gconf_client_set_list priv.gconf_client
          (g_hash_table_insert priv.installed_shortcuts row.desktop_id)).2) := by
    simp only [hd_task_manager_install_task, hrow]
  refine ⟨_, _, h, ?_, ?_, ?_, ?_⟩
  · cases h : priv.gconf_client.write_fails <;> simp [gconf_client_set_list, h]
  · intro x; exact mem_hash_table_insert _ _ _
  · intro h; simp [gconf_client_set_list, h]
  · intro h; simp [gconf_client_set_list, h]

/-- Witness of C9 as amended: the sample task manager, whose store refuses
writes. -/
theorem install_task_keeps_id_witness :
    sample_task_priv.filtered_model.get? 0 =
      some { label := "Clock", icon := none, desktop_id := "clock.desktop" } ∧
    ∃ priv2 warned, hd_task_manager_install_task sample_task_priv 0 = some (priv2, warned) ∧
      warned = sample_task_priv.gconf_client.write_fails ∧
      (∀ x, x ∈ priv2.installed_shortcuts ↔
        x ∈ sample_task_priv.installed_shortcuts ∨ x = "clock.desktop") ∧
      (sample_task_priv.gconf_client.write_fails = true →
        priv2.gconf_client = sample_task_priv.gconf_client) ∧
      (sample_task_priv.gconf_client.write_fails = false →
        priv2.gconf_client.task_shortcuts = priv2.installed_shortcuts) :=
  ⟨by decide,
    install_task_keeps_id sample_task_priv 0
      { label := "Clock", icon := none, desktop_id := "clock.desktop" } (by decide)⟩

/-- C9 as stated fails: with nothing installed and a store that refuses the
write, `hd_task_manager_install_task` on the row of `clock.desktop` logs the
warning and leaves `clock.desktop` in the installed-shortcuts set, which was
empty before the call. -/
theorem install_task_no_rollback :
    sample_task_priv.installed_shortcuts = [] ∧
    sample_task_priv.gconf_client.write_fails = true ∧
    (hd_task_manager_install_task sample_task_priv 0).map
      (fun r => (r.1.installed_shortcuts, r.2)) = some (["clock.desktop"], true) := by
  decide

/-- C10: in a state whose `used_ids`, fewer than `2 ^ 32`, are the group names
of the applets key file, `hd_applet_manager_install_applet` followed at once by
`hd_applet_manager_remove_applet` on the identifier the install chose leaves
the key file, and the stored items file, equal to the key file before the
install. Between the two calls the identifier is a group of the key file
exactly when it is a group name GLib accepts. -/
theorem install_then_remove_restores_key_file (m : HDAppletManager) (iter : Nat)
    (name path : String)
    (hrow : m.model.get? iter = some (name, path))
    (hsize : m.used_ids.length < G_UINT_RANGE)
    (hsync : ∀ x, x ∈ m.used_ids ↔ x ∈ g_key_file_get_groups m.applets_key_file) :
    ∃ id m1, install_applet_id m iter = some id ∧
      hd_applet_manager_install_applet m iter = some m1 ∧
      (id ∈ g_key_file_get_groups m1.applets_key_file ↔
        g_key_file_is_group_name id = true) ∧
      (hd_applet_manager_remove_applet m1 id).applets_key_file = m.applets_key_file ∧
      (hd_applet_manager_remove_applet m1 id).items_store = m.applets_key_file := by
  obtain ⟨n, _, hl, hid, hinst⟩ := install_exists_least m iter name path hrow hsize
  have hnew : format_id (g_path_get_basename path) n ∉
      g_key_file_get_groups m.applets_key_file := fun h => hl.1 ((hsync _).2 h)
  have hstore : ∀ m1 : HDAppletManager,
      m1.applets_key_file = g_key_file_set_string m.applets_key_file
        (format_id (g_path_get_basename path) n) ITEMS_KEY_DESKTOP_FILE path →
      m1.items_store = m1.applets_key_file →
      (hd_applet_manager_remove_applet m1
        (format_id (g_path_get_basename path) n)).applets_key_file = m.applets_key_file ∧
      (hd_applet_manager_remove_applet m1
        (format_id (g_path_get_basename path) n)).items_store = m.applets_key_file := by
    intro m1 hk hs
    have hr := remove_group_after_new m.applets_key_file
      (format_id (g_path_get_basename path) n) ITEMS_KEY_DESKTOP_FILE path hnew
    rw [← hk] at hr
    simp only [hd_applet_manager_remove_applet, hr]
    cases hv : g_key_file_is_group_name (format_id (g_path_get_basename path) n) with
    | true => exact ⟨rfl, rfl⟩
    | false =>
      have hk2 : m1.applets_key_file = m.applets_key_file := by
        rw [hk]; exact set_string_refused _ _ _ _ hv
      simp only [Bool.false_eq_true, if_false]
      exact ⟨hk2, by rw [hs, hk2]⟩
  refine ⟨_, _, hid, hinst, ?_, (hstore _ rfl rfl).1, (hstore _ rfl rfl).2⟩
  constructor
  · intro hmem
    rcases (mem_groups_set_string _ _ _ _ _).1 hmem with h | h
    · exact absurd h hnew
    · exact h.2
  · intro hv
    exact (mem_groups_set_string _ _ _ _ _).2 (Or.inr ⟨rfl, hv⟩)

/-- Witness of C10: the notes applet after one install and a reload. -/
theorem install_then_remove_restores_key_file_witness :
    (sample_state [AppletOp.install 1, sample_reload]).model.get? 1 =
      some ("Notes", notes_path) ∧
    (hd_applet_manager_remove_applet
        (sample_state [AppletOp.install 1, sample_reload, AppletOp.install 1])
        "notes.desktop-1").applets_key_file =
      (sample_state [AppletOp.install 1, sample_reload]).applets_key_file :=
  ⟨by decide,
    let ⟨id, m1, hid, hinst, _, hkf, _⟩ :=
      install_then_remove_restores_key_file
        (sample_state [AppletOp.install 1, sample_reload]) 1 "Notes" notes_path
        (by decide) (by decide)
        (fun x => by
          rw [show (sample_state [AppletOp.install 1, sample_reload]).used_ids =
            g_key_file_get_groups
              (sample_state [AppletOp.install 1, sample_reload]).applets_key_file from by decide])
    have e1 : id = "notes.desktop-1" :=
      Option.some.inj (hid.symm.trans (by decide))
    have e2 : m1 = sample_state [AppletOp.install 1, sample_reload, AppletOp.install 1] :=
      Option.some.inj (hinst.symm.trans (by decide))
    e2 ▸ e1 ▸ hkf⟩

/-- C11: `hd_applet_manager_remove_applet` with an id that names no group
leaves the whole state, key file and store included, as it was and writes
nothing; with an id that names a group it removes that group, leaves the keys
and values of every other group and the order of the groups as they were, and
writes the store once. -/
theorem remove_applet_effect (m : HDAppletManager) (plugin_id : String) :
    (plugin_id ∉ g_key_file_get_groups m.applets_key_file →
      hd_applet_manager_remove_applet m plugin_id = m) ∧
    (plugin_id ∈ g_key_file_get_groups m.applets_key_file →
      (hd_applet_manager_remove_applet m plugin_id).applets_key_file =
        m.applets_key_file.filter (fun g => g.1 != plugin_id) ∧
      plugin_id ∉
        g_key_file_get_groups (hd_applet_manager_remove_applet m plugin_id).applets_key_file ∧
      g_key_file_get_groups (hd_applet_manager_remove_applet m plugin_id).applets_key_file =
        (g_key_file_get_groups m.applets_key_file).filter (fun g => g != plugin_id) ∧
      (∀ other key, other ≠ plugin_id →
        g_key_file_get_string (hd_applet_manager_remove_applet m plugin_id).applets_key_file
          other key = g_key_file_get_string m.applets_key_file other key) ∧
      (hd_applet_manager_remove_applet m plugin_id).items_store =
        (hd_applet_manager_remove_applet m plugin_id).applets_key_file ∧
      (hd_applet_manager_remove_applet m plugin_id).store_writes = m.store_writes + 1) := by
  refine ⟨fun h => ?_, fun h => ?_⟩
  · simp [hd_applet_manager_remove_applet, remove_group_absent _ _ h]
  · have hr : g_key_file_remove_group m.applets_key_file plugin_id =
        (m.applets_key_file.filter (fun g => g.1 != plugin_id), true) := by
      simp [g_key_file_remove_group, h]
    have hkf : (hd_applet_manager_remove_applet m plugin_id).applets_key_file =
        m.applets_key_file.filter (fun g => g.1 != plugin_id) := by
      simp [hd_applet_manager_remove_applet, hr]
    refine ⟨hkf, ?_, ?_, ?_, ?_, ?_⟩
    · rw [hkf]
      simp [g_key_file_get_groups, List.mem_filter]
    · rw [hkf]
      simp [g_key_file_get_groups, List.filter_map, Function.comp_def]
    · intro other key hne
      rw [hkf]
      exact get_string_filter_other _ _ _ _ hne
    · simp [hd_applet_manager_remove_applet, hr]
    · simp [hd_applet_manager_remove_applet, hr]

/-- Witness of C11: removing `notes.desktop-0` after two installs of the notes
applet. -/
theorem remove_applet_effect_witness :
    "notes.desktop-0" ∈ g_key_file_get_groups
      (sample_state [AppletOp.install 1, sample_reload, AppletOp.install 1]).applets_key_file ∧
    g_key_file_get_groups (hd_applet_manager_remove_applet
      (sample_state [AppletOp.install 1, sample_reload, AppletOp.install 1])
      "notes.desktop-0").applets_key_file =
      (g_key_file_get_groups
        (sample_state [AppletOp.install 1, sample_reload, AppletOp.install 1]).applets_key_file
        ).filter (fun g => g != "notes.desktop-0") :=
  ⟨by decide,
    ((remove_applet_effect
      (sample_state [AppletOp.install 1, sample_reload, AppletOp.install 1])
      "notes.desktop-0").2 (by decide)).2.2.1⟩

/-- C12: when the write in `hd_task_manager_install_task` succeeds, the list
written to the store is the key list of the installed-shortcuts table after the
insert: it has no string twice and its members are those of the set before
together with the desktop id. `update_installed_shortcuts` run afterwards
leaves the installed-shortcuts table exactly as it is, and running
`update_installed_shortcuts` twice gives the state one run gives. The keys of
the table before the call are distinct, as the keys of a hash table are. -/
theorem install_task_write_round_trip (priv : HDTaskManagerPrivate) (tree_iter : Nat)
    (row : TaskRow)
    (hrow : priv.filtered_model.get? tree_iter = some row)
    (hnodup : priv.installed_shortcuts.Nodup)
    (hwrite : priv.gconf_client.write_fails = false) :
    (∃ priv2, hd_task_manager_install_task priv tree_iter = some (priv2, false) ∧
      priv2.gconf_client.task_shortcuts = priv2.installed_shortcuts ∧
      priv2.gconf_client.task_shortcuts.Nodup ∧
      (∀ x, x ∈ priv2.gconf_client.task_shortcuts ↔
        x ∈ priv.installed_shortcuts ∨ x = row.desktop_id) ∧
      (update_installed_shortcuts priv2).installed_shortcuts = priv2.installed_shortcuts) ∧
    (∀ p : HDTaskManagerPrivate,
      update_installed_shortcuts (update_installed_shortcuts p) =
        update_installed_shortcuts p) := by
  refine ⟨?_, update_installed_shortcuts_idem⟩
  have hset : gconf_client_set_list priv.gconf_client
      (g_hash_table_insert priv.installed_shortcuts row.desktop_id) =
      ({ priv.gconf_client with
        task_shortcuts := g_hash_table_insert priv.installed_shortcuts row.desktop_id },
        false) := by
    simp [gconf_client_set_list, hwrite]
  have hnd := nodup_hash_table_insert priv.installed_shortcuts row.desktop_id hnodup
  refine ⟨{ priv with
      installed_shortcuts := g_hash_table_insert priv.installed_shortcuts row.desktop_id
      gconf_client := { priv.gconf_client with
        task_shortcuts := g_hash_table_insert priv.installed_shortcuts row.desktop_id } },
    ?_, rfl, hnd, fun x => mem_hash_table_insert _ _ _, ?_⟩
  · simp only [hd_task_manager_install_task, hrow, hset]
  · unfold update_installed_shortcuts gconf_client_get_list
    cases hr : priv.gconf_client.read_fails with
    | true => simp [hr]
    | false =>
      simp only [hr, gtk_tree_model_filter_refilter]
      have := insert_all_append
        (g_hash_table_insert priv.installed_shortcuts row.desktop_id) [] (by simpa using hnd)
      simpa using this

/-- Witness of C12: the sample task manager with a store that accepts the
write. -/
theorem install_task_write_round_trip_witness :
    sample_task_priv.filtered_model.get? 0 =
      some { label := "Clock", icon := none, desktop_id := "clock.desktop" } ∧
    ∃ priv2, hd_task_manager_install_task
        { sample_task_priv with
          gconf_client := { task_shortcuts := [], read_fails := false, write_fails := false } }
        0 = some (priv2, false) ∧
      priv2.gconf_client.task_shortcuts = priv2.installed_shortcuts ∧
      priv2.gconf_client.task_shortcuts.Nodup ∧
      (∀ x, x ∈ priv2.gconf_client.task_shortcuts ↔ x ∈ [] ∨ x = "clock.desktop") ∧
      (update_installed_shortcuts priv2).installed_shortcuts = priv2.installed_shortcuts :=
  ⟨by decide,
    (install_task_write_round_trip
      { sample_task_priv with
        gconf_client := { task_shortcuts := [], read_fails := false, write_fails := false } }
      0 { label := "Clock", icon := none, desktop_id := "clock.desktop" }
      (by decide) (by decide) rfl).1⟩

/-- C13: when the read of the store gives the list `L`,
`update_installed_shortcuts` leaves as installed-shortcuts set exactly the
strings of `L`, leaves the catalogue and the list store as they were, and the
filtered view shows exactly the rows of the list store whose desktop id is not
in `L`; when the read fails the whole state is unchanged. -/
theorem update_installed_shortcuts_effect (priv : HDTaskManagerPrivate) :
    (∀ L, gconf_client_get_list priv.gconf_client = some L →
      (∀ x, x ∈ (update_installed_shortcuts priv).installed_shortcuts ↔ x ∈ L) ∧
      (update_installed_shortcuts priv).available_tasks = priv.available_tasks ∧
      (update_installed_shortcuts priv).model = priv.model ∧
      (∀ row, row ∈ (update_installed_shortcuts priv).filtered_model ↔
        row ∈ priv.model ∧ row.desktop_id ∉ L)) ∧
    (gconf_client_get_list priv.gconf_client = none →
      update_installed_shortcuts priv = priv) := by
  refine ⟨fun L hL => ?_, fun h => by simp [update_installed_shortcuts, h]⟩
  have hmem : ∀ x, x ∈ insert_all L [] ↔ x ∈ L := fun x => by simp [mem_insert_all]
  refine ⟨fun x => ?_, ?_, ?_, fun row => ?_⟩
  · simp [update_installed_shortcuts, hL, gtk_tree_model_filter_refilter, hmem]
  · simp [update_installed_shortcuts, hL, gtk_tree_model_filter_refilter]
  · simp [update_installed_shortcuts, hL, gtk_tree_model_filter_refilter]
  · simp only [update_installed_shortcuts, hL, gtk_tree_model_filter_refilter, List.mem_filter,
      filtered_model_visible_func, lookup_eq_zero_iff, hmem]

/-- Witness of C13: the store names `clock.desktop`, unknown to the cached
set, and the view hides its row after the reload. -/
theorem update_installed_shortcuts_effect_witness :
    gconf_client_get_list
      { task_shortcuts := ["clock.desktop"], read_fails := false, write_fails := false } =
      some ["clock.desktop"] ∧
    (update_installed_shortcuts { sample_task_priv with
      gconf_client :=
        { task_shortcuts := ["clock.desktop"], read_fails := false, write_fails := false }
      }).filtered_model = [] ∧
    (update_installed_shortcuts { sample_task_priv with
      gconf_client :=
        { task_shortcuts := ["clock.desktop"], read_fails := false, write_fails := false }
      }).available_tasks = sample_task_priv.available_tasks :=
  ⟨by decide, by decide,
    ((update_installed_shortcuts_effect { sample_task_priv with
      gconf_client :=
        { task_shortcuts := ["clock.desktop"], read_fails := false, write_fails := false }
      }).1 ["clock.desktop"] (by decide)).2.1⟩

/-- C16: for a descriptor that loads, has `Type` `Application` and has no
`Name` key, `hd_task_manager_load_desktop_file` leaves the manager as it was: no
catalogue entry, no row and no `desktop-file-changed` signal is added. -/
theorem load_desktop_file_without_name (env : TaskEnv) (manager : HDTaskManager)
    (filename : String) (desktop_file : GKeyFile)
    (hload : env.load_from_file filename = some desktop_file)
    (_htype : g_key_file_get_string desktop_file G_KEY_FILE_DESKTOP_GROUP
      G_KEY_FILE_DESKTOP_KEY_TYPE = some G_KEY_FILE_DESKTOP_TYPE_APPLICATION)
    (hname : g_key_file_get_string desktop_file G_KEY_FILE_DESKTOP_GROUP
      G_KEY_FILE_DESKTOP_KEY_NAME = none) :
    hd_task_manager_load_desktop_file env manager filename = manager ∧
    (hd_task_manager_load_desktop_file env manager filename).priv.available_tasks =
      manager.priv.available_tasks ∧
    (hd_task_manager_load_desktop_file env manager filename).priv.model = manager.priv.model ∧
    (hd_task_manager_load_desktop_file env manager filename).desktop_file_changed =
      manager.desktop_file_changed := by
  have h := load_desktop_file_failing env manager filename
    (Or.inr ⟨desktop_file, hload, Or.inr hname⟩)
  rw [h]
  exact ⟨rfl, rfl, rfl, rfl⟩

/-- Witness of C16: `noname.desktop` of the sample directory. -/
theorem load_desktop_file_without_name_witness :
    sample_task_env.load_from_file "/apps/noname.desktop" =
      some [("Desktop Entry", [("Type", "Application")])] ∧
    hd_task_manager_load_desktop_file sample_task_env empty_task_manager
      "/apps/noname.desktop" = empty_task_manager :=
  ⟨by decide,
    (load_desktop_file_without_name sample_task_env empty_task_manager "/apps/noname.desktop"
      [("Desktop Entry", [("Type", "Application")])] (by decide) (by decide) (by decide)).1⟩

/-- C19 fails on the code: with `noname.desktop`, which loads and has no
`Name`, first in the plugin list, `items_configuration_loaded_cb` reaches
`error->message` while `error` is `NULL` and does not complete, so the valid
`notes.desktop` after it is never read; with the nameless descriptor left out
the same refresh completes and the catalogue has `notes.desktop`. -/
theorem refresh_stops_at_nameless_descriptor :
    noname_env.load_from_file noname_path = some [("Desktop Entry", [("X-Multiple", "true")])] ∧
    g_key_file_get_string [("Desktop Entry", [("X-Multiple", "true")])]
      G_KEY_FILE_DESKTOP_GROUP G_KEY_FILE_DESKTOP_KEY_NAME = none ∧
    items_configuration_loaded_cb noname_env [noname_path, notes_path] [] initial_manager =
      none ∧
    (items_configuration_loaded_cb noname_env [notes_path] [] initial_manager).map
      (fun m => m.installed) = some [(notes_path, { name := "Notes", multiple := true })] := by
  decide

/-- C20 as the code has it: `visit_func` hands every regular file to
`hd_task_manager_load_desktop_file`, whatever its name, and neither function
looks at the suffix. A regular file of any name that is not set aside for a
`.w50-desktop` sibling, loads, has `Type` `Application` and has a `Name` gets
the catalogue entry `stem.desktop`; when that key was not in the catalogue the
entry is new and comes with a row and a signal for it. Entries of any other
type flag are not parsed and leave the manager as it was. -/
theorem visit_func_ignores_suffix (env : TaskEnv) (manager : HDTaskManager) (f_path : String) :
    (visit_func env manager f_path FtwFlag.FTW_F).1 =
      hd_task_manager_load_desktop_file env manager f_path ∧
    (∀ type_flag, type_flag ≠ FtwFlag.FTW_F →
      (visit_func env manager f_path type_flag).1 = manager) ∧
    (∀ info, accepted_info env f_path = some info →
      g_hash_map_lookup (visit_func env manager f_path FtwFlag.FTW_F).1.priv.available_tasks
        (desktop_id f_path) = some info ∧
      (g_hash_map_lookup manager.priv.available_tasks (desktop_id f_path) = none →
        (visit_func env manager f_path FtwFlag.FTW_F).1.priv.available_tasks =
          manager.priv.available_tasks ++ [(desktop_id f_path, info)] ∧
        (visit_func env manager f_path FtwFlag.FTW_F).1.priv.model =
          manager.priv.model ++
            [{ label := info.label, icon := info.icon, desktop_id := desktop_id f_path }] ∧
        (visit_func env manager f_path FtwFlag.FTW_F).1.desktop_file_changed =
          manager.desktop_file_changed ++ [desktop_id f_path])) := by
  refine ⟨rfl, fun type_flag h => ?_, fun info h => ?_⟩
  · cases type_flag <;> first | rfl | exact absurd rfl h
  · have hstep : (visit_func env manager f_path FtwFlag.FTW_F).1 =
        add_task env manager (desktop_id f_path) info := by
      simp only [visit_func, load_desktop_file_eq, h]
    rw [hstep]
    refine ⟨?_, fun hnew => ?_⟩
    · rw [lookup_add_task, if_pos rfl]
    · obtain ⟨hk, hm, hs, _⟩ := add_task_new_key env manager (desktop_id f_path) info hnew
      exact ⟨hk, hm, hs⟩

/-- Witness of C20 as amended: `notes.txt` of the sample directory. -/
theorem visit_func_ignores_suffix_witness :
    accepted_info sample_task_env "/apps/notes.txt" =
      some { label := "Notes", icon := none, exec := none, service := none } ∧
    g_hash_map_lookup
      (visit_func sample_task_env empty_task_manager "/apps/notes.txt"
        FtwFlag.FTW_F).1.priv.available_tasks
      (desktop_id "/apps/notes.txt") =
      some { label := "Notes", icon := none, exec := none, service := none } ∧
    (visit_func sample_task_env empty_task_manager "/apps/notes.txt" FtwFlag.FTW_F).1.priv.model =
      empty_task_manager.priv.model ++
        [{ label := "Notes", icon := none, desktop_id := desktop_id "/apps/notes.txt" }] :=
  ⟨by decide,
    ((visit_func_ignores_suffix sample_task_env empty_task_manager "/apps/notes.txt").2.2
      { label := "Notes", icon := none, exec := none, service := none } (by decide)).1,
    (((visit_func_ignores_suffix sample_task_env empty_task_manager "/apps/notes.txt").2.2
      { label := "Notes", icon := none, exec := none, service := none } (by decide)).2
      (by decide)).2.1⟩

/-- C20 as stated fails: the regular file `/apps/notes.txt` does not end in
`.desktop` or `.w50-desktop`, and `visit_func` on it adds the catalogue entry
`notes.desktop`, a row and a signal. -/
theorem regular_file_without_suffix_is_parsed :
    (visit_func sample_task_env empty_task_manager "/apps/notes.txt"
      FtwFlag.FTW_F).1.priv.available_tasks =
      [("notes.desktop", { label := "Notes", icon := none, exec := none, service := none })] ∧
    (visit_func sample_task_env empty_task_manager "/apps/notes.txt" FtwFlag.FTW_F).1.priv.model =
      [{ label := "Notes", icon := none, desktop_id := "notes.desktop" }] ∧
    (visit_func sample_task_env empty_task_manager "/apps/notes.txt"
      FtwFlag.FTW_F).1.desktop_file_changed = ["notes.desktop"] := by
  decide


/-- C14 as the code has it: let `s` be a state that a refresh of the stored
items file has left, in which the applet of `path` is catalogued as
single-instance only and at most one group of the applets key file has
`X-Desktop-File` equal to `path`. Then the same holds in every state reached
from `s` by calls of `hd_applet_manager_install_applet` and
`hd_applet_manager_remove_applet` and by refreshes of the stored items file,
the descriptor of `path` keeping `X-Multiple` false. -/
theorem single_instance_at_most_one_group (path : String) (env0 : DesktopEnv)
    (plugins0 : List String) (s0 s : HDAppletManager)
    (hstart : reload_items env0 plugins0 s0 = some s)
    (hsingle : ∀ e, e ∈ s.installed → e.1 = path → e.2.multiple = false)
    (hone : at_most_one_group s.applets_key_file path)
    (ops : List AppletOp)
    (hops : ∀ op, op ∈ ops → reload_reads_single path op)
    (s2 : HDAppletManager) (hrun : run_ops s ops = some s2) :
    at_most_one_group s2.applets_key_file path ∧
    (∀ e, e ∈ s2.installed → e.1 = path → e.2.multiple = false) :=
  have h := coherent_run path ops s s2
    (coherent_after_reload path env0 plugins0 s0 s hstart hsingle) hone hops hrun
  ⟨h.2, h.1.2.1⟩

/-- Witness of C14: the clock, installed and reloaded, through an install of
the notes, a removal of the clock and a new install of it. -/
theorem single_instance_at_most_one_group_witness :
    reload_items sample_env sample_plugins (sample_state [AppletOp.install 0]) =
      some (sample_state [AppletOp.install 0, sample_reload]) ∧
    run_ops (sample_state [AppletOp.install 0, sample_reload])
      [AppletOp.install 0, sample_reload, AppletOp.remove "clock.desktop-0", sample_reload,
        AppletOp.install 0] =
      some (sample_state [AppletOp.install 0, sample_reload, AppletOp.install 0, sample_reload,
        AppletOp.remove "clock.desktop-0", sample_reload, AppletOp.install 0]) ∧
    at_most_one_group
      (sample_state [AppletOp.install 0, sample_reload, AppletOp.install 0, sample_reload,
        AppletOp.remove "clock.desktop-0", sample_reload,
        AppletOp.install 0]).applets_key_file clock_path :=
  ⟨by decide, by decide,
    (single_instance_at_most_one_group clock_path sample_env sample_plugins
      (sample_state [AppletOp.install 0]) (sample_state [AppletOp.install 0, sample_reload])
      (by decide) (by decide)
      (by
        rw [show (sample_state [AppletOp.install 0, sample_reload]).applets_key_file =
          [("clock.desktop-0", [("X-Desktop-File", clock_path)])] from by decide]
        exact at_most_one_group_singleton _ _ _)
      [AppletOp.install 0, sample_reload, AppletOp.remove "clock.desktop-0", sample_reload,
        AppletOp.install 0]
      (fun op hop => by
        have hre : reload_reads_single clock_path sample_reload := by
          intro key_file h
          have e : key_file =
              [("Desktop Entry", [("Name", "Clock"), ("X-Multiple", "false")])] :=
            Option.some.inj (h.symm.trans (by decide))
          subst e
          decide
        simp only [List.mem_cons, List.mem_singleton, List.not_mem_nil, or_false] at hop
        rcases hop with h | h | h | h | h <;> subst h <;>
          first | exact hre | exact True.intro)
      _ (by decide)).1⟩

/-- C14 as stated fails: the state the first refresh produces has no group at
all and the clock is single-instance; a refresh on an items file in which two
groups name the clock takes that file as the applets key file, with both
groups. And in a state where one group `x` names the clock while `used_ids` is
empty and the clock has a row, a state no refresh has left, an install on that
row adds the group `clock.desktop-0` for the clock next to `x`. -/
theorem refresh_takes_two_groups :
    g_key_file_get_groups sample_manager.applets_key_file = [] ∧
    g_hash_map_lookup sample_manager.installed clock_path =
      some { name := "Clock", multiple := false } ∧
    (items_configuration_loaded_cb sample_env sample_plugins
      [("clock.desktop-0", [("X-Desktop-File", clock_path)]),
        ("clock.desktop-1", [("X-Desktop-File", clock_path)])]
      sample_manager).map (fun m => m.applets_key_file) =
      some [("clock.desktop-0", [("X-Desktop-File", clock_path)]),
        ("clock.desktop-1", [("X-Desktop-File", clock_path)])] ∧
    g_key_file_get_string
      [("clock.desktop-0", [("X-Desktop-File", clock_path)]),
        ("clock.desktop-1", [("X-Desktop-File", clock_path)])]
      "clock.desktop-0" ITEMS_KEY_DESKTOP_FILE = some clock_path ∧
    g_key_file_get_string
      [("clock.desktop-0", [("X-Desktop-File", clock_path)]),
        ("clock.desktop-1", [("X-Desktop-File", clock_path)])]
      "clock.desktop-1" ITEMS_KEY_DESKTOP_FILE = some clock_path ∧
    g_key_file_get_groups stale_manager.applets_key_file = ["x"] ∧
    stale_manager.model.get? 0 = some ("Clock", clock_path) ∧
    (hd_applet_manager_install_applet stale_manager 0).map (fun m => m.applets_key_file) =
      some [("x", [("X-Desktop-File", clock_path)]),
        ("clock.desktop-0", [("X-Desktop-File", clock_path)])] := by
  decide

/-- C21 as the code has it: a plugin path that is in the applet catalogue is
not read by a further `items_configuration_loaded_cb`, and its record after the
refresh is the record before it. The check is made against the catalogue, so
within a plugin list a path whose descriptor loads and has a `Name` is read
exactly once, at its first place in the list, however often it occurs; a path
whose descriptor fails to load never enters the catalogue and is read at each
of its places. The refresh completes whenever every listed descriptor
that loads has a `Name`. -/
theorem refresh_reads_catalogued_once (env : DesktopEnv) (plugins : List String)
    (key_file : GKeyFile) (m : HDAppletManager) :
    ((∀ p, p ∈ plugins → ∀ kf, env.load_from_file p = some kf →
        g_key_file_get_string kf G_KEY_FILE_DESKTOP_GROUP G_KEY_FILE_DESKTOP_KEY_NAME ≠ none) →
      ∃ m2, items_configuration_loaded_cb env plugins key_file m = some m2) ∧
    (∀ path info, g_hash_map_lookup m.installed path = some info →
      path ∉ load_plugins_reads env plugins m.installed ∧
      ∀ m2, items_configuration_loaded_cb env plugins key_file m = some m2 →
        g_hash_map_lookup m2.installed path = some info) ∧
    (∀ path descriptor name, g_hash_map_lookup m.installed path = none → path ∈ plugins →
      env.load_from_file path = some descriptor →
      g_key_file_get_string descriptor G_KEY_FILE_DESKTOP_GROUP
        G_KEY_FILE_DESKTOP_KEY_NAME = some name →
      ∀ m2, items_configuration_loaded_cb env plugins key_file m = some m2 →
        (load_plugins_reads env plugins m.installed).count path = 1) ∧
    (∀ path, g_hash_map_lookup m.installed path = none → env.load_from_file path = none →
      ∀ m2, items_configuration_loaded_cb env plugins key_file m = some m2 →
        (load_plugins_reads env plugins m.installed).count path = plugins.count path) := by
  refine ⟨refresh_total env plugins key_file m,
    fun path info hinfo => ⟨load_plugins_reads_not_mem env path plugins _ info hinfo,
    fun m2 h => ?_⟩, fun path descriptor name hnone hmem hload hname m2 h => ?_,
    fun path hnone hload m2 h => ?_⟩
  · obtain ⟨installed, hl, hm2⟩ := refresh_some env plugins key_file m m2 h
    rw [hm2]
    exact load_plugins_lookup env plugins _ _ path info hl hinfo
  · obtain ⟨installed, hl, _⟩ := refresh_some env plugins key_file m m2 h
    exact load_plugins_reads_once env path descriptor name hload hname plugins _ _ hnone hmem hl
  · obtain ⟨installed, hl, _⟩ := refresh_some env plugins key_file m m2 h
    exact load_plugins_reads_failing env path hload plugins _ _ hnone hl

/-- Witness of C21 as amended: the notes descriptor listed twice after the
catalogued clock. -/
theorem refresh_reads_catalogued_once_witness :
    g_hash_map_lookup (sample_state [AppletOp.install 0]).installed clock_path =
      some { name := "Clock", multiple := false } ∧
    clock_path ∉ load_plugins_reads sample_env [clock_path, notes_path, clock_path, notes_path]
      (sample_state [AppletOp.install 0]).installed ∧
    (load_plugins_reads sample_env [notes_path, clock_path, notes_path]
      initial_manager.installed).count notes_path = 1 :=
  ⟨by decide,
    ((refresh_reads_catalogued_once sample_env [clock_path, notes_path, clock_path, notes_path]
      [] (sample_state [AppletOp.install 0])).2.1 clock_path
      { name := "Clock", multiple := false } (by decide)).1,
    (refresh_reads_catalogued_once sample_env [notes_path, clock_path, notes_path] []
      initial_manager).2.2.1 notes_path
      [("Desktop Entry", [("Name", "Notes"), ("X-Multiple", "true")])] "Notes"
      (by decide) (by decide) (by decide) (by decide)
      ((items_configuration_loaded_cb sample_env [notes_path, clock_path, notes_path] []
        initial_manager).getD initial_manager) (by decide)⟩

/-- C21 as stated fails: `broken.desktop` does not load, occurs twice in the
plugin list, and is handed to `g_key_file_load_from_file` twice in one refresh,
which completes with an empty catalogue. -/
theorem unreadable_path_is_read_twice :
    sample_env.load_from_file broken_path = none ∧
    load_plugins_reads sample_env [broken_path, broken_path] initial_manager.installed =
      [broken_path, broken_path] ∧
    (items_configuration_loaded_cb sample_env [broken_path, broken_path] []
      initial_manager).map (fun m => m.installed) = some [] := by
  decide

/-- C22: scanning the same entries a second time leaves the catalogue of the
first scan: the same keys, and under each key the same record, so the same
label, icon, exec and service. -/
theorem scan_twice_same_catalogue (env : TaskEnv) (entries : List (String × FtwFlag))
    (manager : HDTaskManager) :
    (∀ k, k ∈ (hd_task_manager_scan_for_desktop_files env entries
          (hd_task_manager_scan_for_desktop_files env entries
            manager)).priv.available_tasks.map Prod.fst ↔
        k ∈ (hd_task_manager_scan_for_desktop_files env entries
          manager).priv.available_tasks.map Prod.fst) ∧
    (∀ k, g_hash_map_lookup (hd_task_manager_scan_for_desktop_files env entries
          (hd_task_manager_scan_for_desktop_files env entries
            manager)).priv.available_tasks k =
        g_hash_map_lookup (hd_task_manager_scan_for_desktop_files env entries
          manager).priv.available_tasks k) := by
  have hlook : ∀ k, g_hash_map_lookup (hd_task_manager_scan_for_desktop_files env entries
        (hd_task_manager_scan_for_desktop_files env entries
          manager)).priv.available_tasks k =
      g_hash_map_lookup (hd_task_manager_scan_for_desktop_files env entries
        manager).priv.available_tasks k := by
    intro k
    rw [lookup_scan env entries (hd_task_manager_scan_for_desktop_files env entries manager) k,
      lookup_scan env entries manager k]
    cases scanned_info env entries k <;> rfl
  refine ⟨fun k => ?_, hlook⟩
  rw [← not_iff_not, ← hash_map_lookup_eq_none, ← hash_map_lookup_eq_none, hlook k]

/-- Witness of C22: the sample directory scanned twice from the empty manager
has the catalogue of one scan. -/
theorem scan_twice_same_catalogue_witness :
    (hd_task_manager_scan_for_desktop_files sample_task_env
        [("/apps/Clock.desktop", FtwFlag.FTW_F), ("/apps/Clock.w50-desktop", FtwFlag.FTW_F),
          ("/apps/notes.txt", FtwFlag.FTW_F)]
        empty_task_manager).priv.available_tasks.map Prod.fst =
      ["Clock.desktop", "notes.desktop"] ∧
    g_hash_map_lookup (hd_task_manager_scan_for_desktop_files sample_task_env
        [("/apps/Clock.desktop", FtwFlag.FTW_F), ("/apps/Clock.w50-desktop", FtwFlag.FTW_F),
          ("/apps/notes.txt", FtwFlag.FTW_F)]
        (hd_task_manager_scan_for_desktop_files sample_task_env
          [("/apps/Clock.desktop", FtwFlag.FTW_F), ("/apps/Clock.w50-desktop", FtwFlag.FTW_F),
            ("/apps/notes.txt", FtwFlag.FTW_F)]
          empty_task_manager)).priv.available_tasks "notes.desktop" =
      g_hash_map_lookup (hd_task_manager_scan_for_desktop_files sample_task_env
        [("/apps/Clock.desktop", FtwFlag.FTW_F), ("/apps/Clock.w50-desktop", FtwFlag.FTW_F),
          ("/apps/notes.txt", FtwFlag.FTW_F)]
        empty_task_manager).priv.available_tasks "notes.desktop" :=
  ⟨by decide,
    (scan_twice_same_catalogue sample_task_env
      [("/apps/Clock.desktop", FtwFlag.FTW_F), ("/apps/Clock.w50-desktop", FtwFlag.FTW_F),
        ("/apps/notes.txt", FtwFlag.FTW_F)] empty_task_manager).2 "notes.desktop"⟩

/-- C23 as the code has it: `hd_task_manager_launch_task` does nothing for an
id that is not in the catalogue. For a record with a service name it calls
`hd_task_manager_activate_service`, with or without a command: the activation
request is sent when the session bus is reached, the message is made and
`dbus_connection_send` succeeds, nothing is sent otherwise, and no process is
spawned. For a record with no service and a command, the program, the text
before the first space of the command, is looked up in the path: when it is
found, the command line parses and `g_spawn_async` succeeds, one process is
spawned with the parsed arguments; when the command line does not parse or
the spawn fails, nothing is spawned; when the program is not found the
command line is `NULL` and the function does not return. For a record with
neither it does nothing. -/
theorem launch_task_effects (env : LaunchEnv) (priv : HDTaskManagerPrivate) (id : String) :
    (g_hash_map_lookup priv.available_tasks id = none →
      hd_task_manager_launch_task env priv id = some []) ∧
    (∀ info service, g_hash_map_lookup priv.available_tasks id = some info →
      info.service = some service →
      hd_task_manager_launch_task env priv id =
        some (if env.dbus_bus_get &&
            env.dbus_message_new_method_call
              (activate_service_address (string_bytes service)).1
              (activate_service_address (string_bytes service)).2.1
              (activate_service_address (string_bytes service)).2.2 OSSO_BUS_TOP &&
            env.dbus_connection_send
              (activate_service_address (string_bytes service)).1
              (activate_service_address (string_bytes service)).2.1
              (activate_service_address (string_bytes service)).2.2 OSSO_BUS_TOP then
          [LaunchEffect.method_call (activate_service_address (string_bytes service)).1
            (activate_service_address (string_bytes service)).2.1
            (activate_service_address (string_bytes service)).2.2 OSSO_BUS_TOP]
        else [])) ∧
    (∀ info exec program, g_hash_map_lookup priv.available_tasks id = some info →
      info.service = none → info.exec = some exec →
      env.g_find_program_in_path (exec_program exec) = some program →
      (∀ argv, env.g_shell_parse_argv (program ++ exec_arguments exec) = some argv →
        env.g_spawn_async argv = true →
        hd_task_manager_launch_task env priv id = some [LaunchEffect.spawn argv]) ∧
      (∀ argv, env.g_shell_parse_argv (program ++ exec_arguments exec) = some argv →
        env.g_spawn_async argv = false →
        hd_task_manager_launch_task env priv id = some []) ∧
      (env.g_shell_parse_argv (program ++ exec_arguments exec) = none →
        hd_task_manager_launch_task env priv id = some [])) ∧
    (∀ info exec, g_hash_map_lookup priv.available_tasks id = some info →
      info.service = none → info.exec = some exec →
      env.g_find_program_in_path (exec_program exec) = none →
      hd_task_manager_launch_task env priv id = none) ∧
    (∀ info, g_hash_map_lookup priv.available_tasks id = some info →
      info.service = none → info.exec = none →
      hd_task_manager_launch_task env priv id = some []) := by
  refine ⟨fun h => ?_, fun info service h hs => ?_, fun info exec program h hs he hp => ?_,
    fun info exec h hs he hp => ?_, fun info h hs he => ?_⟩
  · simp only [hd_task_manager_launch_task, h]
  · simp only [hd_task_manager_launch_task, h, hs, hd_task_manager_activate_service]
    cases env.dbus_bus_get <;>
      cases env.dbus_message_new_method_call
        (activate_service_address (string_bytes service)).1
        (activate_service_address (string_bytes service)).2.1
        (activate_service_address (string_bytes service)).2.2 OSSO_BUS_TOP <;>
      cases env.dbus_connection_send
        (activate_service_address (string_bytes service)).1
        (activate_service_address (string_bytes service)).2.1
        (activate_service_address (string_bytes service)).2.2 OSSO_BUS_TOP <;> rfl
  · have hc : launch_command_line env exec = some (program ++ exec_arguments exec) := by
      rw [launch_command_line_eq, hp]; rfl
    refine ⟨fun argv ha hsp => ?_, fun argv ha hsp => ?_, fun ha => ?_⟩
    · simp [hd_task_manager_launch_task, h, hs, he, hc, ha, hsp]
    · simp [hd_task_manager_launch_task, h, hs, he, hc, ha, hsp]
    · simp [hd_task_manager_launch_task, h, hs, he, hc, ha]
  · have hc : launch_command_line env exec = none := by
      rw [launch_command_line_eq, hp]; rfl
    simp only [hd_task_manager_launch_task, h, hs, he, hc]
  · simp only [hd_task_manager_launch_task, h, hs, he]

/-- Witness of C23 as amended: the mail record has no service and the command
`mail --new`, which resolves and parses, and the clock record has a service
and a command. -/
theorem launch_task_effects_witness :
    hd_task_manager_launch_task sample_launch_env sample_launch_priv "mail.desktop" =
      some [LaunchEffect.spawn ["/usr/bin/mail", "--new"]] ∧
    hd_task_manager_launch_task sample_launch_env sample_launch_priv "clock.desktop" =
      some [LaunchEffect.method_call (string_bytes "com.nokia.clock")
        (string_bytes "/com/nokia/clock") (string_bytes "com.nokia.clock") "top_application"] :=
  ⟨((launch_task_effects sample_launch_env sample_launch_priv "mail.desktop").2.2.1
      { label := "Mail", icon := none, exec := some "mail --new", service := none }
      "mail --new" "/usr/bin/mail"
      (by decide) (by decide) (by decide) (by decide)).1 ["/usr/bin/mail", "--new"]
      (by decide) (by decide),
    ((launch_task_effects sample_launch_env sample_launch_priv "clock.desktop").2.1
      { label := "Clock", icon := none, exec := some "clock", service := some "clock" }
      "clock" (by decide) (by decide)).trans (by decide)⟩

/-- C23 as stated fails: the notes record has no service and the command
`notes 'x`, whose program is found and whose command line does not parse, and
launching it spawns nothing; the mail record has a command that parses, and
when `g_spawn_async` fails no process is spawned; the clock record has a
service, and launching it sends nothing without a session bus or when
`dbus_connection_send` fails. -/
theorem launch_without_effect :
    g_hash_map_lookup sample_launch_priv.available_tasks "notes.desktop" =
      some { label := "Notes", icon := none, exec := some "notes 'x", service := none } ∧
    launch_command_line sample_launch_env "notes 'x" = some "/usr/bin/notes 'x" ∧
    hd_task_manager_launch_task sample_launch_env sample_launch_priv "notes.desktop" =
      some [] ∧
    hd_task_manager_launch_task unspawned_launch_env sample_launch_priv "mail.desktop" =
      some [] ∧
    hd_task_manager_launch_task offline_launch_env sample_launch_priv "clock.desktop" =
      some [] ∧
    hd_task_manager_launch_task unsent_launch_env sample_launch_priv "clock.desktop" =
      some [] := by
  decide


/-- C25: after any sequence of `hd_task_manager_load_desktop_file` calls from
the empty state the keys of `available_tasks` are the keys of the accepted
files. When the accepted files of the sequence have pairwise different keys,
the rows and the keys are in one-to-one correspondence: the desktop ids of the
rows are those keys, each once. When two accepted files have the same key, as
`/apps/foo.desktop` and `/apps/foo.txt`, the second load replaces the record,
`g_hash_table_insert` frees the `desktop_id` buffer, and the row appended and
the signal emitted afterwards read the freed buffer: the catalogue has the one
key and the model a second row whose desktop id the program does not
determine. -/
theorem rows_cover_catalogue (env : TaskEnv) (files : List String) :
    ((files.foldl (hd_task_manager_load_desktop_file env)
        empty_task_manager).priv.available_tasks.map Prod.fst).Nodup ∧
    (∀ id, id ∈ (files.foldl (hd_task_manager_load_desktop_file env)
          empty_task_manager).priv.available_tasks.map Prod.fst ↔
        id ∈ (files.filter (fun f => (accepted_info env f).isSome)).map desktop_id) ∧
    (((files.filter (fun f => (accepted_info env f).isSome)).map desktop_id).Nodup →
      (files.foldl (hd_task_manager_load_desktop_file env)
          empty_task_manager).priv.model.map TaskRow.desktop_id =
        (files.filter (fun f => (accepted_info env f).isSome)).map desktop_id ∧
      (∀ id, id ∈ (files.foldl (hd_task_manager_load_desktop_file env)
            empty_task_manager).priv.model.map TaskRow.desktop_id ↔
          id ∈ (files.foldl (hd_task_manager_load_desktop_file env)
            empty_task_manager).priv.available_tasks.map Prod.fst) ∧
      ∀ id, id ∈ (files.foldl (hd_task_manager_load_desktop_file env)
          empty_task_manager).priv.available_tasks.map Prod.fst →
        ((files.foldl (hd_task_manager_load_desktop_file env)
          empty_task_manager).priv.model.map TaskRow.desktop_id).count id = 1) ∧
    (∀ freed_desktop_id freed_detail : Nat → String,
      (["/apps/foo.desktop", "/apps/foo.txt"].foldl
          (hd_task_manager_load_desktop_file (stem_env_freed freed_desktop_id freed_detail))
          empty_task_manager).priv.available_tasks.map Prod.fst = ["foo.desktop"] ∧
      (["/apps/foo.desktop", "/apps/foo.txt"].foldl
          (hd_task_manager_load_desktop_file (stem_env_freed freed_desktop_id freed_detail))
          empty_task_manager).priv.model =
        [TaskRow.mk "Foo" none "foo.desktop", TaskRow.mk "Foo text" none (freed_desktop_id 1)] ∧
      (["/apps/foo.desktop", "/apps/foo.txt"].foldl
          (hd_task_manager_load_desktop_file (stem_env_freed freed_desktop_id freed_detail))
          empty_task_manager).desktop_file_changed = ["foo.desktop", freed_detail 1]) := by
  have hkeys := keys_of_loads env files empty_task_manager
  have hempty : empty_task_manager.priv.model.map TaskRow.desktop_id = [] := rfl
  have hempty2 : empty_task_manager.priv.available_tasks.map Prod.fst = [] := rfl
  simp only [hempty2, List.not_mem_nil, false_or] at hkeys
  refine ⟨keys_nodup_of_loads env files _ (by rw [hempty2]; simp), hkeys, fun hnodup => ?_,
    fun freed_desktop_id freed_detail => ?_⟩
  · have hrows := rows_of_loads env files empty_task_manager (by rw [hempty2]; simpa using hnodup)
    rw [hempty, List.nil_append] at hrows
    refine ⟨hrows, fun id => ?_, fun id hid => ?_⟩
    · rw [hrows, hkeys]
    · rw [hrows]
      exact List.count_eq_one_of_mem hnodup ((hkeys id).1 hid)
  · have h1 : accepted_info (stem_env_freed freed_desktop_id freed_detail) "/apps/foo.desktop" =
        some { label := "Foo", icon := none, exec := none, service := none } :=
      (show accepted_info (stem_env_freed freed_desktop_id freed_detail) "/apps/foo.desktop" =
        accepted_info stem_env "/apps/foo.desktop" from rfl).trans (by decide)
    have h2 : accepted_info (stem_env_freed freed_desktop_id freed_detail) "/apps/foo.txt" =
        some { label := "Foo text", icon := none, exec := none, service := none } :=
      (show accepted_info (stem_env_freed freed_desktop_id freed_detail) "/apps/foo.txt" =
        accepted_info stem_env "/apps/foo.txt" from rfl).trans (by decide)
    have k1 : desktop_id "/apps/foo.desktop" = "foo.desktop" := by decide
    have k2 : desktop_id "/apps/foo.txt" = "foo.desktop" := by decide
    simp only [List.foldl_cons, List.foldl_nil, load_desktop_file_eq, h1, h2, k1, k2]
    refine ⟨?_, ?_, ?_⟩ <;> rfl

/-- Witness of C25: the sample directory, where the two accepted files have
different keys, and the two files of one key with a freed buffer that reads
as the empty string. -/
theorem rows_cover_catalogue_witness :
    (["/apps/Clock.desktop", "/apps/Clock.w50-desktop", "/apps/notes.txt"].foldl
        (hd_task_manager_load_desktop_file sample_task_env)
        empty_task_manager).priv.available_tasks.map Prod.fst =
      ["Clock.desktop", "notes.desktop"] ∧
    ((["/apps/Clock.desktop", "/apps/Clock.w50-desktop", "/apps/notes.txt"].foldl
        (hd_task_manager_load_desktop_file sample_task_env)
        empty_task_manager).priv.model.map TaskRow.desktop_id).count "notes.desktop" = 1 ∧
    (["/apps/foo.desktop", "/apps/foo.txt"].foldl
        (hd_task_manager_load_desktop_file (stem_env_freed (fun _ => "") (fun _ => "")))
        empty_task_manager).priv.model =
      [TaskRow.mk "Foo" none "foo.desktop", TaskRow.mk "Foo text" none ""] :=
  ⟨by decide,
    ((rows_cover_catalogue sample_task_env
      ["/apps/Clock.desktop", "/apps/Clock.w50-desktop", "/apps/notes.txt"]).2.2.1
      (by decide)).2.2 "notes.desktop" (by decide),
    ((rows_cover_catalogue sample_task_env []).2.2.2 (fun _ => "") (fun _ => "")).2.1⟩


/-- C26: for a file `F` other than its `.w50-desktop` name, when that
`.w50-desktop` file exists, `hd_task_manager_load_desktop_file` on `F` leaves
the manager, so the catalogue and the model, as they were, whatever the two
files hold; when the `.w50-desktop` file does not load, is not of type
`Application` or has no `Name`, visiting both files in either order leaves the
manager as it was, so the item gets no catalogue entry. -/
theorem shadowed_file_is_skipped (env : TaskEnv) (manager : HDTaskManager) (F : String)
    (hF : F ≠ w50_filename F) (hexists : env.file_exists (w50_filename F) = true) :
    hd_task_manager_load_desktop_file env manager F = manager ∧
    ((env.load_from_file (w50_filename F) = none ∨
        ∃ desktop_file, env.load_from_file (w50_filename F) = some desktop_file ∧
          (g_key_file_get_string desktop_file G_KEY_FILE_DESKTOP_GROUP
              G_KEY_FILE_DESKTOP_KEY_TYPE ≠ some G_KEY_FILE_DESKTOP_TYPE_APPLICATION ∨
            g_key_file_get_string desktop_file G_KEY_FILE_DESKTOP_GROUP
              G_KEY_FILE_DESKTOP_KEY_NAME = none)) →
      hd_task_manager_scan_for_desktop_files env
        [(F, FtwFlag.FTW_F), (w50_filename F, FtwFlag.FTW_F)] manager = manager ∧
      hd_task_manager_scan_for_desktop_files env
        [(w50_filename F, FtwFlag.FTW_F), (F, FtwFlag.FTW_F)] manager = manager ∧
      g_hash_map_lookup (hd_task_manager_scan_for_desktop_files env
        [(F, FtwFlag.FTW_F), (w50_filename F, FtwFlag.FTW_F)]
        empty_task_manager).priv.available_tasks (desktop_id F) = none) := by
  have hskip : ∀ m : HDTaskManager, hd_task_manager_load_desktop_file env m F = m := by
    intro m
    unfold hd_task_manager_load_desktop_file
    simp [hF, hexists]
  refine ⟨hskip manager, fun hfail => ?_⟩
  have hw : ∀ m : HDTaskManager,
      hd_task_manager_load_desktop_file env m (w50_filename F) = m :=
    fun m => load_desktop_file_failing env m _ hfail
  have h1 : ∀ m : HDTaskManager, hd_task_manager_scan_for_desktop_files env
      [(F, FtwFlag.FTW_F), (w50_filename F, FtwFlag.FTW_F)] m = m := by
    intro m
    rw [scan_cons, scan_cons]
    simp only [visit_func, hskip, hw]
    rfl
  refine ⟨h1 manager, ?_, ?_⟩
  · rw [scan_cons, scan_cons]
    simp only [visit_func, hskip, hw]
    rfl
  · rw [h1]
    rfl

/-- Witness of C26: `note.desktop` next to an unreadable `note.w50-desktop`. -/
theorem shadowed_file_is_skipped_witness :
    "/apps/note.desktop" ≠ w50_filename "/apps/note.desktop" ∧
    shadow_env.file_exists (w50_filename "/apps/note.desktop") = true ∧
    hd_task_manager_load_desktop_file shadow_env empty_task_manager "/apps/note.desktop" =
      empty_task_manager ∧
    hd_task_manager_scan_for_desktop_files shadow_env
      [("/apps/note.desktop", FtwFlag.FTW_F),
        (w50_filename "/apps/note.desktop", FtwFlag.FTW_F)] empty_task_manager =
      empty_task_manager :=
  ⟨by decide, by decide,
    (shadowed_file_is_skipped shadow_env empty_task_manager "/apps/note.desktop"
      (by decide) (by decide)).1,
    ((shadowed_file_is_skipped shadow_env empty_task_manager "/apps/note.desktop"
      (by decide) (by decide)).2 (Or.inl (by decide))).1⟩

/-- C27: the applet catalogue only grows. After a refresh by
`items_configuration_loaded_cb`, whatever the plugin list, every path that was
in the catalogue is in it with the record it had, and its row is in the model
when the record is multiple or no group of the key file has the path as
`X-Desktop-File`. The refresh completes whenever every listed descriptor that
loads has a `Name`, so for the empty plugin list. -/
theorem refresh_keeps_catalogue (env : DesktopEnv) (plugins : List String)
    (key_file : GKeyFile) (m : HDAppletManager) (path : String) (info : HDPluginInfo)
    (hinfo : g_hash_map_lookup m.installed path = some info) :
    ((∀ p, p ∈ plugins → ∀ kf, env.load_from_file p = some kf →
        g_key_file_get_string kf G_KEY_FILE_DESKTOP_GROUP G_KEY_FILE_DESKTOP_KEY_NAME ≠ none) →
      ∃ m2, items_configuration_loaded_cb env plugins key_file m = some m2) ∧
    ∀ m2, items_configuration_loaded_cb env plugins key_file m = some m2 →
      g_hash_map_lookup m2.installed path = some info ∧
      (info.multiple = true ∨
        ¬ (∃ g, g ∈ g_key_file_get_groups key_file ∧
          g_key_file_get_string key_file g ITEMS_KEY_DESKTOP_FILE = some path) →
        (info.name, path) ∈ m2.model) := by
  refine ⟨refresh_total env plugins key_file m, fun m2 hrefresh => ?_⟩
  obtain ⟨installed, hl, hm2⟩ := refresh_some env plugins key_file m m2 hrefresh
  have hlook := load_plugins_lookup env plugins _ _ path info hl hinfo
  subst hm2
  refine ⟨hlook, fun hc => ?_⟩
  refine (mem_fill_model _ _ _).2 ⟨(path, info), mem_of_hash_map_lookup _ _ _ _ hlook, ?_, rfl⟩
  rcases hc with hc | hc
  · exact Or.inl hc
  · refine Or.inr (fun hmem => hc ?_)
    have := (mem_load_groups_snd _ _ _ _ _).1 hmem
    simpa using this

/-- Witness of C27: the catalogue of the sample state through a refresh with an
empty plugin list. -/
theorem refresh_keeps_catalogue_witness :
    items_configuration_loaded_cb sample_env [] [] sample_manager =
      some ((items_configuration_loaded_cb sample_env [] [] sample_manager).getD
        initial_manager) ∧
    g_hash_map_lookup sample_manager.installed notes_path =
      some { name := "Notes", multiple := true } ∧
    ("Notes", notes_path) ∈
      ((items_configuration_loaded_cb sample_env [] [] sample_manager).getD
        initial_manager).model :=
  ⟨by decide, by decide,
    ((refresh_keeps_catalogue sample_env [] [] sample_manager notes_path
      { name := "Notes", multiple := true } (by decide)).2
      ((items_configuration_loaded_cb sample_env [] [] sample_manager).getD initial_manager)
      (by decide)).2 (Or.inl rfl)⟩

/-- C29: the address `hd_task_manager_activate_service` builds for a service
string with the bytes `s`. With a `.` (byte 46) in `s`, the service and the
interface are `s` and the path is `/` (byte 47) followed by `s` with every `.`
replaced by `/`; without one, the service and the interface are `com.nokia.`
followed by `s` and the path is `/com/nokia/` followed by `s`. Each of the
three is cut to its first 254 bytes. -/
theorem activate_service_address_spec (s : List UInt8) :
    ((46 : UInt8) ∈ s →
      (activate_service_address s).1 = s.take 254 ∧
      (activate_service_address s).2.2 = s.take 254 ∧
      (activate_service_address s).2.1 =
        ((47 : UInt8) :: s.map (fun c => if c = 46 then 47 else c)).take 254) ∧
    ((46 : UInt8) ∉ s →
      (activate_service_address s).1 = (string_bytes "com.nokia." ++ s).take 254 ∧
      (activate_service_address s).2.2 = (string_bytes "com.nokia." ++ s).take 254 ∧
      (activate_service_address s).2.1 = (string_bytes "/com/nokia/" ++ s).take 254) ∧
    ((activate_service_address s).1.length ≤ 254 ∧
      (activate_service_address s).2.1.length ≤ 254 ∧
      (activate_service_address s).2.2.length ≤ 254) ∧
    ((46 : UInt8) ∈ s → s.length ≤ 253 →
      activate_service_address s =
        (s, (47 : UInt8) :: s.map (fun c => if c = 46 then 47 else c), s)) ∧
    ((46 : UInt8) ∉ s → s.length ≤ 243 →
      activate_service_address s =
        (string_bytes "com.nokia." ++ s, string_bytes "/com/nokia/" ++ s,
          string_bytes "com.nokia." ++ s)) := by
  have hslash : string_bytes "/" = [47] := by decide
  have hdotb : string_bytes "." = [46] := by decide
  have hroot : string_bytes OSSO_BUS_ROOT ++ string_bytes "." = string_bytes "com.nokia." := by
    decide
  have hrootp : string_bytes OSSO_BUS_ROOT_PATH ++ string_bytes "/" =
      string_bytes "/com/nokia/" := by decide
  have hdot : (46 : UInt8) ∈ s →
      (activate_service_address s).1 = s.take 254 ∧
      (activate_service_address s).2.2 = s.take 254 ∧
      (activate_service_address s).2.1 =
        ((47 : UInt8) :: s.map (fun c => if c = 46 then 47 else c)).take 254 := by
    intro h
    simp only [activate_service_address, h, if_true, g_snprintf, SERVICE_NAME_LEN,
      INTERFACE_NAME_LEN, TMP_NAME_LEN, PATH_NAME_LEN, g_strdelimit, hslash, hdotb,
      List.mem_singleton]
    refine ⟨trivial, ?_, ?_⟩
    · simp [List.take_take]
    · rw [show (255 - 1 : Nat) = 253 + 1 from rfl, List.singleton_append, List.take_succ_cons,
        List.take_succ_cons, List.map_take, List.take_take]
      simp
  have hplain : (46 : UInt8) ∉ s →
      (activate_service_address s).1 = (string_bytes "com.nokia." ++ s).take 254 ∧
      (activate_service_address s).2.2 = (string_bytes "com.nokia." ++ s).take 254 ∧
      (activate_service_address s).2.1 = (string_bytes "/com/nokia/" ++ s).take 254 := by
    intro h
    simp only [activate_service_address, h, if_false, g_snprintf, SERVICE_NAME_LEN,
      INTERFACE_NAME_LEN, PATH_NAME_LEN, hroot, hrootp]
    refine ⟨trivial, ?_, trivial⟩
    simp [List.take_take]
  have hl1 : (string_bytes "com.nokia.").length = 10 := by decide
  have hl2 : (string_bytes "/com/nokia/").length = 11 := by decide
  refine ⟨hdot, hplain, ?_, ?_, ?_⟩
  · by_cases h : (46 : UInt8) ∈ s
    · obtain ⟨h1, h2, h3⟩ := hdot h
      rw [h1, h2, h3]
      simp only [List.length_take]
      omega
    · obtain ⟨h1, h2, h3⟩ := hplain h
      rw [h1, h2, h3]
      simp only [List.length_take]
      omega
  · intro h hlen
    obtain ⟨h1, h2, h3⟩ := hdot h
    have hs : s.take 254 = s := List.take_of_length_le (by omega)
    refine Prod.ext ?_ (Prod.ext ?_ ?_)
    · rw [h1, hs]
    · rw [h3]
      exact List.take_of_length_le (by
        simp only [List.length_cons, List.length_map]
        omega)
    · rw [h2, hs]
  · intro h hlen
    obtain ⟨h1, h2, h3⟩ := hplain h
    refine Prod.ext ?_ (Prod.ext ?_ ?_)
    · rw [h1]; exact List.take_of_length_le (by rw [List.length_append, hl1]; omega)
    · rw [h3]; exact List.take_of_length_le (by rw [List.length_append, hl2]; omega)
    · rw [h2]; exact List.take_of_length_le (by rw [List.length_append, hl1]; omega)

/-- Witness of C29: a dotted service name, a plain one, and a plain one of
125 characters of two bytes each, cut at 254 bytes. -/
theorem activate_service_address_spec_witness :
    activate_service_address (string_bytes "org.maemo.clock") =
      (string_bytes "org.maemo.clock", string_bytes "/org/maemo/clock",
        string_bytes "org.maemo.clock") ∧
    activate_service_address (string_bytes "clock") =
      (string_bytes "com.nokia." ++ string_bytes "clock",
        string_bytes "/com/nokia/" ++ string_bytes "clock",
        string_bytes "com.nokia." ++ string_bytes "clock") ∧
    (string_bytes (String.mk (List.replicate 125 (Char.ofNat 233)))).length = 250 ∧
    (activate_service_address
      (string_bytes (String.mk (List.replicate 125 (Char.ofNat 233))))).1 =
      (string_bytes "com.nokia." ++
        string_bytes (String.mk (List.replicate 125 (Char.ofNat 233)))).take 254 :=
  ⟨((activate_service_address_spec (string_bytes "org.maemo.clock")).2.2.2.1
      (by decide) (by decide)).trans (by decide),
    (activate_service_address_spec (string_bytes "clock")).2.2.2.2 (by decide) (by decide),
    by set_option maxRecDepth 100000 in decide,
    ((activate_service_address_spec
      (string_bytes (String.mk (List.replicate 125 (Char.ofNat 233))))).2.1
      (by set_option maxRecDepth 100000 in decide)).1⟩


end HildonHome
